import Mathlib

/-!
# BioDynaMo `ResourceManager`: a shallow embedding

The agent store of `src/core/resource_manager.h` is embedded as pure functions
on an explicit state.

* `std::vector` is a `List`; an out-of-range `operator[]`, `back()` or
  `pop_back()` is undefined behaviour in C++ and is the result
  `Except.error Fault.undefinedBehaviour` here.
* `std::unordered_map` is an association list read through `UnorderedMap.find`;
  the functions do not require the keys to be unique, and separate theorems
  show that the operations of the store keep them unique.
* A `uint16_t` is a `Fin 65536` and a `uint32_t` a `Fin 4294967296`; the
  narrowing conversions of the source and its subtraction in `size_t` are
  written out with an explicit `%`.
* `assert` and `Log::Fatal` end the process; they are the results
  `Except.error Fault.assertion` and `Except.error Fault.fatal`.
-/

namespace bdm

/-! ## Data model -/

/-- The unique identifier of a simulation object (`SoUid`, an unsigned 64 bit
number on which the store performs no arithmetic). -/
abbrev SoUid := Nat

/-- Modelled from the spec: `SimObject` (`core/sim_object/sim_object.h` is not
part of the sources). The store only ever calls `GetUid()` on an agent; the
rest of the agent (position, size, behaviours) is the opaque field `state`.
A `SimObject*` held by the store is identified with the agent it points to. -/
structure SimObject where
  uid : SoUid
  state : Nat
deriving DecidableEq, Repr

/-- `so->GetUid()`. -/
def SimObject.GetUid (so : SimObject) : SoUid := so.uid

/-- Modelled from the spec: `DiffusionGrid` (`core/diffusion_grid.h` is not
part of the sources). The store reads its substance id and substance name. -/
structure DiffusionGrid where
  substance_id : Nat
  substance_name : String
deriving DecidableEq, Repr

/-- `SoHandle::NumaNode_t = uint16_t`. -/
abbrev NumaNode_t := Fin 65536

/-- `SoHandle::ElementIdx_t = uint32_t`. -/
abbrev ElementIdx_t := Fin 4294967296

/-- Conversion of an unsigned value to `uint16_t`. -/
def toNumaNode_t (n : Nat) : NumaNode_t := ⟨n % 65536, Nat.mod_lt n (by decide)⟩

/-- Conversion of an unsigned value to `uint32_t`. -/
def toElementIdx_t (n : Nat) : ElementIdx_t :=
  ⟨n % 4294967296, Nat.mod_lt n (by decide)⟩

/-- The value of `n - 1` computed in `size_t` (unsigned, 64 bit): `0 - 1` wraps
around to `2^64 - 1`. -/
def size_t_pred (n : Nat) : Nat :=
  (n + 18446744073709551615) % 18446744073709551616

/-- `class SoHandle`: the storage location (numa node, element index) of a
simulation object. -/
structure SoHandle where
  numa_node_ : NumaNode_t
  element_idx_ : ElementIdx_t
deriving DecidableEq, Repr

namespace SoHandle

/-- `constexpr SoHandle() noexcept`: both fields take the largest value of
their type. -/
def default : SoHandle := ⟨⟨65535, by decide⟩, ⟨4294967295, by decide⟩⟩

/-- `SoHandle(NumaNode_t numa_node, ElementIdx_t element_idx)`, called with
unsigned arguments that are converted to the parameter types. -/
def make (numa_node element_idx : Nat) : SoHandle :=
  ⟨toNumaNode_t numa_node, toElementIdx_t element_idx⟩

/-- `GetNumaNode()`. -/
def GetNumaNode (h : SoHandle) : Nat := h.numa_node_.val

/-- `GetElementIdx()`. -/
def GetElementIdx (h : SoHandle) : Nat := h.element_idx_.val

end SoHandle

/-- How a call ends without returning to its caller. -/
inductive Fault where
  /-- A failed `assert`: the process is aborted. -/
  | assertion
  /-- A call of `Log::Fatal`: the process terminates with a diagnostic. -/
  | fatal
  /-- An out-of-range access of a `std::vector`: undefined behaviour. -/
  | undefinedBehaviour
  /-- An uncaught `std::out_of_range`, thrown by `at` or `substr`. -/
  | out_of_range
deriving DecidableEq, Repr

instance instDecidableEqExcept {ε α : Type} [DecidableEq ε] [DecidableEq α] :
    DecidableEq (Except ε α)
  | .ok a, .ok b =>
    if h : a = b then isTrue (by rw [h]) else isFalse (fun h1 => h (Except.ok.inj h1))
  | .error a, .error b =>
    if h : a = b then isTrue (by rw [h])
    else isFalse (fun h1 => h (Except.error.inj h1))
  | .ok _, .error _ => isFalse (fun h => Except.noConfusion h)
  | .error _, .ok _ => isFalse (fun h => Except.noConfusion h)

/-! ## `std::unordered_map` with keys in `Nat` -/

namespace UnorderedMap

variable {V : Type}

/-- `m.find(k)`: the value stored under `k`, `none` for `m.end()`. -/
def find : List (Nat × V) → Nat → Option V
  | [], _ => none
  | (k', v) :: rest, k => if k' = k then some v else find rest k

/-- `m.erase(k)` / `m.erase(m.find(k))`. -/
def erase (m : List (Nat × V)) (k : Nat) : List (Nat × V) :=
  m.filter (fun e => decide (e.1 ≠ k))

/-- `m[k] = v`: the entry of `k` is created or overwritten. -/
def assign (m : List (Nat × V)) (k : Nat) (v : V) : List (Nat × V) :=
  (k, v) :: erase m k

/-- `m[k]` read: the value under `k`; an absent key is first inserted with the
default-constructed value `dflt`. Returns the value and the map afterwards. -/
def index (m : List (Nat × V)) (k : Nat) (dflt : V) : V × List (Nat × V) :=
  match find m k with
  | some v => (v, m)
  | none => (dflt, (k, dflt) :: m)

/-- `m.size()`. -/
def size (m : List (Nat × V)) : Nat := m.length

end UnorderedMap

/-! ## `class ResourceManager` -/

/-- The data members of `ResourceManager`: `uid_soh_map_`, `sim_objects_`
(one vector per numa node) and `diffusion_grids_`. -/
structure ResourceManager where
  uid_soh_map_ : List (SoUid × SoHandle)
  sim_objects_ : List (List SimObject)
  diffusion_grids_ : List (Nat × DiffusionGrid)
deriving DecidableEq, Repr

namespace ResourceManager

/-- `ResourceManager()`: fatal when `numa_available()` returns `-1`, otherwise
`sim_objects_.resize(numa_num_configured_nodes())` on empty members. -/
def construct (numa_available : Int) (numa_num_configured_nodes : Nat) :
    Except Fault ResourceManager :=
  if numa_available = -1 then .error .fatal
  else .ok ⟨[], List.replicate numa_num_configured_nodes [], []⟩

/-- `bool Contains(SoUid uid) const`. -/
def Contains (rm : ResourceManager) (uid : SoUid) : Bool :=
  (UnorderedMap.find rm.uid_soh_map_ uid).isSome

/-- `SimObject* GetSimObjectWithSoHandle(SoHandle soh)`. -/
def GetSimObjectWithSoHandle (rm : ResourceManager) (soh : SoHandle) :
    Except Fault SimObject :=
  match rm.sim_objects_[soh.GetNumaNode]? with
  | none => .error .undefinedBehaviour
  | some numa_sos =>
    match numa_sos[soh.GetElementIdx]? with
    | none => .error .undefinedBehaviour
    | some so => .ok so

/-- `SimObject* GetSimObject(SoUid uid)`. `NDEBUG` tells whether `assert` is
compiled out. The function is not `const`: `uid_soh_map_[uid]` may insert, so
the store after the call is returned with the agent. -/
def GetSimObject (NDEBUG : Bool) (rm : ResourceManager) (uid : SoUid) :
    Except Fault (SimObject × ResourceManager) :=
  if !NDEBUG && !rm.Contains uid then .error .assertion
  else
    let r := UnorderedMap.index rm.uid_soh_map_ uid SoHandle.default
    let soh := r.1
    match rm.sim_objects_[soh.GetNumaNode]? with
    | none => .error .undefinedBehaviour
    | some numa_sos =>
      match numa_sos[soh.GetElementIdx]? with
      | none => .error .undefinedBehaviour
      | some so => .ok (so, { rm with uid_soh_map_ := r.2 })

/-- `size_t GetNumSimObjects(int numa_node = -1) const`. The sum of the vector
sizes is below `2^64` for vectors that fit into the address space, so the
`size_t` accumulator is a natural number here. -/
def GetNumSimObjects (rm : ResourceManager) (numa_node : Int) :
    Except Fault Nat :=
  if numa_node = -1 then
    .ok (rm.sim_objects_.foldl (fun num_so numa_sos => num_so + numa_sos.length) 0)
  else
    match numa_node with
    | Int.ofNat n =>
      match rm.sim_objects_[n]? with
      | none => .error .undefinedBehaviour
      | some numa_sos => .ok numa_sos.length
    | Int.negSucc _ => .error .undefinedBehaviour

/-- `void Clear()`. -/
def Clear (rm : ResourceManager) : ResourceManager :=
  { rm with uid_soh_map_ := [], sim_objects_ := rm.sim_objects_.map (fun _ => []) }

/-- `void push_back(SimObject* so, SoHandle::NumaNode_t numa_node = 0)`. -/
def push_back (rm : ResourceManager) (so : SimObject) (numa_node : NumaNode_t) :
    Except Fault ResourceManager :=
  match rm.sim_objects_[numa_node.val]? with
  | none => .error .undefinedBehaviour
  | some numa_sos =>
    let numa_sos1 := numa_sos ++ [so]
    .ok { rm with
      sim_objects_ := rm.sim_objects_.set numa_node.val numa_sos1
      uid_soh_map_ := UnorderedMap.assign rm.uid_soh_map_ so.GetUid
        (SoHandle.make numa_node.val (size_t_pred numa_sos1.length)) }

/-- `push_back(so)` with the default argument `numa_node = 0`. -/
def push_back_default (rm : ResourceManager) (so : SimObject) :
    Except Fault ResourceManager :=
  push_back rm so ⟨0, by decide⟩

/-- `void Remove(SoUid uid)`. -/
def Remove (rm : ResourceManager) (uid : SoUid) : Except Fault ResourceManager :=
  match UnorderedMap.find rm.uid_soh_map_ uid with
  | none => .ok rm
  | some soh =>
    let map1 := UnorderedMap.erase rm.uid_soh_map_ uid
    match rm.sim_objects_[soh.GetNumaNode]? with
    | none => .error .undefinedBehaviour
    | some numa_sos =>
      if soh.GetElementIdx = size_t_pred numa_sos.length then
        match numa_sos.getLast? with
        | none => .error .undefinedBehaviour
        | some _ =>
          .ok { rm with
            uid_soh_map_ := map1
            sim_objects_ := rm.sim_objects_.set soh.GetNumaNode numa_sos.dropLast }
      else
        match numa_sos[soh.GetElementIdx]?, numa_sos.getLast? with
        | some _, some reordered =>
          .ok { rm with
            uid_soh_map_ := UnorderedMap.assign map1 reordered.GetUid soh
            sim_objects_ := rm.sim_objects_.set soh.GetNumaNode
              (numa_sos.set soh.GetElementIdx reordered).dropLast }
        | _, _ => .error .undefinedBehaviour

/-- The agent stored at slot `i` of partition `n`, if there is such a slot. -/
def slotAt (rm : ResourceManager) (n i : Nat) : Option SimObject :=
  match rm.sim_objects_[n]? with
  | none => none
  | some numa_sos => numa_sos[i]?

/-- The number of agents in partition `n` (`0` when there is no such partition). -/
def partitionSize (rm : ResourceManager) (n : Nat) : Nat :=
  (rm.sim_objects_.getD n []).length

end ResourceManager

/-- The handle `h` is the location (partition `n`, slot `i`). -/
def SoHandle.PointsTo (h : SoHandle) (n i : Nat) : Prop :=
  h.GetNumaNode = n ∧ h.GetElementIdx = i

instance instDecidablePointsTo (h : SoHandle) (n i : Nat) : Decidable (h.PointsTo n i) :=
  inferInstanceAs (Decidable (_ ∧ _))

/-- The store invariant: the keys of the IdentityMap are unique, every entry
points at a slot that holds an agent with the entry's uid, and the agent in
every slot has an entry that points at this slot. -/
structure StoreInvariant (rm : ResourceManager) : Prop where
  keys_nodup : (rm.uid_soh_map_.map Prod.fst).Nodup
  entry_slot : ∀ uid soh, UnorderedMap.find rm.uid_soh_map_ uid = some soh →
    ∃ so, rm.slotAt soh.GetNumaNode soh.GetElementIdx = some so ∧ so.uid = uid
  slot_entry : ∀ n i so, rm.slotAt n i = some so →
    ∃ soh, UnorderedMap.find rm.uid_soh_map_ so.uid = some soh ∧ soh.PointsTo n i

end bdm

namespace bdm

namespace ResourceManager

/-- A uid is live when some slot of some partition holds an agent with it. -/
def Live (rm : ResourceManager) (uid : SoUid) : Prop :=
  ∃ n i so, rm.slotAt n i = some so ∧ so.uid = uid

/-- `GetNumSimObjects()` with the default argument `numa_node = -1`. -/
def GetNumSimObjects_default (rm : ResourceManager) : Except Fault Nat :=
  rm.GetNumSimObjects (-1)

/-- The calls `Remove(u)` for the uids `u` of a list, one after the other. -/
def RemoveAll (rm : ResourceManager) : List SoUid → Except Fault ResourceManager
  | [] => .ok rm
  | uid :: rest =>
    match rm.Remove uid with
    | .ok rm1 => RemoveAll rm1 rest
    | .error f => .error f

/-- An executable check of the store invariant. -/
def checkInvariant (rm : ResourceManager) : Bool :=
  decide (rm.uid_soh_map_.map Prod.fst).Nodup &&
  rm.uid_soh_map_.all (fun e =>
    match rm.slotAt e.2.GetNumaNode e.2.GetElementIdx with
    | some so => decide (so.uid = e.1)
    | none => false) &&
  (List.range rm.sim_objects_.length).all (fun n =>
    (List.range (rm.partitionSize n)).all (fun i =>
      match rm.slotAt n i with
      | some so =>
        match UnorderedMap.find rm.uid_soh_map_ so.uid with
        | some soh => decide (soh.PointsTo n i)
        | none => false
      | none => false))

end ResourceManager

/-- The property of the IdentityMap that the data model states: every live uid
has exactly one entry, the entry's handle is in bounds and the agent at the
handle has this uid, every slot is the target of exactly one entry, and a uid
is stored in at most one slot. -/
structure IdentityMapConsistent (rm : ResourceManager) : Prop where
  one_entry : ∀ uid, rm.Live uid →
    (rm.uid_soh_map_.filter (fun e => decide (e.1 = uid))).length = 1
  entry_slot : ∀ uid, rm.Live uid →
    ∃ soh so, UnorderedMap.find rm.uid_soh_map_ uid = some soh ∧
      rm.slotAt soh.GetNumaNode soh.GetElementIdx = some so ∧ so.uid = uid
  one_target : ∀ n i so, rm.slotAt n i = some so →
    (rm.uid_soh_map_.filter (fun e => decide (e.2.PointsTo n i))).length = 1
  one_slot : ∀ n i a n1 i1 b, rm.slotAt n i = some a → rm.slotAt n1 i1 = some b →
    a.uid = b.uid → n = n1 ∧ i = i1

/-- The states reached from a freshly constructed store by any sequence of
`push_back` (of an agent whose uid is not stored), `Remove` and `Clear`. -/
inductive Reachable : ResourceManager → Prop
  | construct {a : Int} {k : Nat} {rm : ResourceManager} :
      ResourceManager.construct a k = .ok rm → Reachable rm
  | push_back {rm rm1 : ResourceManager} (so : SimObject) (p : NumaNode_t) :
      Reachable rm → rm.Contains so.uid = false → rm.push_back so p = .ok rm1 →
      Reachable rm1
  | Remove {rm rm1 : ResourceManager} (uid : SoUid) :
      Reachable rm → rm.Remove uid = .ok rm1 → Reachable rm1
  | Clear {rm : ResourceManager} : Reachable rm → Reachable rm.Clear

/-- The states reached as in `Reachable`, where every `push_back` goes into a
partition that holds fewer than `2^32` agents (the range of `ElementIdx_t`). -/
inductive ReachableWithinCapacity : ResourceManager → Prop
  | construct {a : Int} {k : Nat} {rm : ResourceManager} :
      ResourceManager.construct a k = .ok rm → ReachableWithinCapacity rm
  | push_back {rm rm1 : ResourceManager} (so : SimObject) (p : NumaNode_t) :
      ReachableWithinCapacity rm → rm.Contains so.uid = false →
      rm.partitionSize p.val < 4294967296 → rm.push_back so p = .ok rm1 →
      ReachableWithinCapacity rm1
  | Remove {rm rm1 : ResourceManager} (uid : SoUid) :
      ReachableWithinCapacity rm → rm.Remove uid = .ok rm1 → ReachableWithinCapacity rm1
  | Clear {rm : ResourceManager} :
      ReachableWithinCapacity rm → ReachableWithinCapacity rm.Clear

/-- The agent with uid `i`. -/
def agent (i : Nat) : SimObject := ⟨i, i⟩

/-- The store after `push_back(agent 0)`, ..., `push_back(agent (n - 1))` into
partition 0 of a freshly constructed store with one numa node. -/
def filled (n : Nat) : ResourceManager :=
  { uid_soh_map_ := (List.range n).reverse.map
      (fun i => (i, SoHandle.make 0 (size_t_pred (i + 1))))
    sim_objects_ := [(List.range n).map agent]
    diffusion_grids_ := [] }

end bdm

namespace bdm

/-- A store with two partitions: the agents with uids 1, 2, 3 in partition 0
and the agent with uid 4 in partition 1. -/
def exampleStore : ResourceManager :=
  { uid_soh_map_ := [(4, SoHandle.make 1 0), (3, SoHandle.make 0 2),
      (2, SoHandle.make 0 1), (1, SoHandle.make 0 0)]
    sim_objects_ := [[⟨1, 10⟩, ⟨2, 20⟩, ⟨3, 30⟩], [⟨4, 40⟩]]
    diffusion_grids_ := [] }

/-- A store with one partition that holds `2^32` agents, as many as
`ElementIdx_t` has values; its map holds no entry. -/
def fullStore : ResourceManager :=
  { uid_soh_map_ := []
    sim_objects_ := [List.replicate 4294967296 (agent 0)]
    diffusion_grids_ := [] }

end bdm

namespace bdm

/-- The uid `uid` resolves to the agent `a`: the IdentityMap has an entry for
`uid`, and the slot its handle points at holds `a`. -/
def ResourceManager.Resolves (rm : ResourceManager) (uid : SoUid) (a : SimObject) : Prop :=
  ∃ soh, UnorderedMap.find rm.uid_soh_map_ uid = some soh ∧
    rm.slotAt soh.GetNumaNode soh.GetElementIdx = some a

/-- The sum of the sizes of all partitions. -/
def ResourceManager.total (rm : ResourceManager) : Nat :=
  (rm.sim_objects_.map List.length).sum

end bdm

namespace bdm

end bdm

namespace bdm

/-! ## Traversal, move assignment and diffusion grids -/

/-- Modelled from the spec: `Log::Fatal` (`core/util/log.h` is not part of the
sources). "Fatal errors terminate the process with a diagnostic message": a
call of `Log::Fatal` ends the process, which is the fault `Fault.fatal`. -/
def Log.Fatal : Fault := Fault.fatal

/-- The loop `for (uint64_t i = start; ...; ++i) body(i, xs[i - start])` over a
vector `xs`, threading the state that the body changes. -/
def forEachIdx {α σ : Type} (body : σ → Nat → α → σ) : Nat → List α → σ → σ
  | _, [], st => st
  | i, x :: rest, st => forEachIdx body (i + 1) rest (body st i x)

/-- The elements of a vector with their indices, counted from `start`. -/
def indexed {α : Type} : Nat → List α → List (Nat × α)
  | _, [] => []
  | i, x :: rest => (i, x) :: indexed (i + 1) rest

namespace ResourceManager

/-- `void ApplyOnAllElements(const std::function<void(SimObject*)>& function)`.
The callback acts on the state `σ` it captures; it does not insert or remove
agents (callers must not change the store during the traversal). -/
def ApplyOnAllElements {σ : Type} (rm : ResourceManager) (function : σ → SimObject → σ)
    (st : σ) : σ :=
  rm.sim_objects_.foldl (fun st numa_sos => numa_sos.foldl function st) st

/-- `void ApplyOnAllElements(const std::function<void(SimObject*, SoHandle)>&
function)`: the loops over `n` and `i` call `function(numa_sos[i], SoHandle(n, i))`. -/
def ApplyOnAllElements_SoHandle {σ : Type} (rm : ResourceManager)
    (function : σ → SimObject → SoHandle → σ) (st : σ) : σ :=
  forEachIdx (fun st n numa_sos =>
    forEachIdx (fun st i so => function st so (SoHandle.make n i)) 0 numa_sos st)
    0 rm.sim_objects_ st

/-- The occupied slots (partition, slot, agent) in ascending partition order and
ascending slot order within a partition. -/
def slotList (rm : ResourceManager) : List (Nat × Nat × SimObject) :=
  (indexed 0 rm.sim_objects_).flatMap
    (fun p => (indexed 0 p.2).map (fun e => (p.1, e.1, e.2)))

/-- Slot `a` comes before slot `b` in the traversal: a lower partition, or the
same partition and a lower slot. -/
def SlotBefore (a b : Nat × Nat × SimObject) : Prop :=
  a.1 < b.1 ∨ (a.1 = b.1 ∧ a.2.1 < b.2.1)

/-- `ResourceManager& operator=(ResourceManager&& other)`: fatal when the
numbers of numa nodes differ, otherwise the three members are moved from
`other`. -/
def moveAssign (self other : ResourceManager) : Except Fault ResourceManager :=
  if self.sim_objects_.length ≠ other.sim_objects_.length then .error Log.Fatal
  else .ok
    { uid_soh_map_ := other.uid_soh_map_
      sim_objects_ := other.sim_objects_
      diffusion_grids_ := other.diffusion_grids_ }

/-- `void AddDiffusionGrid(DiffusionGrid* dgrid)`. When the call ends in
`Log::Fatal`, the store at that moment is given with the fault. -/
def AddDiffusionGrid (rm : ResourceManager) (dgrid : DiffusionGrid) :
    Except (Fault × ResourceManager) ResourceManager :=
  let substance_id := dgrid.substance_id
  match UnorderedMap.find rm.diffusion_grids_ substance_id with
  | some _ => .error (Log.Fatal, rm)
  | none =>
    .ok { rm with
      diffusion_grids_ := UnorderedMap.assign rm.diffusion_grids_ substance_id dgrid }

end ResourceManager

/-! ## `class Simulation` -/

/-- Modelled from the spec: `Random` (`core/util/random.h` is not part of the
sources), the state of one seedable random number generator. -/
structure Random where
  state : Nat
deriving DecidableEq, Repr

/-- Modelled from the spec: `Param` (`core/param/param.h` is not part of the
sources); the scalar options that `Simulation` reads and writes. -/
structure Param where
  backup_file_ : String
  restore_file_ : String
  output_dir_ : String
deriving DecidableEq, Repr

/-- Modelled from the spec: `InPlaceExecutionContext`
(`core/execution_context/in_place_exec_ctxt.h` is not part of the sources), the
execution context of one worker thread; `Simulation` only constructs it. -/
structure InPlaceExecutionContext where
deriving DecidableEq, Repr

/-- Modelled from the spec: `Grid` (`core/grid.h` is not part of the sources),
the spatial index; `Simulation` only constructs it. -/
structure Grid where
deriving DecidableEq, Repr

/-- Modelled from the spec: `Scheduler` (`core/scheduler.h` is not part of the
sources), which drives the simulation steps; `Simulation` only constructs it. -/
structure Scheduler where
deriving DecidableEq, Repr

/-- A line written by `Log::Info` or `Log::Warning`. -/
inductive LogEntry where
  | info (location message : String)
  | warning (location message : String)
deriving DecidableEq, Repr

/-- The data members of `Simulation`. The members `exec_ctxt_`, `grid_` and
`scheduler_` are written by `InitializeMembers` only; a `grid_` or `scheduler_`
that points to no object is `none`. -/
structure Simulation where
  rm_ : ResourceManager
  param_ : Param
  random_ : List Random
  name_ : String
  unique_name_ : String
  output_dir_ : String
  id_ : Nat
  exec_ctxt_ : List InPlaceExecutionContext := []
  grid_ : Option Grid := none
  scheduler_ : Option Scheduler := none
deriving DecidableEq, Repr

namespace Simulation

/-- `void InitializeUniqueName(const std::string& simulation_name)`. -/
def InitializeUniqueName (self : Simulation) (simulation_name : String) : Simulation :=
  { self with
    name_ := simulation_name
    unique_name_ :=
      if self.id_ > 0 then simulation_name ++ toString self.id_ else simulation_name }

/-- `void InitializeOutputDir()`. The parameter `system` gives the exit status
of a shell command. -/
def InitializeOutputDir (self : Simulation) (system : String → Int) :
    Except Fault Simulation :=
  let output_dir :=
    if self.unique_name_ = "" then self.param_.output_dir_
    else self.param_.output_dir_ ++ "/" ++ self.unique_name_
  if system ("mkdir -p " ++ output_dir) ≠ 0 then .error Log.Fatal
  else .ok { self with output_dir_ := output_dir }

end Simulation

/-- The store `exampleStore` with one diffusion grid, registered under the
substance id 0. -/
def gridStore : ResourceManager :=
  { exampleStore with diffusion_grids_ := [(0, ⟨0, "Kalium"⟩)] }

/-- A store with one partition and no agents. -/
def smallStore : ResourceManager :=
  { uid_soh_map_ := [], sim_objects_ := [[]], diffusion_grids_ := [] }

/-- A simulation with two generators whose store is `exampleStore`. -/
def exampleSimulation : Simulation :=
  { rm_ := exampleStore
    param_ := ⟨"", "backup.root", "output"⟩
    random_ := [⟨1⟩, ⟨2⟩]
    name_ := "sim"
    unique_name_ := "sim"
    output_dir_ := "output/sim"
    id_ := 0 }

/-- A restored simulation with three generators and two partitions. -/
def restoredSimulation : Simulation :=
  { rm_ := { uid_soh_map_ := [(7, SoHandle.make 1 0)]
             sim_objects_ := [[], [⟨7, 70⟩]]
             diffusion_grids_ := [(0, ⟨0, "Kalium"⟩)] }
    param_ := ⟨"", "backup.root", "restored_output"⟩
    random_ := [⟨10⟩, ⟨20⟩, ⟨30⟩]
    name_ := "restored"
    unique_name_ := "restored"
    output_dir_ := "restored_output/restored"
    id_ := 0 }

end bdm

namespace bdm

/-! ## Comparison of handles, handle lookup and the diffusion grid registry -/

namespace SoHandle

/-- `bool operator==(const SoHandle& other) const`. -/
def operator_eq (self other : SoHandle) : Bool :=
  decide (self.numa_node_ = other.numa_node_) &&
    decide (self.element_idx_ = other.element_idx_)

/-- `bool operator!=(const SoHandle& other) const`. -/
def operator_ne (self other : SoHandle) : Bool := !(self.operator_eq other)

/-- `bool operator<(const SoHandle& other) const`. -/
def operator_lt (self other : SoHandle) : Bool :=
  if self.numa_node_ = other.numa_node_ then
    decide (self.element_idx_ < other.element_idx_)
  else decide (self.numa_node_ < other.numa_node_)

end SoHandle

namespace ResourceManager

/-- `SoHandle GetSoHandle(SoUid uid) { return uid_soh_map_[uid]; }`: not
`const`, `operator[]` inserts an absent uid with the default handle. Returns the
handle and the store afterwards. -/
def GetSoHandle (rm : ResourceManager) (uid : SoUid) : SoHandle × ResourceManager :=
  let r := UnorderedMap.index rm.uid_soh_map_ uid SoHandle.default
  (r.1, { rm with uid_soh_map_ := r.2 })

/-- `void RemoveDiffusionGrid(size_t substance_id)`. When the call ends in
`Log::Fatal`, the store at that moment is given with the fault. -/
def RemoveDiffusionGrid (rm : ResourceManager) (substance_id : Nat) :
    Except (Fault × ResourceManager) ResourceManager :=
  match UnorderedMap.find rm.diffusion_grids_ substance_id with
  | some _ =>
    .ok { rm with diffusion_grids_ := UnorderedMap.erase rm.diffusion_grids_ substance_id }
  | none => .error (Log.Fatal, rm)

/-- `DiffusionGrid* GetDiffusionGrid(size_t substance_id) const`. `NDEBUG` tells
whether `assert` is compiled out; `at` throws `std::out_of_range` for a key
that is not in the map. -/
def GetDiffusionGrid (NDEBUG : Bool) (rm : ResourceManager) (substance_id : Nat) :
    Except Fault DiffusionGrid :=
  if !NDEBUG && !decide (substance_id < UnorderedMap.size rm.diffusion_grids_) then
    .error .assertion
  else
    match UnorderedMap.find rm.diffusion_grids_ substance_id with
    | some dgrid => .ok dgrid
    | none => .error .out_of_range

end ResourceManager

/-- The stores reached from a freshly constructed store by calls of
`AddDiffusionGrid` and `RemoveDiffusionGrid` that return. -/
inductive GridsReachable : ResourceManager → Prop
  | construct {a : Int} {k : Nat} {rm : ResourceManager} :
      ResourceManager.construct a k = .ok rm → GridsReachable rm
  | AddDiffusionGrid {rm rm1 : ResourceManager} (dgrid : DiffusionGrid) :
      GridsReachable rm → rm.AddDiffusionGrid dgrid = .ok rm1 → GridsReachable rm1
  | RemoveDiffusionGrid {rm rm1 : ResourceManager} (substance_id : Nat) :
      GridsReachable rm → rm.RemoveDiffusionGrid substance_id = .ok rm1 →
      GridsReachable rm1

/-- A freshly constructed store with one partition in which one diffusion grid
has been registered, under the substance id 1. -/
def oneGridStore : ResourceManager :=
  { uid_soh_map_ := [], sim_objects_ := [[]], diffusion_grids_ := [(1, ⟨1, "Calcium"⟩)] }

/-- A store whose partition 0 holds an agent with the uid 1 and whose
IdentityMap has no entry; it is the state after `push_back` of two agents with
the uid 1 and `Remove(1)`. -/
def orphanStore : ResourceManager :=
  { uid_soh_map_ := [], sim_objects_ := [[⟨1, 10⟩]], diffusion_grids_ := [] }

end bdm

namespace bdm

/-! ## Start-up of a `Simulation` -/

namespace StdString

/-- The call `s.find_last_of(c)` of `std::string` for one character `c`: the
largest position of `s` that holds `c`; `none` is `std::string::npos`. -/
def find_last_of (s : List Char) (c : Char) : Option Nat :=
  match s with
  | [] => none
  | x :: rest =>
    match find_last_of rest c with
    | some pos => some (pos + 1)
    | none => if x = c then some 0 else none

/-- The call `s.substr(pos, count)` of `std::string`: `std::out_of_range` is
thrown when `pos > s.size()`, otherwise the result holds the characters of the
positions from `pos` up to, not including, `min(pos + count, s.size())`. -/
def substr (s : List Char) (pos count : Nat) : Except Fault (List Char) :=
  if pos > s.length then .error .out_of_range else .ok ((s.drop pos).take count)

end StdString

/-- The options of the command line that `InitializeRuntimeParams` reads from
the result of `DefaultSimulationOptionParser`
(`core/param/command_line_options.h` is not part of the sources). -/
structure CommandLineOptions where
  backup_file_ : String
  restore_file_ : String
deriving DecidableEq, Repr

/-- What `Initialize` reads from outside the object: the process environment,
the file system, and the functions and constructors that are not part of the
sources. -/
structure Environment where
  /-- The function `std::getenv`; `none` is `nullptr`. -/
  getenv : String → Option String
  /-- The function `system`: the exit status of a shell command. -/
  system : String → Int
  /-- The function `FileExists`. -/
  FileExists : String → Bool
  /-- The string `Version::String()`. -/
  Version_String : String
  /-- The call `bdm::DefaultSimulationOptionParser(argc, argv)`. -/
  DefaultSimulationOptionParser : List String → CommandLineOptions
  /-- The parameters after `new Param_t()`. -/
  Param_t : Param
  /-- The call `param_->AssignFromConfig(cpptoml::parse_file(file))`. -/
  AssignFromConfig : String → Param → Param
  /-- The value of `omp_get_max_threads()`. -/
  omp_get_max_threads : Nat
  /-- The generator after `new Random()`. -/
  new_Random : Random
  /-- The value of `numa_available()`. -/
  numa_available : Int
  /-- The value of `numa_num_configured_nodes()`. -/
  numa_num_configured_nodes : Nat

namespace Simulation

/-- `static std::string ExtractSimulationName(const char* path)`. In the branch
that calls `substr` the string holds a character at `pos`, so `s.length() - 1`
does not wrap around. -/
def ExtractSimulationName (path : String) : Except Fault String :=
  let s := path.data
  match StdString.find_last_of s '/' with
  | none => .ok ⟨s⟩
  | some pos =>
    match StdString.substr s (pos + 1) (s.length - 1) with
    | .error f => .error f
    | .ok r => .ok ⟨r⟩

/-- `void InitializeRuntimeParams(int argc, const char** argv, const
TSetParamLambda& set_param)`: the lines logged by the call and its outcome. -/
def InitializeRuntimeParams (self : Simulation) (env : Environment) (argv : List String)
    (set_param : Param → Param) : List LogEntry × Except Fault Simulation :=
  let param := env.Param_t
  let log := [LogEntry.info ""
    ("Initialize new simulation using BioDynaMo " ++ env.Version_String)]
  match env.getenv "BDM_CMAKE_DIR" with
  | none => (log, .error Log.Fatal)
  | some _ =>
    let options := env.DefaultSimulationOptionParser argv
    let kConfigFile := "bdm.toml"
    let kConfigFileParentDir := "../bdm.toml"
    let r : List LogEntry × Param :=
      if env.FileExists kConfigFile then (log, env.AssignFromConfig kConfigFile param)
      else if env.FileExists kConfigFileParentDir then
        (log, env.AssignFromConfig kConfigFileParentDir param)
      else
        (log ++ [LogEntry.warning "Simulation::InitializeRuntimeParams"
          ("Config file %s not found in `.` or `../` directory." ++ kConfigFile)], param)
    let param1 :=
      if options.backup_file_ ≠ "" then
        { r.2 with
          backup_file_ := options.backup_file_
          restore_file_ := options.restore_file_ }
      else r.2
    (r.1, .ok { self with param_ := set_param param1 })

/-- `void InitializeMembers()`; the constructor of `ResourceManager` is fatal
when `numa_available()` fails. -/
def InitializeMembers (self : Simulation) (env : Environment) : Except Fault Simulation :=
  let random := List.replicate env.omp_get_max_threads env.new_Random
  let exec_ctxt := List.replicate env.omp_get_max_threads InPlaceExecutionContext.mk
  match ResourceManager.construct env.numa_available env.numa_num_configured_nodes with
  | .error f => .error f
  | .ok rm =>
    .ok { self with
      random_ := random
      exec_ctxt_ := exec_ctxt
      rm_ := rm
      grid_ := some Grid.mk
      scheduler_ := some Scheduler.mk }

/-- `void Initialize(int argc, const char** argv, const TSetParamLambda&
set_param)` on the object `self`, with the value `counter_` of the static
counter: the counter afterwards, the lines logged, and the outcome. When a step
ends in a fault, the fault is given with the object on which that step was
called. `Activate()` writes the static `active_` only. -/
def Initialize (self : Simulation) (env : Environment) (counter_ : Nat)
    (argv : List String) (set_param : Param → Param) :
    Nat × List LogEntry × Except (Fault × Simulation) Simulation :=
  let s0 := { self with id_ := counter_ }
  let counter1 := (counter_ + 1) % 18446744073709551616
  match argv[0]? with
  | none => (counter1, [], .error (Fault.undefinedBehaviour, s0))
  | some path =>
    match ExtractSimulationName path with
    | .error f => (counter1, [], .error (f, s0))
    | .ok simulation_name =>
      let s1 := InitializeUniqueName s0 simulation_name
      let r := InitializeRuntimeParams s1 env argv set_param
      match r.2 with
      | .error f => (counter1, r.1, .error (f, s1))
      | .ok s2 =>
        match InitializeOutputDir s2 env.system with
        | .error f => (counter1, r.1, .error (f, s2))
        | .ok s3 =>
          match InitializeMembers s3 env with
          | .error f => (counter1, r.1, .error (f, s3))
          | .ok s4 => (counter1, r.1, .ok s4)

end Simulation

/-- An environment in which `BDM_CMAKE_DIR` is not set. -/
def bareEnvironment : Environment :=
  { getenv := fun _ => none
    system := fun _ => 0
    FileExists := fun _ => false
    Version_String := "0.1.0"
    DefaultSimulationOptionParser := fun _ => ⟨"", ""⟩
    Param_t := ⟨"", "", "output"⟩
    AssignFromConfig := fun _ param => param
    omp_get_max_threads := 2
    new_Random := ⟨0⟩
    numa_available := 0
    numa_num_configured_nodes := 1 }

/-- An environment in which `BDM_CMAKE_DIR` is set, no config file exists, and
the command line gives a restore file and no backup file. -/
def sourcedEnvironment : Environment :=
  { bareEnvironment with
    getenv := fun name => if name = "BDM_CMAKE_DIR" then some "/opt/biodynamo/cmake" else none
    DefaultSimulationOptionParser := fun _ => ⟨"", "restore.root"⟩ }

/-- An environment as `sourcedEnvironment` whose command line gives a backup
file and a restore file. -/
def backupEnvironment : Environment :=
  { sourcedEnvironment with
    DefaultSimulationOptionParser := fun _ => ⟨"backup.root", "restore.root"⟩ }

end bdm

namespace bdm

/-! ## Lemmas on the map operations -/

namespace UnorderedMap

variable {V : Type}

theorem find_cons (k' : Nat) (v : V) (rest : List (Nat × V)) (k : Nat) :
    find ((k', v) :: rest) k = if k' = k then some v else find rest k := rfl

theorem find_erase_self (m : List (Nat × V)) (k : Nat) : find (erase m k) k = none := by
  induction m with
  | nil => rfl
  | cons e rest ih =>
    obtain ⟨k', v⟩ := e
    by_cases h : k' = k
    · simpa [erase, List.filter_cons, h] using ih
    · have : erase ((k', v) :: rest) k = (k', v) :: erase rest k := by
        simp [erase, List.filter_cons, h]
      rw [this, find_cons, if_neg h, ih]

theorem find_erase_ne (m : List (Nat × V)) {k k' : Nat} (h : k' ≠ k) :
    find (erase m k) k' = find m k' := by
  induction m with
  | nil => rfl
  | cons e rest ih =>
    obtain ⟨k1, v⟩ := e
    by_cases h1 : k1 = k
    · have : erase ((k1, v) :: rest) k = erase rest k := by
        simp [erase, List.filter_cons, h1]
      have h2 : ¬ k1 = k' := fun h3 => h (h3 ▸ h1)
      rw [this, find_cons, if_neg h2, ih]
    · have : erase ((k1, v) :: rest) k = (k1, v) :: erase rest k := by
        simp [erase, List.filter_cons, h1]
      rw [this, find_cons, find_cons, ih]

theorem find_assign_self (m : List (Nat × V)) (k : Nat) (v : V) :
    find (assign m k v) k = some v := by
  simp [assign, find_cons]

theorem find_assign_ne (m : List (Nat × V)) {k k' : Nat} (v : V) (h : k' ≠ k) :
    find (assign m k v) k' = find m k' := by
  have h2 : ¬ k = k' := fun h3 => h h3.symm
  rw [assign, find_cons, if_neg h2, find_erase_ne m h]

theorem find_eq_none_iff (m : List (Nat × V)) (k : Nat) :
    find m k = none ↔ k ∉ m.map Prod.fst := by
  induction m with
  | nil => simp [find]
  | cons e rest ih =>
    obtain ⟨k1, v⟩ := e
    by_cases h1 : k1 = k
    · simp [find_cons, h1]
    · have h2 : ¬ k = k1 := fun h3 => h1 h3.symm
      simp [find_cons, h1, h2, ih]

theorem mem_of_find {m : List (Nat × V)} {k : Nat} {v : V} (h : find m k = some v) :
    (k, v) ∈ m := by
  induction m with
  | nil => simp [find] at h
  | cons e rest ih =>
    obtain ⟨k1, v1⟩ := e
    by_cases h1 : k1 = k
    · rw [find_cons, if_pos h1] at h
      cases h
      simp [h1]
    · rw [find_cons, if_neg h1] at h
      exact List.mem_cons_of_mem _ (ih h)

theorem find_of_mem_nodup {m : List (Nat × V)} {k : Nat} {v : V}
    (hn : (m.map Prod.fst).Nodup) (h : (k, v) ∈ m) : find m k = some v := by
  induction m with
  | nil => simp at h
  | cons e rest ih =>
    obtain ⟨k1, v1⟩ := e
    rw [List.map_cons, List.nodup_cons] at hn
    rcases List.mem_cons.mp h with h1 | h1
    · cases h1
      simp [find_cons]
    · have h2 : k1 ≠ k := by
        intro h3
        apply hn.1
        rw [h3]
        exact List.mem_map.mpr ⟨(k, v), h1, rfl⟩
      rw [find_cons, if_neg h2]
      exact ih hn.2 h1

theorem erase_eq_self {m : List (Nat × V)} {k : Nat} (h : find m k = none) :
    erase m k = m := by
  rw [find_eq_none_iff] at h
  unfold erase
  rw [List.filter_eq_self]
  intro e he
  have : e.1 ≠ k := by
    intro h1
    apply h
    rw [← h1]
    exact List.mem_map.mpr ⟨e, he, rfl⟩
  simpa using this

theorem keys_erase_sublist (m : List (Nat × V)) (k : Nat) :
    ((erase m k).map Prod.fst).Sublist (m.map Prod.fst) :=
  (List.filter_sublist m).map Prod.fst

theorem keys_erase_nodup {m : List (Nat × V)} (k : Nat) (hn : (m.map Prod.fst).Nodup) :
    ((erase m k).map Prod.fst).Nodup :=
  hn.sublist (keys_erase_sublist m k)

theorem key_not_mem_erase (m : List (Nat × V)) (k : Nat) :
    k ∉ (erase m k).map Prod.fst :=
  (find_eq_none_iff _ _).mp (find_erase_self m k)

theorem keys_assign_nodup {m : List (Nat × V)} (k : Nat) (v : V)
    (hn : (m.map Prod.fst).Nodup) : ((assign m k v).map Prod.fst).Nodup := by
  rw [assign, List.map_cons, List.nodup_cons]
  exact ⟨key_not_mem_erase m k, keys_erase_nodup k hn⟩

/-- With unique keys, the entries stored under `k` are exactly `find m k`. -/
theorem filter_key_eq {m : List (Nat × V)} (hn : (m.map Prod.fst).Nodup) (k : Nat) :
    (m.filter (fun e => decide (e.1 = k))).map Prod.snd = (find m k).toList := by
  induction m with
  | nil => rfl
  | cons e rest ih =>
    obtain ⟨k1, v1⟩ := e
    rw [List.map_cons, List.nodup_cons] at hn
    by_cases h1 : k1 = k
    · have h2 : find rest k = none := by
        rw [find_eq_none_iff, ← h1]
        exact hn.1
      have h3 := ih hn.2
      rw [h2] at h3
      simp only [List.filter_cons, h1, decide_True, if_true, List.map_cons, find_cons]
      rw [h3]
      rfl
    · simp only [List.filter_cons, h1, decide_False, find_cons, if_false]
      simpa using ih hn.2

end UnorderedMap

end bdm

namespace bdm

/-! ## Lemmas on vectors and machine integers -/

theorem size_t_pred_eq {n : Nat} (h1 : 0 < n) (h2 : n ≤ 18446744073709551616) :
    size_t_pred n = n - 1 := by
  unfold size_t_pred
  omega

theorem getElem?_dropLast_eq {α : Type} (l : List α) (j : Nat) :
    l.dropLast[j]? = if j + 1 < l.length then l[j]? else none := by
  rw [List.dropLast_eq_take]
  by_cases h : j + 1 < l.length
  · rw [if_pos h, List.getElem?_take_of_lt (by omega)]
  · rw [if_neg h, List.getElem?_eq_none_iff, List.length_take]
    omega

theorem getElem?_set_dropLast {α : Type} (l : List α) (i j : Nat) (a : α) :
    (l.set i a).dropLast[j]? =
      if j + 1 < l.length then (if i = j then some a else l[j]?) else none := by
  rw [getElem?_dropLast_eq, List.length_set]
  by_cases h : j + 1 < l.length
  · rw [if_pos h, if_pos h, List.getElem?_set]
    by_cases h1 : i = j
    · rw [if_pos h1, if_pos h1, if_pos (by omega)]
    · rw [if_neg h1, if_neg h1]
  · rw [if_neg h, if_neg h]

theorem length_set_dropLast {α : Type} (l : List α) (i : Nat) (a : α) :
    (l.set i a).dropLast.length = l.length - 1 := by
  rw [List.length_dropLast, List.length_set]

theorem getLast?_eq_getElem? {α : Type} (l : List α) :
    l.getLast? = l[l.length - 1]? := by
  rw [List.getLast?_eq_getElem?]

theorem getElem?_set_outer {α : Type} (ls : List α) (p n : Nat) (q old : α)
    (h : ls[p]? = some old) :
    (ls.set p q)[n]? = if n = p then some q else ls[n]? := by
  have hp : p < ls.length := by
    rcases Nat.lt_or_ge p ls.length with h1 | h1
    · exact h1
    · rw [List.getElem?_eq_none_iff.mpr h1] at h
      cases h
  rw [List.getElem?_set]
  by_cases h1 : n = p
  · rw [if_pos h1.symm, if_pos h1, if_pos (h1 ▸ hp)]
  · rw [if_neg (fun h2 => h1 h2.symm), if_neg h1]

namespace ResourceManager

theorem slotAt_eq {rm : ResourceManager} {n : Nat} {numa_sos : List SimObject}
    (h : rm.sim_objects_[n]? = some numa_sos) (i : Nat) :
    rm.slotAt n i = numa_sos[i]? := by
  unfold slotAt
  rw [h]

theorem slotAt_some {rm : ResourceManager} {n i : Nat} {so : SimObject}
    (h : rm.slotAt n i = some so) :
    ∃ numa_sos, rm.sim_objects_[n]? = some numa_sos ∧ numa_sos[i]? = some so := by
  unfold slotAt at h
  cases hq : rm.sim_objects_[n]? with
  | none => rw [hq] at h; cases h
  | some q => rw [hq] at h; exact ⟨q, rfl, h⟩

theorem Contains_iff (rm : ResourceManager) (uid : SoUid) :
    rm.Contains uid = true ↔ ∃ soh, UnorderedMap.find rm.uid_soh_map_ uid = some soh := by
  unfold Contains
  rw [Option.isSome_iff_exists]

theorem Contains_false_iff (rm : ResourceManager) (uid : SoUid) :
    rm.Contains uid = false ↔ UnorderedMap.find rm.uid_soh_map_ uid = none := by
  unfold Contains
  cases UnorderedMap.find rm.uid_soh_map_ uid <;> simp

end ResourceManager

end bdm

namespace bdm

theorem set_last_dropLast {α : Type} (l : List α) (i : Nat) (a : α)
    (h : i + 1 = l.length) : (l.set i a).dropLast = l.dropLast := by
  apply List.ext_getElem?
  intro j
  rw [getElem?_set_dropLast, getElem?_dropLast_eq]
  by_cases h1 : j + 1 < l.length
  · rw [if_pos h1, if_pos h1, if_neg (by omega)]
  · rw [if_neg h1, if_neg h1]

theorem getLast?_of_pos {α : Type} (l : List α) (h : 0 < l.length) :
    ∃ last, l.getLast? = some last ∧ l[l.length - 1]? = some last := by
  have h1 : l.length - 1 < l.length := by omega
  refine ⟨l[l.length - 1], ?_, ?_⟩
  · rw [List.getLast?_eq_getElem?, List.getElem?_eq_getElem h1]
  · rw [List.getElem?_eq_getElem h1]

namespace ResourceManager

/-- What `Remove` does when the entry of `uid` points at an existing slot. -/
theorem Remove_of_slot {rm : ResourceManager} {uid : SoUid} {soh : SoHandle}
    {numa_sos : List SimObject}
    (hfind : UnorderedMap.find rm.uid_soh_map_ uid = some soh)
    (hp : rm.sim_objects_[soh.GetNumaNode]? = some numa_sos)
    (hi : soh.GetElementIdx < numa_sos.length)
    (hlen : numa_sos.length ≤ 18446744073709551616) :
    ∃ last, numa_sos.getLast? = some last ∧
      numa_sos[numa_sos.length - 1]? = some last ∧
      rm.Remove uid = .ok
        { uid_soh_map_ :=
            if soh.GetElementIdx + 1 = numa_sos.length then
              UnorderedMap.erase rm.uid_soh_map_ uid
            else UnorderedMap.assign (UnorderedMap.erase rm.uid_soh_map_ uid) last.uid soh
          sim_objects_ := rm.sim_objects_.set soh.GetNumaNode
            (numa_sos.set soh.GetElementIdx last).dropLast
          diffusion_grids_ := rm.diffusion_grids_ } := by
  obtain ⟨last, hlast, hlast2⟩ := getLast?_of_pos numa_sos (by omega)
  refine ⟨last, hlast, hlast2, ?_⟩
  have hpred : size_t_pred numa_sos.length = numa_sos.length - 1 :=
    size_t_pred_eq (by omega) hlen
  unfold Remove
  simp only [hfind, hp, hpred]
  by_cases h : soh.GetElementIdx + 1 = numa_sos.length
  · have h1 : soh.GetElementIdx = numa_sos.length - 1 := by omega
    rw [if_pos h1, if_pos h]
    simp only [hlast]
    rw [set_last_dropLast _ _ _ h]
  · have h1 : ¬ soh.GetElementIdx = numa_sos.length - 1 := by omega
    rw [if_neg h1, if_neg h]
    obtain ⟨x, hx⟩ : ∃ x, numa_sos[soh.GetElementIdx]? = some x :=
      ⟨_, List.getElem?_eq_getElem hi⟩
    simp only [hx, hlast, SimObject.GetUid]

end ResourceManager

end bdm

namespace bdm

namespace StoreInvariant

open ResourceManager

/-- Every slot index is the element index of a handle, hence below `2^32`. -/
theorem partition_length_le {rm : ResourceManager}
    (hslot : ∀ n i so, rm.slotAt n i = some so →
      ∃ soh, UnorderedMap.find rm.uid_soh_map_ so.uid = some soh ∧ soh.PointsTo n i)
    {n : Nat} {numa_sos : List SimObject} (hp : rm.sim_objects_[n]? = some numa_sos) :
    numa_sos.length ≤ 4294967296 := by
  by_contra hlt
  have h1 : 4294967296 < numa_sos.length := by omega
  have h2 : rm.slotAt n 4294967296 = some numa_sos[4294967296] := by
    rw [slotAt_eq hp, List.getElem?_eq_getElem h1]
  obtain ⟨soh, _, _, h4⟩ := hslot _ _ _ h2
  have h5 := soh.element_idx_.isLt
  unfold SoHandle.GetElementIdx at h4
  omega

/-- Partition indices of occupied slots are numa nodes of handles, hence below `2^16`. -/
theorem partition_index_lt {rm : ResourceManager}
    (hslot : ∀ n i so, rm.slotAt n i = some so →
      ∃ soh, UnorderedMap.find rm.uid_soh_map_ so.uid = some soh ∧ soh.PointsTo n i)
    {n i : Nat} {so : SimObject} (h : rm.slotAt n i = some so) : n < 65536 := by
  obtain ⟨soh, _, h3, _⟩ := hslot _ _ _ h
  have h5 := soh.numa_node_.isLt
  unfold SoHandle.GetNumaNode at h3
  omega

/-- Two slots that hold agents with the same uid are the same slot. -/
theorem slot_uid_inj {rm : ResourceManager}
    (hslot : ∀ n i so, rm.slotAt n i = some so →
      ∃ soh, UnorderedMap.find rm.uid_soh_map_ so.uid = some soh ∧ soh.PointsTo n i)
    {n i n' i' : Nat} {a b : SimObject}
    (ha : rm.slotAt n i = some a) (hb : rm.slotAt n' i' = some b) (hab : a.uid = b.uid) :
    n = n' ∧ i = i' := by
  obtain ⟨s1, h1, h2, h3⟩ := hslot _ _ _ ha
  obtain ⟨s2, h4, h5, h6⟩ := hslot _ _ _ hb
  rw [hab, h4] at h1
  cases h1
  exact ⟨h2.symm.trans h5, h3.symm.trans h6⟩

/-- The entry of `uid` points at the slot of the agent with this uid. -/
theorem entry_points {rm : ResourceManager} (hinv : StoreInvariant rm)
    {uid : SoUid} {soh : SoHandle}
    (hfind : UnorderedMap.find rm.uid_soh_map_ uid = some soh) :
    ∃ numa_sos so, rm.sim_objects_[soh.GetNumaNode]? = some numa_sos ∧
      numa_sos[soh.GetElementIdx]? = some so ∧ so.uid = uid ∧
      soh.GetElementIdx < numa_sos.length ∧ numa_sos.length ≤ 4294967296 := by
  obtain ⟨so, h1, h2⟩ := hinv.entry_slot _ _ hfind
  obtain ⟨numa_sos, h3, h4⟩ := slotAt_some h1
  refine ⟨numa_sos, so, h3, h4, h2, ?_, partition_length_le hinv.slot_entry h3⟩
  by_contra hlt
  rw [List.getElem?_eq_none_iff.mpr (by omega)] at h4
  cases h4

end StoreInvariant

end bdm

namespace bdm

namespace ResourceManager

/-- The effect of `Remove` on a live uid in a store that satisfies the
invariant: the call returns, and the new map, the new partitions and the
invariant of the new store are as described. -/
theorem Remove_spec {rm : ResourceManager} (hinv : StoreInvariant rm)
    {uid : SoUid} {soh : SoHandle}
    (hfind : UnorderedMap.find rm.uid_soh_map_ uid = some soh) :
    ∃ numa_sos so last rm1,
      rm.sim_objects_[soh.GetNumaNode]? = some numa_sos ∧
      numa_sos[soh.GetElementIdx]? = some so ∧ so.uid = uid ∧
      numa_sos[numa_sos.length - 1]? = some last ∧
      soh.GetElementIdx < numa_sos.length ∧
      rm.Remove uid = .ok rm1 ∧
      rm1.diffusion_grids_ = rm.diffusion_grids_ ∧
      rm1.sim_objects_ = rm.sim_objects_.set soh.GetNumaNode
        (numa_sos.set soh.GetElementIdx last).dropLast ∧
      (∀ v, UnorderedMap.find rm1.uid_soh_map_ v =
        if v = uid then none else if v = last.uid then some soh
        else UnorderedMap.find rm.uid_soh_map_ v) ∧
      (∀ n j, rm1.slotAt n j =
        if n = soh.GetNumaNode then
          (if j + 1 < numa_sos.length then
            (if soh.GetElementIdx = j then some last else numa_sos[j]?) else none)
        else rm.slotAt n j) ∧
      StoreInvariant rm1 := by
  obtain ⟨numa_sos, so, hp, hso, huid, hi, hlen⟩ := hinv.entry_points hfind
  obtain ⟨last, _, hlast, hrem⟩ := Remove_of_slot hfind hp hi (by omega)
  have hslot_so : rm.slotAt soh.GetNumaNode soh.GetElementIdx = some so := by
    rw [slotAt_eq hp, hso]
  have hslot_last : rm.slotAt soh.GetNumaNode (numa_sos.length - 1) = some last := by
    rw [slotAt_eq hp, hlast]
  -- the last agent has the removed uid only when it is the removed agent
  have hlast_uid : last.uid = uid → soh.GetElementIdx + 1 = numa_sos.length := by
    intro h
    have := (StoreInvariant.slot_uid_inj hinv.slot_entry hslot_last hslot_so
      (h.trans huid.symm)).2
    omega
  have hfind1 : ∀ v, UnorderedMap.find
      (if soh.GetElementIdx + 1 = numa_sos.length then
          UnorderedMap.erase rm.uid_soh_map_ uid
        else UnorderedMap.assign (UnorderedMap.erase rm.uid_soh_map_ uid) last.uid soh) v =
      if v = uid then none else if v = last.uid then some soh
        else UnorderedMap.find rm.uid_soh_map_ v := by
    intro v
    by_cases hpop : soh.GetElementIdx + 1 = numa_sos.length
    · rw [if_pos hpop]
      by_cases hv : v = uid
      · rw [if_pos hv, hv, UnorderedMap.find_erase_self]
      · rw [if_neg hv, UnorderedMap.find_erase_ne _ hv]
        have hso_last : so = last := by
          have h1 : numa_sos.length - 1 = soh.GetElementIdx := by omega
          rw [h1, hso] at hlast
          exact Option.some.inj hlast
        have : ¬ v = last.uid := by
          rw [← hso_last, huid]
          exact hv
        rw [if_neg this]
    · rw [if_neg hpop]
      by_cases hv : v = uid
      · rw [if_pos hv]
        have hne : v ≠ last.uid := fun h => hpop (hlast_uid (h.symm.trans hv))
        rw [UnorderedMap.find_assign_ne _ _ hne, hv, UnorderedMap.find_erase_self]
      · rw [if_neg hv]
        by_cases hv2 : v = last.uid
        · rw [if_pos hv2, hv2, UnorderedMap.find_assign_self]
        · rw [if_neg hv2, UnorderedMap.find_assign_ne _ _ hv2,
            UnorderedMap.find_erase_ne _ hv]
  have hslot1 : ∀ n j, slotAt
      { uid_soh_map_ :=
          if soh.GetElementIdx + 1 = numa_sos.length then
            UnorderedMap.erase rm.uid_soh_map_ uid
          else UnorderedMap.assign (UnorderedMap.erase rm.uid_soh_map_ uid) last.uid soh
        sim_objects_ := rm.sim_objects_.set soh.GetNumaNode
          (numa_sos.set soh.GetElementIdx last).dropLast
        diffusion_grids_ := rm.diffusion_grids_ } n j =
      if n = soh.GetNumaNode then
        (if j + 1 < numa_sos.length then
          (if soh.GetElementIdx = j then some last else numa_sos[j]?) else none)
      else rm.slotAt n j := by
    intro n j
    unfold slotAt
    simp only
    rw [getElem?_set_outer _ _ _ _ _ hp]
    by_cases hn : n = soh.GetNumaNode
    · rw [if_pos hn, if_pos hn]
      simp only
      rw [getElem?_set_dropLast]
    · rw [if_neg hn, if_neg hn]
  refine ⟨numa_sos, so, last, _, hp, hso, huid, hlast, hi, hrem, rfl, rfl, hfind1, hslot1, ?_⟩
  refine ⟨?_, ?_, ?_⟩
  · -- unique keys
    simp only
    by_cases hpop : soh.GetElementIdx + 1 = numa_sos.length
    · rw [if_pos hpop]
      exact UnorderedMap.keys_erase_nodup _ hinv.keys_nodup
    · rw [if_neg hpop]
      exact UnorderedMap.keys_assign_nodup _ _ (UnorderedMap.keys_erase_nodup _ hinv.keys_nodup)
  · -- every entry points at a slot with its uid
    intro v sv hv
    rw [hfind1] at hv
    by_cases hv1 : v = uid
    · rw [if_pos hv1] at hv
      cases hv
    · rw [if_neg hv1] at hv
      by_cases hv2 : v = last.uid
      · rw [if_pos hv2] at hv
        cases hv
        have hpop : ¬ soh.GetElementIdx + 1 = numa_sos.length := by
          intro h
          exact hv1 (hv2.trans (by
            have h1 : numa_sos.length - 1 = soh.GetElementIdx := by omega
            rw [h1, hso] at hlast
            rw [← Option.some.inj hlast]
            exact huid))
        refine ⟨last, ?_, hv2.symm⟩
        rw [hslot1, if_pos rfl, if_pos (by omega), if_pos rfl]
      · rw [if_neg hv2] at hv
        obtain ⟨a, ha, hau⟩ := hinv.entry_slot _ _ hv
        refine ⟨a, ?_, hau⟩
        rw [hslot1]
        by_cases hn : sv.GetNumaNode = soh.GetNumaNode
        · rw [if_pos hn]
          rw [hn, slotAt_eq hp] at ha
          have hne1 : sv.GetElementIdx ≠ soh.GetElementIdx := by
            intro h
            rw [h, hso] at ha
            apply hv1
            rw [← hau, ← Option.some.inj ha]
            exact huid
          have hne2 : sv.GetElementIdx ≠ numa_sos.length - 1 := by
            intro h
            rw [h, hlast] at ha
            apply hv2
            rw [← hau, ← Option.some.inj ha]
          have hlt : sv.GetElementIdx < numa_sos.length := by
            by_contra hge
            rw [List.getElem?_eq_none_iff.mpr (by omega)] at ha
            cases ha
          rw [if_pos (by omega), if_neg (fun h => hne1 h.symm)]
          exact ha
        · rw [if_neg hn]
          exact ha
  · -- every slot has its entry
    intro n j a ha
    rw [hslot1] at ha
    rw [hfind1]
    by_cases hn : n = soh.GetNumaNode
    · rw [if_pos hn] at ha
      by_cases hj : j + 1 < numa_sos.length
      · rw [if_pos hj] at ha
        by_cases hij : soh.GetElementIdx = j
        · rw [if_pos hij] at ha
          cases ha
          have hne : ¬ last.uid = uid := fun h => by
            have := hlast_uid h
            omega
          rw [if_neg hne, if_pos rfl]
          exact ⟨soh, rfl, hn.symm, hij⟩
        · rw [if_neg hij] at ha
          have ha1 : rm.slotAt soh.GetNumaNode j = some a := by
            rw [slotAt_eq hp, ha]
          have hne1 : ¬ a.uid = uid := fun h => hij
            (StoreInvariant.slot_uid_inj hinv.slot_entry hslot_so ha1 (huid.trans h.symm)).2
          have hne2 : ¬ a.uid = last.uid := fun h => by
            have := (StoreInvariant.slot_uid_inj hinv.slot_entry ha1 hslot_last h).2
            omega
          rw [if_neg hne1, if_neg hne2]
          rw [← hn] at ha1
          exact hinv.slot_entry _ _ _ ha1
      · rw [if_neg hj] at ha
        cases ha
    · rw [if_neg hn] at ha
      have hne1 : ¬ a.uid = uid := fun h => hn
        (StoreInvariant.slot_uid_inj hinv.slot_entry ha hslot_so (h.trans huid.symm)).1
      have hne2 : ¬ a.uid = last.uid := fun h => hn
        (StoreInvariant.slot_uid_inj hinv.slot_entry ha hslot_last h).1
      rw [if_neg hne1, if_neg hne2]
      exact hinv.slot_entry _ _ _ ha

end ResourceManager

end bdm

namespace bdm

theorem size_t_pred_succ {i : Nat} (hi : i < 18446744073709551616) :
    size_t_pred (i + 1) = i := by
  unfold size_t_pred
  omega

theorem make_pointsTo {n i : Nat} (hn : n < 65536) (hi : i < 4294967296) :
    (SoHandle.make n (size_t_pred (i + 1))).PointsTo n i := by
  rw [size_t_pred_succ (by omega)]
  constructor
  · show n % 65536 = n
    exact Nat.mod_eq_of_lt hn
  · show i % 4294967296 = i
    exact Nat.mod_eq_of_lt hi

namespace ResourceManager

/-- What `push_back` does when the partition exists. -/
theorem push_back_of_partition {rm : ResourceManager} (so : SimObject) {p : NumaNode_t}
    {numa_sos : List SimObject} (hp : rm.sim_objects_[p.val]? = some numa_sos) :
    rm.push_back so p = .ok
      { uid_soh_map_ := UnorderedMap.assign rm.uid_soh_map_ so.uid
          (SoHandle.make p.val (size_t_pred (numa_sos.length + 1)))
        sim_objects_ := rm.sim_objects_.set p.val (numa_sos ++ [so])
        diffusion_grids_ := rm.diffusion_grids_ } := by
  unfold push_back
  simp only [hp, SimObject.GetUid, List.length_append, List.length_singleton]

theorem slotAt_push_back {rm : ResourceManager} (so : SimObject) {p : Nat}
    {numa_sos : List SimObject} (hp : rm.sim_objects_[p]? = some numa_sos)
    (m : List (SoUid × SoHandle)) (n j : Nat) :
    slotAt { uid_soh_map_ := m
             sim_objects_ := rm.sim_objects_.set p (numa_sos ++ [so])
             diffusion_grids_ := rm.diffusion_grids_ } n j =
      if n = p then
        (if j < numa_sos.length then numa_sos[j]?
          else if j = numa_sos.length then some so else none)
      else rm.slotAt n j := by
  unfold slotAt
  simp only
  rw [getElem?_set_outer _ _ _ _ _ hp]
  by_cases hn : n = p
  · rw [if_pos hn, if_pos hn]
    simp only
    by_cases hj : j < numa_sos.length
    · rw [if_pos hj, List.getElem?_append_left hj]
    · rw [if_neg hj, List.getElem?_append_right (by omega)]
      by_cases hj2 : j = numa_sos.length
      · rw [if_pos hj2, hj2]
        simp
      · rw [if_neg hj2, List.getElem?_eq_none_iff]
        simp only [List.length_singleton]
        omega
  · rw [if_neg hn, if_neg hn]

/-- `push_back` of an agent with a fresh uid into a partition that holds fewer
than `2^32` agents keeps the invariant. -/
theorem push_back_invariant {rm : ResourceManager} (hinv : StoreInvariant rm)
    (so : SimObject) {p : NumaNode_t} {numa_sos : List SimObject}
    (hp : rm.sim_objects_[p.val]? = some numa_sos)
    (hcap : numa_sos.length < 4294967296)
    (hfresh : rm.Contains so.uid = false) :
    StoreInvariant
      { uid_soh_map_ := UnorderedMap.assign rm.uid_soh_map_ so.uid
          (SoHandle.make p.val (size_t_pred (numa_sos.length + 1)))
        sim_objects_ := rm.sim_objects_.set p.val (numa_sos ++ [so])
        diffusion_grids_ := rm.diffusion_grids_ } := by
  rw [Contains_false_iff] at hfresh
  have hpt := make_pointsTo p.isLt hcap
  refine ⟨UnorderedMap.keys_assign_nodup _ _ hinv.keys_nodup, ?_, ?_⟩
  · intro v sv hv
    simp only at hv
    by_cases hv1 : v = so.uid
    · rw [hv1, UnorderedMap.find_assign_self] at hv
      cases hv
      refine ⟨so, ?_, hv1.symm⟩
      rw [hpt.1, hpt.2, slotAt_push_back so hp, if_pos rfl, if_neg (by omega), if_pos rfl]
    · rw [UnorderedMap.find_assign_ne _ _ hv1] at hv
      obtain ⟨a, ha, hau⟩ := hinv.entry_slot _ _ hv
      refine ⟨a, ?_, hau⟩
      rw [slotAt_push_back so hp]
      by_cases hn : sv.GetNumaNode = p.val
      · rw [if_pos hn]
        rw [hn, slotAt_eq hp] at ha
        have hlt : sv.GetElementIdx < numa_sos.length := by
          by_contra hge
          rw [List.getElem?_eq_none_iff.mpr (by omega)] at ha
          cases ha
        rw [if_pos hlt]
        exact ha
      · rw [if_neg hn]
        exact ha
  · intro n j a ha
    rw [slotAt_push_back so hp] at ha
    simp only
    have hold : rm.slotAt n j = some a →
        ∃ soh, UnorderedMap.find (UnorderedMap.assign rm.uid_soh_map_ so.uid
          (SoHandle.make p.val (size_t_pred (numa_sos.length + 1)))) a.uid = some soh ∧
          soh.PointsTo n j := by
      intro h
      obtain ⟨s, hs, hs2⟩ := hinv.slot_entry _ _ _ h
      have hne : a.uid ≠ so.uid := by
        intro h1
        rw [h1, hfresh] at hs
        cases hs
      rw [UnorderedMap.find_assign_ne _ _ hne]
      exact ⟨s, hs, hs2⟩
    by_cases hn : n = p.val
    · rw [if_pos hn] at ha
      by_cases hj : j < numa_sos.length
      · rw [if_pos hj] at ha
        apply hold
        rw [hn, slotAt_eq hp, ha]
      · rw [if_neg hj] at ha
        by_cases hj2 : j = numa_sos.length
        · rw [if_pos hj2] at ha
          cases ha
          rw [UnorderedMap.find_assign_self, hn, hj2]
          exact ⟨_, rfl, hpt⟩
        · rw [if_neg hj2] at ha
          cases ha
    · rw [if_neg hn] at ha
      exact hold ha

theorem slotAt_Clear (rm : ResourceManager) (n j : Nat) : rm.Clear.slotAt n j = none := by
  unfold slotAt Clear
  simp only [List.getElem?_map]
  cases rm.sim_objects_[n]? <;> simp

theorem Clear_invariant (rm : ResourceManager) : StoreInvariant rm.Clear := by
  refine ⟨?_, ?_, ?_⟩
  · simp [Clear]
  · intro v sv hv
    simp [Clear, UnorderedMap.find] at hv
  · intro n j a ha
    rw [slotAt_Clear] at ha
    cases ha

theorem slotAt_empty (k n j : Nat) (g : List (Nat × DiffusionGrid)) :
    slotAt ⟨[], List.replicate k [], g⟩ n j = none := by
  unfold slotAt
  simp only
  cases h : (List.replicate k ([] : List SimObject))[n]? with
  | none => rfl
  | some q =>
    have := List.mem_replicate.mp (List.getElem?_mem h)
    rw [this.2]
    rfl

theorem empty_invariant (k : Nat) (g : List (Nat × DiffusionGrid)) :
    StoreInvariant ⟨[], List.replicate k [], g⟩ := by
  refine ⟨?_, ?_, ?_⟩
  · simp
  · intro v sv hv
    simp [UnorderedMap.find] at hv
  · intro n j a ha
    rw [slotAt_empty] at ha
    cases ha

end ResourceManager

end bdm

namespace bdm

namespace ResourceManager

theorem slotAt_lt {rm : ResourceManager} {n i : Nat} {so : SimObject}
    (h : rm.slotAt n i = some so) :
    n < rm.sim_objects_.length ∧ i < rm.partitionSize n := by
  obtain ⟨q, hq, hi⟩ := slotAt_some h
  have h1 : n < rm.sim_objects_.length := by
    by_contra hge
    rw [List.getElem?_eq_none_iff.mpr (by omega)] at hq
    cases hq
  refine ⟨h1, ?_⟩
  unfold partitionSize
  rw [List.getD_eq_getElem?_getD, hq]
  simp only [Option.getD_some]
  by_contra hge
  rw [List.getElem?_eq_none_iff.mpr (by omega)] at hi
  cases hi

/-- The executable check is sound for the store invariant. -/
theorem invariant_of_check {rm : ResourceManager} (h : rm.checkInvariant = true) :
    StoreInvariant rm := by
  unfold checkInvariant at h
  simp only [Bool.and_eq_true, decide_eq_true_eq, List.all_eq_true, List.mem_range] at h
  obtain ⟨⟨h1, h2⟩, h3⟩ := h
  refine ⟨h1, ?_, ?_⟩
  · intro uid soh hfind
    have := h2 _ (UnorderedMap.mem_of_find hfind)
    simp only at this
    cases hs : rm.slotAt soh.GetNumaNode soh.GetElementIdx with
    | none => rw [hs] at this; cases this
    | some so =>
      rw [hs] at this
      exact ⟨so, rfl, by simpa using this⟩
  · intro n i so hs
    obtain ⟨hn, hi⟩ := slotAt_lt hs
    have := h3 n hn i hi
    rw [hs] at this
    simp only at this
    cases hf : UnorderedMap.find rm.uid_soh_map_ so.uid with
    | none => rw [hf] at this; cases this
    | some soh =>
      rw [hf] at this
      exact ⟨soh, rfl, by simpa using this⟩

/-- `GetSimObject` on a uid whose entry points at an occupied slot returns the
agent of this slot and leaves the store as it is, with or without `assert`. -/
theorem GetSimObject_of_find (NDEBUG : Bool) {rm : ResourceManager} {uid : SoUid}
    {soh : SoHandle} {so : SimObject}
    (hfind : UnorderedMap.find rm.uid_soh_map_ uid = some soh)
    (hs : rm.slotAt soh.GetNumaNode soh.GetElementIdx = some so) :
    rm.GetSimObject NDEBUG uid = .ok (so, rm) := by
  obtain ⟨q, hq, hi⟩ := slotAt_some hs
  have hc : rm.Contains uid = true := (Contains_iff rm uid).mpr ⟨soh, hfind⟩
  unfold GetSimObject
  simp only [hc, UnorderedMap.index, hfind, hq, hi, Bool.not_true, Bool.and_false,
    Bool.false_eq_true, if_false]

/-- `Remove` of a uid without entry returns and leaves the store as it is. -/
theorem Remove_of_absent {rm : ResourceManager} {uid : SoUid}
    (h : UnorderedMap.find rm.uid_soh_map_ uid = none) : rm.Remove uid = .ok rm := by
  unfold Remove
  simp only [h]

end ResourceManager

theorem length_le_one_of_keys {V : Type} {m : List (Nat × V)}
    (hn : (m.map Prod.fst).Nodup) (k : Nat) (h : ∀ e ∈ m, e.1 = k) : m.length ≤ 1 := by
  match m, hn, h with
  | [], _, _ => simp
  | [_], _, _ => simp
  | e1 :: e2 :: rest, hn, h =>
    exfalso
    simp only [List.map_cons, List.nodup_cons, List.mem_cons, not_or] at hn
    apply hn.1.1
    rw [h e1 (by simp), h e2 (by simp)]

theorem IdentityMapConsistent.of_invariant {rm : ResourceManager}
    (hinv : StoreInvariant rm) : IdentityMapConsistent rm := by
  refine ⟨?_, ?_, ?_, fun _ _ _ _ _ _ ha hb hab =>
    StoreInvariant.slot_uid_inj hinv.slot_entry ha hb hab⟩
  · rintro uid ⟨n, i, so, hs, hu⟩
    obtain ⟨soh, hf, _⟩ := hinv.slot_entry _ _ _ hs
    rw [hu] at hf
    have := congrArg List.length (UnorderedMap.filter_key_eq hinv.keys_nodup uid)
    rw [List.length_map, hf] at this
    exact this
  · rintro uid ⟨n, i, so, hs, hu⟩
    obtain ⟨soh, hf, hpt⟩ := hinv.slot_entry _ _ _ hs
    rw [hu] at hf
    refine ⟨soh, so, hf, ?_, hu⟩
    rw [hpt.1, hpt.2]
    exact hs
  · intro n i so hs
    obtain ⟨soh, hf, hpt⟩ := hinv.slot_entry _ _ _ hs
    apply Nat.le_antisymm
    · apply length_le_one_of_keys
        (hinv.keys_nodup.sublist ((List.filter_sublist _).map Prod.fst)) so.uid
      intro e he
      rw [List.mem_filter] at he
      have hpt2 : e.2.PointsTo n i := by simpa using he.2
      have hfe : UnorderedMap.find rm.uid_soh_map_ e.1 = some e.2 :=
        UnorderedMap.find_of_mem_nodup hinv.keys_nodup he.1
      obtain ⟨a, ha, hau⟩ := hinv.entry_slot _ _ hfe
      rw [hpt2.1, hpt2.2, hs] at ha
      rw [← hau, ← Option.some.inj ha]
    · apply List.length_pos_of_mem (a := (so.uid, soh))
      rw [List.mem_filter]
      exact ⟨UnorderedMap.mem_of_find hf, by simpa using hpt⟩

theorem construct_invariant {a : Int} {k : Nat} {rm : ResourceManager}
    (h : ResourceManager.construct a k = .ok rm) : StoreInvariant rm := by
  unfold ResourceManager.construct at h
  split at h
  · cases h
  · cases h
    exact ResourceManager.empty_invariant k []

theorem partitionSize_eq {rm : ResourceManager} {n : Nat} {q : List SimObject}
    (h : rm.sim_objects_[n]? = some q) : rm.partitionSize n = q.length := by
  unfold ResourceManager.partitionSize
  rw [List.getD_eq_getElem?_getD, h]
  rfl

theorem push_back_some {rm rm1 : ResourceManager} {so : SimObject} {p : NumaNode_t}
    (h : rm.push_back so p = .ok rm1) :
    ∃ q, rm.sim_objects_[p.val]? = some q := by
  cases hq : rm.sim_objects_[p.val]? with
  | some q => exact ⟨q, rfl⟩
  | none =>
    unfold ResourceManager.push_back at h
    rw [hq] at h
    cases h

/-- States reached within the capacity of the handles satisfy the invariant. -/
theorem ReachableWithinCapacity.invariant {rm : ResourceManager}
    (h : ReachableWithinCapacity rm) : StoreInvariant rm := by
  induction h with
  | construct hc => exact construct_invariant hc
  | push_back so p _ hfresh hcap hpush ih =>
    obtain ⟨q, hq⟩ := push_back_some hpush
    rw [ResourceManager.push_back_of_partition so hq] at hpush
    cases hpush
    rw [partitionSize_eq hq] at hcap
    exact ResourceManager.push_back_invariant ih so hq hcap hfresh
  | @Remove rm0 rm1 uid _ hrem ih =>
    cases hf : UnorderedMap.find rm0.uid_soh_map_ uid with
    | none =>
      rw [ResourceManager.Remove_of_absent hf] at hrem
      cases hrem
      exact ih
    | some soh =>
      obtain ⟨_, _, _, rm2, _, _, _, _, _, hrem2, _, _, _, _, hinv2⟩ :=
        ResourceManager.Remove_spec ih hf
      rw [hrem2] at hrem
      cases hrem
      exact hinv2
  | Clear _ _ => exact ResourceManager.Clear_invariant _

end bdm

namespace bdm

open ResourceManager

/-! ## The store `filled n` -/

theorem filled_partition (n : Nat) :
    (filled n).sim_objects_[0]? = some ((List.range n).map agent) := rfl

theorem filled_slotAt (n i : Nat) :
    (filled n).slotAt 0 i = if i < n then some (agent i) else none := by
  rw [slotAt_eq (filled_partition n), List.getElem?_map]
  by_cases h : i < n
  · rw [if_pos h, List.getElem?_range h]
    rfl
  · rw [if_neg h, List.getElem?_eq_none_iff.mpr (show (List.range n).length ≤ i by
      rw [List.length_range]; omega)]
    rfl

theorem filled_find (n k : Nat) :
    UnorderedMap.find (filled n).uid_soh_map_ k =
      if k < n then some (SoHandle.make 0 (size_t_pred (k + 1))) else none := by
  induction n with
  | zero => rfl
  | succ n ih =>
    have hmap : (filled (n + 1)).uid_soh_map_ =
        (n, SoHandle.make 0 (size_t_pred (n + 1))) :: (filled n).uid_soh_map_ := by
      unfold filled
      simp only [List.range_succ, List.reverse_append, List.reverse_cons, List.reverse_nil,
        List.nil_append, List.singleton_append, List.map_cons]
    rw [hmap, UnorderedMap.find_cons, ih]
    by_cases h1 : n = k
    · rw [if_pos h1, if_pos (by omega), h1]
    · rw [if_neg h1]
      by_cases h2 : k < n
      · rw [if_pos h2, if_pos (by omega)]
      · rw [if_neg h2, if_neg (by omega)]

theorem filled_push_back (n : Nat) :
    (filled n).push_back (agent n) ⟨0, by decide⟩ = .ok (filled (n + 1)) := by
  rw [push_back_of_partition (agent n) (p := ⟨0, by decide⟩) (filled_partition n)]
  have hfresh : UnorderedMap.find (filled n).uid_soh_map_ n = none := by
    rw [filled_find, if_neg (by omega)]
  congr 1
  unfold filled at hfresh ⊢
  simp only [UnorderedMap.assign, UnorderedMap.erase_eq_self hfresh, List.length_map,
    List.length_range, List.range_succ, List.reverse_append, List.reverse_cons,
    List.reverse_nil, List.nil_append, List.singleton_append, List.map_cons,
    List.map_append, List.map_nil, List.set_cons_zero, agent]

theorem filled_reachable (n : Nat) : Reachable (filled n) := by
  induction n with
  | zero => exact Reachable.construct (a := 0) (k := 1) rfl
  | succ n ih =>
    refine Reachable.push_back (agent n) ⟨0, by decide⟩ ih ?_ (filled_push_back n)
    rw [Contains_false_iff]
    show UnorderedMap.find (filled n).uid_soh_map_ n = none
    rw [filled_find, if_neg (by omega)]

end bdm

namespace bdm

open ResourceManager

theorem ResourceManager.Resolves.getSimObject {rm : ResourceManager} {uid : SoUid} {a : SimObject}
    (h : rm.Resolves uid a) (NDEBUG : Bool) : rm.GetSimObject NDEBUG uid = .ok (a, rm) := by
  obtain ⟨soh, hf, hs⟩ := h
  exact GetSimObject_of_find NDEBUG hf hs

theorem ResourceManager.Resolves.contains {rm : ResourceManager} {uid : SoUid}
    {a : SimObject} (h : rm.Resolves uid a) : rm.Contains uid = true := by
  obtain ⟨soh, hf, _⟩ := h
  exact (Contains_iff rm uid).mpr ⟨soh, hf⟩

theorem StoreInvariant.resolves {rm : ResourceManager} (hinv : StoreInvariant rm)
    {uid : SoUid} (hc : rm.Contains uid = true) : ∃ a, rm.Resolves uid a ∧ a.uid = uid := by
  obtain ⟨soh, hf⟩ := (Contains_iff rm uid).mp hc
  obtain ⟨a, ha, hu⟩ := hinv.entry_slot _ _ hf
  exact ⟨a, ⟨soh, hf, ha⟩, hu⟩

theorem foldl_length_eq (ls : List (List SimObject)) (acc : Nat) :
    ls.foldl (fun num_so numa_sos => num_so + numa_sos.length) acc =
      acc + (ls.map List.length).sum := by
  induction ls generalizing acc with
  | nil => simp
  | cons q rest ih =>
    rw [List.foldl_cons, ih, List.map_cons, List.sum_cons]
    omega

theorem GetNumSimObjects_total (rm : ResourceManager) :
    rm.GetNumSimObjects (-1) = .ok rm.total := by
  unfold GetNumSimObjects total
  rw [if_pos rfl, foldl_length_eq]
  simp

theorem sum_length_set (ls : List (List SimObject)) (p : Nat) (q q1 : List SimObject)
    (h : ls[p]? = some q) :
    ((ls.set p q1).map List.length).sum + q.length =
      (ls.map List.length).sum + q1.length := by
  induction ls generalizing p with
  | nil => simp at h
  | cons x rest ih =>
    cases p with
    | zero =>
      simp only [List.getElem?_cons_zero, Option.some.injEq] at h
      subst h
      simp only [List.set_cons_zero, List.map_cons, List.sum_cons]
      omega
    | succ p =>
      simp only [List.getElem?_cons_succ] at h
      have := ih p h
      simp only [List.set_cons_succ, List.map_cons, List.sum_cons]
      omega

/-- `Remove(u)` in a store that satisfies the invariant: the call returns, the
invariant holds afterwards, exactly `u` stops being contained, the total
number of agents drops by one when `u` was contained, and every other
contained uid resolves to the agent it resolved to before. -/
theorem Remove_frame {rm : ResourceManager} (hinv : StoreInvariant rm) (u : SoUid) :
    ∃ rm1, rm.Remove u = .ok rm1 ∧ StoreInvariant rm1 ∧
      rm1.diffusion_grids_ = rm.diffusion_grids_ ∧
      rm1.sim_objects_.length = rm.sim_objects_.length ∧
      (∀ w, rm1.Contains w = (rm.Contains w && decide (w ≠ u))) ∧
      (rm1.total + (if rm.Contains u then 1 else 0) = rm.total) ∧
      (∀ v a, v ≠ u → rm.Resolves v a → rm1.Resolves v a) := by
  cases hf : UnorderedMap.find rm.uid_soh_map_ u with
  | none =>
    have hc : rm.Contains u = false := (Contains_false_iff rm u).mpr hf
    refine ⟨rm, Remove_of_absent hf, hinv, rfl, rfl, ?_, ?_, fun _ _ _ h => h⟩
    · intro w
      by_cases hw : w = u
      · rw [hw, hc]
        rfl
      · simp [hw]
    · rw [hc]
      simp
  | some soh =>
    have hc : rm.Contains u = true := (Contains_iff rm u).mpr ⟨soh, hf⟩
    obtain ⟨q, so, last, rm1, hq, hso, huid, hlast, hi, hrem, hgrid, hsim, hfind1,
      hslot1, hinv1⟩ := Remove_spec hinv hf
    have hslot_so : rm.slotAt soh.GetNumaNode soh.GetElementIdx = some so := by
      rw [slotAt_eq hq, hso]
    have hslot_last : rm.slotAt soh.GetNumaNode (q.length - 1) = some last := by
      rw [slotAt_eq hq, hlast]
    refine ⟨rm1, hrem, hinv1, hgrid, by rw [hsim, List.length_set], ?_, ?_, ?_⟩
    · intro w
      unfold Contains
      rw [hfind1]
      by_cases hw : w = u
      · simp [hw]
      · rw [if_neg hw]
        by_cases hw2 : w = last.uid
        · obtain ⟨s, hs, _⟩ := hinv.slot_entry _ _ _ hslot_last
          rw [if_pos hw2, hw2, hs]
          simp [← hw2, hw]
        · rw [if_neg hw2]
          simp [hw]
    · rw [hc, if_pos rfl]
      unfold total
      rw [hsim]
      have := sum_length_set rm.sim_objects_ soh.GetNumaNode q
        (q.set soh.GetElementIdx last).dropLast hq
      rw [length_set_dropLast] at this
      omega
    · rintro v a hvu ⟨sv, hfv, hsv⟩
      obtain ⟨a0, ha0, ha0u⟩ := hinv.entry_slot _ _ hfv
      rw [hsv] at ha0
      cases ha0
      by_cases hv2 : v = last.uid
      · have hsame := StoreInvariant.slot_uid_inj hinv.slot_entry hsv hslot_last
          (ha0u.trans hv2)
        have hal : a = last := by
          rw [hsame.1, hsame.2, hslot_last] at hsv
          exact (Option.some.inj hsv).symm
        have hnp : soh.GetElementIdx + 1 < q.length := by
          by_contra hge
          have h1 : q.length - 1 = soh.GetElementIdx := by omega
          rw [h1, hso] at hlast
          apply hvu
          rw [hv2, ← Option.some.inj hlast]
          exact huid
        refine ⟨soh, ?_, ?_⟩
        · rw [hfind1, if_neg hvu, if_pos hv2]
        · rw [hslot1, if_pos rfl, if_pos hnp, if_pos rfl, hal]
      · have hfv1 : UnorderedMap.find rm1.uid_soh_map_ v = some sv := by
          rw [hfind1, if_neg hvu, if_neg hv2, hfv]
        refine ⟨sv, hfv1, ?_⟩
        obtain ⟨a1, ha1, ha1u⟩ := hinv1.entry_slot _ _ hfv1
        rw [hslot1] at ha1 ⊢
        by_cases hn : sv.GetNumaNode = soh.GetNumaNode
        · rw [if_pos hn] at ha1 ⊢
          by_cases hj : sv.GetElementIdx + 1 < q.length
          · rw [if_pos hj] at ha1 ⊢
            by_cases hij : soh.GetElementIdx = sv.GetElementIdx
            · rw [if_pos hij] at ha1
              exfalso
              apply hv2
              rw [← ha1u, ← Option.some.inj ha1]
            · rw [if_neg hij]
              rw [hn, slotAt_eq hq] at hsv
              exact hsv
          · rw [if_neg hj] at ha1
            cases ha1
        · rw [if_neg hn]
          exact hsv

/-- `push_back` of an agent with another uid keeps what a uid resolves to. -/
theorem push_back_frame {rm rm1 : ResourceManager} {so : SimObject} {p : NumaNode_t}
    (hpush : rm.push_back so p = .ok rm1) {v : SoUid} {a : SimObject}
    (hv : so.uid ≠ v) (hres : rm.Resolves v a) : rm1.Resolves v a := by
  obtain ⟨q, hq⟩ := push_back_some hpush
  rw [push_back_of_partition so hq] at hpush
  cases hpush
  obtain ⟨sv, hfv, hsv⟩ := hres
  refine ⟨sv, ?_, ?_⟩
  · show UnorderedMap.find (UnorderedMap.assign _ _ _) v = some sv
    rw [UnorderedMap.find_assign_ne _ _ (fun h => hv h.symm), hfv]
  · rw [slotAt_push_back so hq]
    by_cases hn : sv.GetNumaNode = p.val
    · rw [if_pos hn]
      rw [hn, slotAt_eq hq] at hsv
      have hlt : sv.GetElementIdx < q.length := by
        by_contra hge
        rw [List.getElem?_eq_none_iff.mpr (by omega)] at hsv
        cases hsv
      rw [if_pos hlt]
      exact hsv
    · rw [if_neg hn]
      exact hsv

theorem exampleStore_reachable : ReachableWithinCapacity exampleStore := by
  have h0 : ReachableWithinCapacity ⟨[], [[], []], []⟩ := .construct (a := 0) (k := 2) rfl
  have h1 : ReachableWithinCapacity ⟨[(1, SoHandle.make 0 0)], [[⟨1, 10⟩], []], []⟩ :=
    .push_back ⟨1, 10⟩ ⟨0, by decide⟩ h0 (by decide) (by decide) (by decide)
  have h2 : ReachableWithinCapacity
      ⟨[(2, SoHandle.make 0 1), (1, SoHandle.make 0 0)], [[⟨1, 10⟩, ⟨2, 20⟩], []], []⟩ :=
    .push_back ⟨2, 20⟩ ⟨0, by decide⟩ h1 (by decide) (by decide) (by decide)
  have h3 : ReachableWithinCapacity
      ⟨[(3, SoHandle.make 0 2), (2, SoHandle.make 0 1), (1, SoHandle.make 0 0)],
        [[⟨1, 10⟩, ⟨2, 20⟩, ⟨3, 30⟩], []], []⟩ :=
    .push_back ⟨3, 30⟩ ⟨0, by decide⟩ h2 (by decide) (by decide) (by decide)
  exact .push_back ⟨4, 40⟩ ⟨1, by decide⟩ h3 (by decide) (by decide) (by decide)

end bdm

namespace bdm

open ResourceManager

/-- A sequence of `Remove` calls for any uids in a store that satisfies the
invariant returns, and every uid that is not removed resolves as before. -/
theorem RemoveAll_frame (l : List SoUid) :
    ∀ rm : ResourceManager, StoreInvariant rm →
      ∃ rm1, rm.RemoveAll l = .ok rm1 ∧ StoreInvariant rm1 ∧
        (∀ v a, v ∉ l → rm.Resolves v a → rm1.Resolves v a) := by
  induction l with
  | nil =>
    intro rm hinv
    exact ⟨rm, rfl, hinv, fun _ _ _ h => h⟩
  | cons u rest ih =>
    intro rm hinv
    obtain ⟨rm1, hrem, hinv1, _, _, _, _, hframe1⟩ := Remove_frame hinv u
    obtain ⟨rm2, hall, hinv2, hframe2⟩ := ih rm1 hinv1
    refine ⟨rm2, ?_, hinv2, ?_⟩
    · show (match rm.Remove u with
        | .ok rm1 => rm1.RemoveAll rest
        | .error f => .error f) = _
      rw [hrem]
      exact hall
    · intro v a hv hres
      rw [List.mem_cons, not_or] at hv
      exact hframe2 v a hv.2 (hframe1 v a hv.1 hres)

end bdm

namespace bdm

open ResourceManager

end bdm

namespace bdm

open ResourceManager

/-! ## The claims -/

/-- C1 (swap-removal correctness). In a store in which the agent of every slot
has an IdentityMap entry pointing at this slot, `Remove(uid)` of the agent at
slot `i` of a partition of size `n` with `i < n - 1` returns, leaves the
partition at size `n - 1`, puts the formerly last agent of the partition at
slot `i`, and sets that agent's entry to a handle that is (partition, `i`), so
that `GetSimObject` finds the agent there. -/
theorem C1_swap_removal (rm : ResourceManager) (uid : SoUid) (p i : Nat)
    (numa_sos : List SimObject) (so last : SimObject)
    (hslots : ∀ n j a, rm.slotAt n j = some a →
      ∃ soh, UnorderedMap.find rm.uid_soh_map_ a.uid = some soh ∧ soh.PointsTo n j)
    (hp : rm.sim_objects_[p]? = some numa_sos)
    (hso : numa_sos[i]? = some so) (huid : so.uid = uid)
    (hi : i < numa_sos.length - 1)
    (hlast : numa_sos[numa_sos.length - 1]? = some last) :
    ∃ rm1 numa_sos1 soh, rm.Remove uid = .ok rm1 ∧
      rm1.sim_objects_[p]? = some numa_sos1 ∧
      numa_sos1.length = numa_sos.length - 1 ∧
      numa_sos1[i]? = some last ∧
      UnorderedMap.find rm1.uid_soh_map_ last.uid = some soh ∧ soh.PointsTo p i ∧
      ∀ NDEBUG, rm1.GetSimObject NDEBUG last.uid = .ok (last, rm1) := by
  obtain ⟨soh, hf, hpt⟩ := hslots p i so (by rw [slotAt_eq hp, hso])
  rw [huid] at hf
  have hlen := StoreInvariant.partition_length_le hslots hp
  have hp1 : rm.sim_objects_[soh.GetNumaNode]? = some numa_sos := by rw [hpt.1, hp]
  obtain ⟨last1, _, hlast1, hrem⟩ :=
    Remove_of_slot hf hp1 (by rw [hpt.2]; omega) (by omega)
  rw [hlast] at hlast1
  cases hlast1
  rw [if_neg (by rw [hpt.2]; omega), hpt.1, hpt.2] at hrem
  have hq : (rm.sim_objects_.set p (numa_sos.set i last).dropLast)[p]? =
      some (numa_sos.set i last).dropLast := by
    rw [getElem?_set_outer _ _ _ _ _ hp, if_pos rfl]
  have hslot : (numa_sos.set i last).dropLast[i]? = some last := by
    rw [getElem?_set_dropLast, if_pos (by omega), if_pos rfl]
  refine ⟨_, (numa_sos.set i last).dropLast, soh, hrem, hq, length_set_dropLast _ _ _,
    hslot, UnorderedMap.find_assign_self _ _ _, hpt, ?_⟩
  intro NDEBUG
  apply GetSimObject_of_find NDEBUG (UnorderedMap.find_assign_self _ _ _)
  rw [hpt.1, hpt.2]
  unfold slotAt
  simp only [hq, hslot]

/-- C1 at `exampleStore`: `Remove(1)` removes the agent at slot 0 of partition
0, which holds three agents. -/
theorem C1_swap_removal_witness :
    ∃ rm1 numa_sos1 soh, exampleStore.Remove 1 = .ok rm1 ∧
      rm1.sim_objects_[0]? = some numa_sos1 ∧
      numa_sos1.length = [(⟨1, 10⟩ : SimObject), ⟨2, 20⟩, ⟨3, 30⟩].length - 1 ∧
      numa_sos1[0]? = some ⟨3, 30⟩ ∧
      UnorderedMap.find rm1.uid_soh_map_ (⟨3, 30⟩ : SimObject).uid = some soh ∧
      soh.PointsTo 0 0 ∧
      ∀ NDEBUG, rm1.GetSimObject NDEBUG (⟨3, 30⟩ : SimObject).uid = .ok (⟨3, 30⟩, rm1) :=
  C1_swap_removal exampleStore 1 0 0 [⟨1, 10⟩, ⟨2, 20⟩, ⟨3, 30⟩] ⟨1, 10⟩ ⟨3, 30⟩
    (@invariant_of_check exampleStore (by decide)).slot_entry
    (by decide) (by decide) rfl (by decide) (by decide)

end bdm

namespace bdm

open ResourceManager

/-! ## The store `fullStore` -/

theorem fullStore_partition :
    fullStore.sim_objects_[0]? = some (List.replicate 4294967296 (agent 0)) := rfl

theorem fullStore_partitionSize : fullStore.partitionSize 0 = 4294967296 := by
  rw [partitionSize_eq fullStore_partition, List.length_replicate]

theorem fullStore_push_back :
    fullStore.push_back (agent 1) ⟨0, by decide⟩ = .ok
      { uid_soh_map_ := [(1, SoHandle.make 0 0)]
        sim_objects_ := [List.replicate 4294967296 (agent 0) ++ [agent 1]]
        diffusion_grids_ := [] } := by
  rw [push_back_of_partition (agent 1) (p := ⟨0, by decide⟩) fullStore_partition]
  rw [List.length_replicate]
  rfl

end bdm

namespace bdm

open ResourceManager

/-- C2 (store invariant, amended). In every state reached from a freshly
constructed store by any sequence of `push_back` (of an agent whose uid is not
stored, into a partition that holds fewer than `2^32` agents), `Remove` and
`Clear`: every live uid has exactly one IdentityMap entry, the handle of this
entry is in bounds and the agent at the handle has this uid, every slot of
every partition is the target of exactly one IdentityMap entry, and no uid is
stored in two slots. -/
theorem C2_store_invariant (rm : ResourceManager) (h : ReachableWithinCapacity rm) :
    IdentityMapConsistent rm :=
  IdentityMapConsistent.of_invariant h.invariant

/-- C2 at `exampleStore`, which is reached by four calls of `push_back`. -/
theorem C2_store_invariant_witness : IdentityMapConsistent exampleStore :=
  C2_store_invariant exampleStore exampleStore_reachable

/-- C2 fails as stated: `filled 4294967297` is reached from a freshly
constructed store by `2^32 + 1` calls of `push_back` with fresh uids; the uid
`2^32` is live in it, its entry has the handle (0, 0), and the agent at this
handle has uid 0. -/
theorem C2_counterexample :
    Reachable (filled 4294967297) ∧
    (filled 4294967297).Live 4294967296 ∧
    UnorderedMap.find (filled 4294967297).uid_soh_map_ 4294967296 =
      some (SoHandle.make 0 0) ∧
    (filled 4294967297).slotAt (SoHandle.make 0 0).GetNumaNode
      (SoHandle.make 0 0).GetElementIdx = some (agent 0) ∧
    ¬ IdentityMapConsistent (filled 4294967297) := by
  have hlive : (filled 4294967297).Live 4294967296 :=
    ⟨0, 4294967296, agent 4294967296, by rw [filled_slotAt, if_pos (by omega)], rfl⟩
  have hfind : UnorderedMap.find (filled 4294967297).uid_soh_map_ 4294967296 =
      some (SoHandle.make 0 0) := by
    rw [filled_find, if_pos (by omega)]
    rfl
  have hslot : (filled 4294967297).slotAt (SoHandle.make 0 0).GetNumaNode
      (SoHandle.make 0 0).GetElementIdx = some (agent 0) := by
    show (filled 4294967297).slotAt 0 0 = some (agent 0)
    rw [filled_slotAt, if_pos (by omega)]
  refine ⟨filled_reachable _, hlive, hfind, hslot, ?_⟩
  intro hcons
  obtain ⟨soh, so, hf, hs, hu⟩ := hcons.entry_slot _ hlive
  rw [hfind] at hf
  cases hf
  rw [hslot] at hs
  cases hs
  revert hu
  decide

/-- C3 (identity stability, amended). In every state reached from a freshly
constructed store by `push_back` (fresh uid, partition with fewer than `2^32`
agents), `Remove` and `Clear`, every contained uid `v` has exactly one
IdentityMap entry and resolves to one agent `a` with this uid; `GetSimObject(v)`
returns `a` before and after `Remove(u)` for every `u` different from `v`,
before and after every sequence of `Remove` calls for uids different from `v`,
and before and after every `push_back` of an agent with another uid; `v` is
still contained after these calls. -/
theorem C3_identity_stability (rm : ResourceManager) (h : ReachableWithinCapacity rm)
    (v : SoUid) (hv : rm.Contains v = true) :
    (rm.uid_soh_map_.filter (fun e => decide (e.1 = v))).length = 1 ∧
    ∃ a, a.uid = v ∧ (∀ NDEBUG, rm.GetSimObject NDEBUG v = .ok (a, rm)) ∧
      (∀ u, u ≠ v → ∃ rm1, rm.Remove u = .ok rm1 ∧ rm1.Contains v = true ∧
        (rm1.uid_soh_map_.filter (fun e => decide (e.1 = v))).length = 1 ∧
        ∀ NDEBUG, rm1.GetSimObject NDEBUG v = .ok (a, rm1)) ∧
      (∀ l : List SoUid, v ∉ l → ∃ rm1, rm.RemoveAll l = .ok rm1 ∧
        rm1.Contains v = true ∧ ∀ NDEBUG, rm1.GetSimObject NDEBUG v = .ok (a, rm1)) ∧
      (∀ so p rm1, so.uid ≠ v → rm.push_back so p = .ok rm1 →
        rm1.Contains v = true ∧ ∀ NDEBUG, rm1.GetSimObject NDEBUG v = .ok (a, rm1)) := by
  have hinv := h.invariant
  obtain ⟨a, hres, hau⟩ := hinv.resolves hv
  have hone : ∀ rm2 : ResourceManager, StoreInvariant rm2 → ∀ b, rm2.Resolves v b →
      (rm2.uid_soh_map_.filter (fun e => decide (e.1 = v))).length = 1 := by
    intro rm2 hinv2 b hb
    obtain ⟨s, hs, _⟩ := hb
    have := congrArg List.length (UnorderedMap.filter_key_eq hinv2.keys_nodup v)
    rw [List.length_map, hs] at this
    exact this
  refine ⟨hone rm hinv a hres, a, hau, hres.getSimObject, ?_, ?_, ?_⟩
  · intro u huv
    obtain ⟨rm1, hrem, hinv1, _, _, _, _, hframe⟩ := Remove_frame hinv u
    have hres1 := hframe v a (fun h => huv h.symm) hres
    exact ⟨rm1, hrem, hres1.contains,
      hone rm1 hinv1 a hres1, hres1.getSimObject⟩
  · intro l hl
    obtain ⟨rm1, hrem, _, hframe⟩ := RemoveAll_frame l rm hinv
    have hres1 := hframe v a hl hres
    exact ⟨rm1, hrem, hres1.contains, hres1.getSimObject⟩
  · intro so p rm1 hso hpush
    have hres1 := push_back_frame hpush hso hres
    exact ⟨hres1.contains, hres1.getSimObject⟩

/-- C3 at `exampleStore` and the contained uid 3. -/
theorem C3_identity_stability_witness :
    (exampleStore.uid_soh_map_.filter (fun e => decide (e.1 = 3))).length = 1 ∧
    ∃ a, a.uid = 3 ∧ (∀ NDEBUG, exampleStore.GetSimObject NDEBUG 3 = .ok (a, exampleStore)) ∧
      (∀ u, u ≠ 3 → ∃ rm1, exampleStore.Remove u = .ok rm1 ∧ rm1.Contains 3 = true ∧
        (rm1.uid_soh_map_.filter (fun e => decide (e.1 = 3))).length = 1 ∧
        ∀ NDEBUG, rm1.GetSimObject NDEBUG 3 = .ok (a, rm1)) ∧
      (∀ l : List SoUid, 3 ∉ l → ∃ rm1, exampleStore.RemoveAll l = .ok rm1 ∧
        rm1.Contains 3 = true ∧ ∀ NDEBUG, rm1.GetSimObject NDEBUG 3 = .ok (a, rm1)) ∧
      (∀ so p rm1, so.uid ≠ 3 → exampleStore.push_back so p = .ok rm1 →
        rm1.Contains 3 = true ∧ ∀ NDEBUG, rm1.GetSimObject NDEBUG 3 = .ok (a, rm1)) :=
  C3_identity_stability exampleStore exampleStore_reachable 3 (by decide)

end bdm

namespace bdm

open ResourceManager

theorem filled_resolves_zero (n : Nat) (hn : 0 < n) : (filled n).Resolves 0 (agent 0) := by
  refine ⟨SoHandle.make 0 0, ?_, ?_⟩
  · rw [filled_find, if_pos hn]
    rfl
  · show (filled n).slotAt 0 0 = some (agent 0)
    rw [filled_slotAt, if_pos hn]

/-- `Remove` of the last pushed uid of `filled (n + 1)` when the handle of this
uid has wrapped around to slot 0: the last agent is moved over the agent of
slot 0, and uid 0 resolves to the moved agent afterwards. -/
theorem filled_remove_wrapped (n : Nat) (hn : 0 < n) (hlen : n < 18446744073709551616)
    (hwrap : UnorderedMap.find (filled (n + 1)).uid_soh_map_ n = some (SoHandle.make 0 0)) :
    ∃ rm1, (filled (n + 1)).Remove n = .ok rm1 ∧ rm1.Resolves 0 (agent n) := by
  have hzero : (SoHandle.make 0 0).GetElementIdx = 0 := rfl
  have hnode : (SoHandle.make 0 0).GetNumaNode = 0 := rfl
  have hq : (filled (n + 1)).sim_objects_[(SoHandle.make 0 0).GetNumaNode]? =
      some ((List.range (n + 1)).map agent) := by
    rw [hnode]
    exact filled_partition (n + 1)
  have hlength : ((List.range (n + 1)).map agent).length = n + 1 := by
    rw [List.length_map, List.length_range]
  obtain ⟨last, _, hlast, hrem⟩ := Remove_of_slot hwrap hq
    (by rw [hzero, hlength]; omega) (by rw [hlength]; omega)
  have hlast2 : last = agent n := by
    have h1 := filled_slotAt (n + 1) n
    rw [slotAt_eq (filled_partition (n + 1)), if_pos (by omega)] at h1
    rw [hlength, Nat.add_sub_cancel, h1] at hlast
    exact (Option.some.inj hlast).symm
  rw [if_neg (by rw [hzero, hlength]; omega), hlast2, hzero, hnode] at hrem
  refine ⟨_, hrem, SoHandle.make 0 0, ?_, ?_⟩
  · show UnorderedMap.find (UnorderedMap.assign _ (agent n).uid _) 0 = _
    have h0 : (0 : Nat) ≠ (agent n).uid := by
      show 0 ≠ n
      omega
    rw [UnorderedMap.find_assign_ne _ _ h0, UnorderedMap.find_erase_ne _ (by omega),
      filled_find, if_pos (by omega)]
    rfl
  · rw [hzero, hnode]
    unfold slotAt
    simp only
    rw [getElem?_set_outer _ _ _ _ _ (filled_partition (n + 1)), if_pos rfl]
    simp only
    rw [getElem?_set_dropLast, hlength, if_pos (by omega), if_pos rfl]

/-- C3 fails as stated: `filled 4294967297` is reached by `2^32 + 1` calls of
`push_back` with fresh uids. It contains uid 0, and `GetSimObject(0)` returns
`agent 0`; after `Remove(4294967296)`, a different uid, uid 0 is still
contained and `GetSimObject(0)` returns `agent 4294967296`. -/
theorem C3_counterexample :
    Reachable (filled 4294967297) ∧
    (filled 4294967297).Contains 0 = true ∧
    (∀ NDEBUG, (filled 4294967297).GetSimObject NDEBUG 0 =
      .ok (agent 0, filled 4294967297)) ∧
    (∃ rm1, (filled 4294967297).Remove 4294967296 = .ok rm1 ∧
      rm1.Contains 0 = true ∧
      ∀ NDEBUG, rm1.GetSimObject NDEBUG 0 = .ok (agent 4294967296, rm1)) ∧
    agent 0 ≠ agent 4294967296 := by
  have h0 := filled_resolves_zero 4294967297 (by omega)
  have hwrap : UnorderedMap.find (filled (4294967296 + 1)).uid_soh_map_ 4294967296 =
      some (SoHandle.make 0 0) := by
    rw [filled_find, if_pos (by omega)]
    rfl
  obtain ⟨rm1, hrem, hres⟩ := filled_remove_wrapped 4294967296 (by omega) (by omega) hwrap
  exact ⟨filled_reachable _, h0.contains, h0.getSimObject,
    ⟨rm1, hrem, hres.contains, hres.getSimObject⟩, by decide⟩

end bdm

namespace bdm

open ResourceManager

/-- C4 (insert postcondition, amended). For every store, every partition index
`p` below the number of partitions whose partition holds fewer than `2^32`
agents, `push_back(so, p)` returns and appends `so` as the last element of
partition `p` (the size grows by one, the earlier slots keep their agents),
leaves every other partition unchanged, and sets the entry of `so`'s uid to a
handle that is (`p`, old size of partition `p`); the entries of all other uids
are unchanged, and without a partition argument partition 0 is used. -/
theorem C4_push_back_postcondition (rm : ResourceManager) (so : SimObject)
    (p : NumaNode_t) (hp : p.val < rm.sim_objects_.length)
    (hcap : rm.partitionSize p.val < 4294967296) :
    ∃ rm1 soh, rm.push_back so p = .ok rm1 ∧
      rm1.sim_objects_.length = rm.sim_objects_.length ∧
      rm1.partitionSize p.val = rm.partitionSize p.val + 1 ∧
      rm1.slotAt p.val (rm.partitionSize p.val) = some so ∧
      (∀ i, i < rm.partitionSize p.val → rm1.slotAt p.val i = rm.slotAt p.val i) ∧
      (∀ n, n ≠ p.val → rm1.sim_objects_[n]? = rm.sim_objects_[n]?) ∧
      UnorderedMap.find rm1.uid_soh_map_ so.uid = some soh ∧
      soh.PointsTo p.val (rm.partitionSize p.val) ∧
      (∀ v, v ≠ so.uid →
        UnorderedMap.find rm1.uid_soh_map_ v = UnorderedMap.find rm.uid_soh_map_ v) ∧
      rm.push_back_default so = rm.push_back so ⟨0, by decide⟩ := by
  obtain ⟨q, hq⟩ : ∃ q, rm.sim_objects_[p.val]? = some q :=
    ⟨_, List.getElem?_eq_getElem hp⟩
  have hsize := partitionSize_eq hq
  rw [hsize] at hcap ⊢
  have hq1 : (rm.sim_objects_.set p.val (q ++ [so]))[p.val]? = some (q ++ [so]) := by
    rw [getElem?_set_outer _ _ _ _ _ hq, if_pos rfl]
  refine ⟨_, _, push_back_of_partition so hq, ?_, ?_, ?_, ?_, ?_,
    UnorderedMap.find_assign_self _ _ _, make_pointsTo p.isLt hcap, ?_, rfl⟩
  · simp only [List.length_set]
  · rw [partitionSize_eq hq1, List.length_append, List.length_singleton]
  · rw [slotAt_push_back so hq, if_pos rfl, if_neg (by omega), if_pos rfl]
  · intro i hi
    rw [slotAt_push_back so hq, if_pos rfl, if_pos hi, slotAt_eq hq]
  · intro n hn
    simp only
    rw [getElem?_set_outer _ _ _ _ _ hq, if_neg hn]
  · intro v hv
    exact UnorderedMap.find_assign_ne _ _ hv

/-- C4 at `exampleStore`: `push_back` of an agent with uid 5 into partition 1. -/
theorem C4_push_back_postcondition_witness :
    ∃ rm1 soh, exampleStore.push_back ⟨5, 50⟩ ⟨1, by decide⟩ = .ok rm1 ∧
      rm1.sim_objects_.length = exampleStore.sim_objects_.length ∧
      rm1.partitionSize 1 = exampleStore.partitionSize 1 + 1 ∧
      rm1.slotAt 1 (exampleStore.partitionSize 1) = some ⟨5, 50⟩ ∧
      (∀ i, i < exampleStore.partitionSize 1 → rm1.slotAt 1 i = exampleStore.slotAt 1 i) ∧
      (∀ n, n ≠ 1 → rm1.sim_objects_[n]? = exampleStore.sim_objects_[n]?) ∧
      UnorderedMap.find rm1.uid_soh_map_ 5 = some soh ∧
      soh.PointsTo 1 (exampleStore.partitionSize 1) ∧
      (∀ v, v ≠ 5 → UnorderedMap.find rm1.uid_soh_map_ v =
        UnorderedMap.find exampleStore.uid_soh_map_ v) ∧
      exampleStore.push_back_default ⟨5, 50⟩ =
        exampleStore.push_back ⟨5, 50⟩ ⟨0, by decide⟩ :=
  C4_push_back_postcondition exampleStore ⟨5, 50⟩ ⟨1, by decide⟩ (by decide) (by decide)

/-- C4 fails as stated: partition 0 of `fullStore` exists and holds `2^32`
agents; `push_back` into it returns and gives the new agent the handle (0, 0),
and no handle is (0, `2^32`), the old size of the partition. -/
theorem C4_counterexample :
    (0 < fullStore.sim_objects_.length ∧ fullStore.partitionSize 0 = 4294967296) ∧
    (∃ rm1, fullStore.push_back (agent 1) ⟨0, by decide⟩ = .ok rm1 ∧
      UnorderedMap.find rm1.uid_soh_map_ (agent 1).uid = some (SoHandle.make 0 0) ∧
      (SoHandle.make 0 0).PointsTo 0 0) ∧
    ¬ ∃ rm1 soh, fullStore.push_back (agent 1) ⟨0, by decide⟩ = .ok rm1 ∧
      UnorderedMap.find rm1.uid_soh_map_ (agent 1).uid = some soh ∧
      soh.PointsTo 0 (fullStore.partitionSize 0) := by
  refine ⟨⟨by decide, fullStore_partitionSize⟩, ⟨_, fullStore_push_back, rfl, by decide⟩, ?_⟩
  rintro ⟨rm1, soh, _, _, _, h⟩
  rw [fullStore_partitionSize] at h
  have := soh.element_idx_.isLt
  unfold SoHandle.GetElementIdx at h
  omega

end bdm

namespace bdm

open ResourceManager

/-- C5 (insert/lookup round trip, amended). For every store, every agent `so`
and every partition index `p` below the number of partitions whose partition
holds fewer than `2^32` agents, `push_back(so, p)` returns, and afterwards
`GetSimObject(so.uid)` finds the entry of `so.uid` in the IdentityMap, follows
its handle and returns exactly `so` (leaving the store as it is), and
`Contains(so.uid)` is true. -/
theorem C5_push_back_lookup (rm : ResourceManager) (so : SimObject) (p : NumaNode_t)
    (hp : p.val < rm.sim_objects_.length)
    (hcap : rm.partitionSize p.val < 4294967296) :
    ∃ rm1 soh, rm.push_back so p = .ok rm1 ∧
      UnorderedMap.find rm1.uid_soh_map_ so.uid = some soh ∧
      rm1.GetSimObjectWithSoHandle soh = .ok so ∧
      (∀ NDEBUG, rm1.GetSimObject NDEBUG so.uid = .ok (so, rm1)) ∧
      rm1.Contains so.uid = true := by
  obtain ⟨q, hq⟩ : ∃ q, rm.sim_objects_[p.val]? = some q :=
    ⟨_, List.getElem?_eq_getElem hp⟩
  rw [partitionSize_eq hq] at hcap
  have hpt := make_pointsTo p.isLt hcap
  have hf := UnorderedMap.find_assign_self rm.uid_soh_map_ so.uid
    (SoHandle.make p.val (size_t_pred (q.length + 1)))
  have hs : slotAt
      { uid_soh_map_ := UnorderedMap.assign rm.uid_soh_map_ so.uid
          (SoHandle.make p.val (size_t_pred (q.length + 1)))
        sim_objects_ := rm.sim_objects_.set p.val (q ++ [so])
        diffusion_grids_ := rm.diffusion_grids_ }
      (SoHandle.make p.val (size_t_pred (q.length + 1))).GetNumaNode
      (SoHandle.make p.val (size_t_pred (q.length + 1))).GetElementIdx = some so := by
    rw [hpt.1, hpt.2, slotAt_push_back so hq, if_pos rfl, if_neg (by omega), if_pos rfl]
  refine ⟨_, _, push_back_of_partition so hq, hf, ?_,
    fun NDEBUG => GetSimObject_of_find NDEBUG hf hs, (Contains_iff _ _).mpr ⟨_, hf⟩⟩
  obtain ⟨q1, hq1, hi1⟩ := slotAt_some hs
  unfold GetSimObjectWithSoHandle
  simp only [hq1, hi1]

/-- C5 at `exampleStore`: `push_back` of an agent with uid 5 into partition 1. -/
theorem C5_push_back_lookup_witness :
    ∃ rm1 soh, exampleStore.push_back ⟨5, 50⟩ ⟨1, by decide⟩ = .ok rm1 ∧
      UnorderedMap.find rm1.uid_soh_map_ 5 = some soh ∧
      rm1.GetSimObjectWithSoHandle soh = .ok ⟨5, 50⟩ ∧
      (∀ NDEBUG, rm1.GetSimObject NDEBUG 5 = .ok (⟨5, 50⟩, rm1)) ∧
      rm1.Contains 5 = true :=
  C5_push_back_lookup exampleStore ⟨5, 50⟩ ⟨1, by decide⟩ (by decide) (by decide)

/-- C5 fails as stated: after `push_back(agent 1)` into partition 0 of
`fullStore`, which holds `2^32` agents, `GetSimObject(1)` returns the agent of
slot 0, which is `agent 0` and not `agent 1`. -/
theorem C5_counterexample :
    ∃ rm1, fullStore.push_back (agent 1) ⟨0, by decide⟩ = .ok rm1 ∧
      (∀ NDEBUG, rm1.GetSimObject NDEBUG (agent 1).uid = .ok (agent 0, rm1)) ∧
      agent 0 ≠ agent 1 := by
  have hf : UnorderedMap.find [(1, SoHandle.make 0 0)] (agent 1).uid =
      some (SoHandle.make 0 0) := rfl
  have hs : slotAt
      { uid_soh_map_ := [(1, SoHandle.make 0 0)]
        sim_objects_ := [List.replicate 4294967296 (agent 0) ++ [agent 1]]
        diffusion_grids_ := [] }
      (SoHandle.make 0 0).GetNumaNode (SoHandle.make 0 0).GetElementIdx =
      some (agent 0) := by
    show (List.replicate 4294967296 (agent 0) ++ [agent 1])[0]? = some (agent 0)
    rw [List.getElem?_append_left (by rw [List.length_replicate]; omega),
      List.getElem?_replicate_of_lt (by omega)]
  exact ⟨_, fullStore_push_back, fun NDEBUG => GetSimObject_of_find NDEBUG hf hs,
    by decide⟩

/-- C6 (lookup of an absent id, amended). For every store and every uid that
the store does not contain: with `assert` enabled `GetSimObject(uid)` fails the
assertion `Contains(uid)` and the process is aborted; with `assert` compiled
out, `uid_soh_map_[uid]` inserts the default handle (65535, 4294967295) under
`uid` and the call reads that slot, which is undefined behaviour unless the
slot exists. In neither case does the call return with the store unchanged. -/
theorem C6_lookup_absent (rm : ResourceManager) (uid : SoUid)
    (h : rm.Contains uid = false) :
    rm.GetSimObject false uid = .error .assertion ∧
    rm.GetSimObject true uid =
      (match rm.slotAt 65535 4294967295 with
       | some so =>
         .ok (so, { rm with uid_soh_map_ := (uid, SoHandle.default) :: rm.uid_soh_map_ })
       | none => .error .undefinedBehaviour) ∧
    ∀ NDEBUG so, rm.GetSimObject NDEBUG uid ≠ .ok (so, rm) := by
  have hf := (Contains_false_iff rm uid).mp h
  have h1 : rm.GetSimObject false uid = .error .assertion := by
    unfold GetSimObject
    simp [h]
  have h2 : rm.GetSimObject true uid =
      (match rm.slotAt 65535 4294967295 with
       | some so =>
         .ok (so, { rm with uid_soh_map_ := (uid, SoHandle.default) :: rm.uid_soh_map_ })
       | none => .error .undefinedBehaviour) := by
    unfold GetSimObject slotAt UnorderedMap.index
    simp only [hf, Bool.not_true, Bool.false_and, Bool.false_eq_true, if_false]
    show (match rm.sim_objects_[65535]? with
      | none => _
      | some numa_sos => match numa_sos[4294967295]? with
        | none => _
        | some so => _) = _
    cases rm.sim_objects_[65535]? with
    | none => rfl
    | some q =>
      simp only
      cases q[4294967295]? <;> rfl
  have h3 : ∀ NDEBUG so, rm.GetSimObject NDEBUG uid ≠ .ok (so, rm) := by
    intro NDEBUG so
    cases NDEBUG
    · rw [h1]
      intro hc
      cases hc
    · rw [h2]
      cases rm.slotAt 65535 4294967295 with
      | none =>
        intro hc
        cases hc
      | some a =>
        simp only
        intro hc
        have hm := congrArg (fun r => r.2.uid_soh_map_) (Except.ok.inj hc)
        simp only at hm
        have := congrArg List.length hm
        simp at this
  exact ⟨h1, h2, h3⟩

/-- C6 at `exampleStore` and the absent uid 9. -/
theorem C6_lookup_absent_witness :
    exampleStore.GetSimObject false 9 = .error .assertion ∧
    exampleStore.GetSimObject true 9 =
      (match exampleStore.slotAt 65535 4294967295 with
       | some so =>
         .ok (so, { exampleStore with
           uid_soh_map_ := (9, SoHandle.default) :: exampleStore.uid_soh_map_ })
       | none => .error .undefinedBehaviour) ∧
    ∀ NDEBUG so, exampleStore.GetSimObject NDEBUG 9 ≠ .ok (so, exampleStore) :=
  C6_lookup_absent exampleStore 9 (by decide)

/-- C6 fails as stated: `exampleStore` does not contain uid 9, and
`GetSimObject(9)` does not return to its caller: it aborts at the assertion,
or, without assertions, has undefined behaviour. -/
theorem C6_counterexample :
    exampleStore.Contains 9 = false ∧
    exampleStore.GetSimObject false 9 = .error .assertion ∧
    exampleStore.GetSimObject true 9 = .error .undefinedBehaviour ∧
    ¬ ∃ NDEBUG r, exampleStore.GetSimObject NDEBUG 9 = .ok r := by
  refine ⟨by decide, by decide, by decide, ?_⟩
  rintro ⟨NDEBUG, r, h⟩
  cases NDEBUG
  · have h1 : exampleStore.GetSimObject false 9 = .error .assertion := by decide
    rw [h1] at h
    cases h
  · have h1 : exampleStore.GetSimObject true 9 = .error .undefinedBehaviour := by decide
    rw [h1] at h
    cases h

end bdm

namespace bdm

open ResourceManager

/-- C7 (removal makes the agent absent). For every store that satisfies the
store invariant and every stored uid, `Remove(uid)` returns; afterwards
`Contains(uid)` is false, no slot of any partition holds an agent with this
uid, the partition the agent was stored in holds exactly one agent less, and
every other partition (and the number of partitions) is as before. -/
theorem C7_remove_makes_absent (rm : ResourceManager) (uid : SoUid)
    (hinv : StoreInvariant rm) (hc : rm.Contains uid = true) :
    ∃ rm1 soh so, UnorderedMap.find rm.uid_soh_map_ uid = some soh ∧
      rm.slotAt soh.GetNumaNode soh.GetElementIdx = some so ∧ so.uid = uid ∧
      rm.Remove uid = .ok rm1 ∧
      rm1.Contains uid = false ∧
      (∀ n i a, rm1.slotAt n i = some a → a.uid ≠ uid) ∧
      rm1.partitionSize soh.GetNumaNode + 1 = rm.partitionSize soh.GetNumaNode ∧
      (∀ n, n ≠ soh.GetNumaNode → rm1.sim_objects_[n]? = rm.sim_objects_[n]?) ∧
      rm1.sim_objects_.length = rm.sim_objects_.length := by
  obtain ⟨soh, hf⟩ := (Contains_iff rm uid).mp hc
  obtain ⟨q, so, last, rm1, hq, hso, huid, _, hi, hrem, _, hsim, hfind1, _, hinv1⟩ :=
    Remove_spec hinv hf
  have habs : UnorderedMap.find rm1.uid_soh_map_ uid = none := by
    rw [hfind1, if_pos rfl]
  refine ⟨rm1, soh, so, hf, by rw [slotAt_eq hq, hso], huid, hrem,
    (Contains_false_iff _ _).mpr habs, ?_, ?_, ?_, ?_⟩
  · intro n i a ha hau
    obtain ⟨s, hs, _⟩ := hinv1.slot_entry _ _ _ ha
    rw [hau, habs] at hs
    cases hs
  · have hq1 : rm1.sim_objects_[soh.GetNumaNode]? =
        some (q.set soh.GetElementIdx last).dropLast := by
      rw [hsim, getElem?_set_outer _ _ _ _ _ hq, if_pos rfl]
    rw [partitionSize_eq hq1, partitionSize_eq hq, length_set_dropLast]
    omega
  · intro n hn
    rw [hsim, getElem?_set_outer _ _ _ _ _ hq, if_neg hn]
  · rw [hsim, List.length_set]

/-- C7 at `exampleStore` and the stored uid 2. -/
theorem C7_remove_makes_absent_witness :
    ∃ rm1 soh so, UnorderedMap.find exampleStore.uid_soh_map_ 2 = some soh ∧
      exampleStore.slotAt soh.GetNumaNode soh.GetElementIdx = some so ∧ so.uid = 2 ∧
      exampleStore.Remove 2 = .ok rm1 ∧
      rm1.Contains 2 = false ∧
      (∀ n i a, rm1.slotAt n i = some a → a.uid ≠ 2) ∧
      rm1.partitionSize soh.GetNumaNode + 1 = exampleStore.partitionSize soh.GetNumaNode ∧
      (∀ n, n ≠ soh.GetNumaNode → rm1.sim_objects_[n]? = exampleStore.sim_objects_[n]?) ∧
      rm1.sim_objects_.length = exampleStore.sim_objects_.length :=
  C7_remove_makes_absent exampleStore 2 (invariant_of_check (by decide)) (by decide)

/-- C8 (removing an unknown id is a no-op). For every store and every uid that
the store does not contain, `Remove(uid)` returns and the store after the call
is the store before it: every partition's agent sequence, the whole
IdentityMap and the diffusion grids are the same. -/
theorem C8_remove_unknown_noop (rm : ResourceManager) (uid : SoUid)
    (h : rm.Contains uid = false) :
    ∃ rm1, rm.Remove uid = .ok rm1 ∧ rm1.sim_objects_ = rm.sim_objects_ ∧
      rm1.uid_soh_map_ = rm.uid_soh_map_ ∧ rm1.diffusion_grids_ = rm.diffusion_grids_ :=
  ⟨rm, Remove_of_absent ((Contains_false_iff rm uid).mp h), rfl, rfl, rfl⟩

/-- C8 at `exampleStore` and the unknown uid 9. -/
theorem C8_remove_unknown_noop_witness :
    ∃ rm1, exampleStore.Remove 9 = .ok rm1 ∧
      rm1.sim_objects_ = exampleStore.sim_objects_ ∧
      rm1.uid_soh_map_ = exampleStore.uid_soh_map_ ∧
      rm1.diffusion_grids_ = exampleStore.diffusion_grids_ :=
  C8_remove_unknown_noop exampleStore 9 (by decide)

/-- C9 (removing an unknown id, amended). `Remove` has no failure to report:
for every store and every uid that the store does not contain, the call
returns normally, with no fault, and its result is exactly the result of a
call that did nothing; and for no store and no uid does `Remove` end in an
assertion or in `Log::Fatal`. -/
theorem C9_remove_unknown_silent (rm : ResourceManager) (uid : SoUid)
    (h : rm.Contains uid = false) :
    rm.Remove uid = (.ok rm : Except Fault ResourceManager) ∧
    (∀ f, rm.Remove uid ≠ .error f) ∧
    ∀ (rm2 : ResourceManager) (uid2 : SoUid),
      rm2.Remove uid2 ≠ .error .assertion ∧ rm2.Remove uid2 ≠ .error .fatal := by
  have h1 := Remove_of_absent ((Contains_false_iff rm uid).mp h)
  refine ⟨h1, ?_, ?_⟩
  · intro f hf
    rw [h1] at hf
    cases hf
  · intro rm2 uid2
    unfold Remove
    constructor <;>
    · intro hc
      split at hc
      · cases hc
      · split at hc
        · cases hc
        · split at hc
          · split at hc <;> cases hc
          · split at hc <;> cases hc

/-- C9 at `exampleStore` and the unknown uid 9. -/
theorem C9_remove_unknown_silent_witness :
    exampleStore.Remove 9 = (.ok exampleStore : Except Fault ResourceManager) ∧
    (∀ f, exampleStore.Remove 9 ≠ .error f) ∧
    ∀ (rm2 : ResourceManager) (uid2 : SoUid),
      rm2.Remove uid2 ≠ .error .assertion ∧ rm2.Remove uid2 ≠ .error .fatal :=
  C9_remove_unknown_silent exampleStore 9 (by decide)

/-- C9 fails as stated: `exampleStore` does not contain uid 9, and `Remove(9)`
reports no failure: it returns normally with the store unchanged, which is
what a silent no-op is. -/
theorem C9_counterexample :
    exampleStore.Contains 9 = false ∧
    exampleStore.Remove 9 = .ok exampleStore ∧
    ¬ ∃ f, exampleStore.Remove 9 = .error f := by
  refine ⟨by decide, by decide, ?_⟩
  rintro ⟨f, hf⟩
  have h1 : exampleStore.Remove 9 = .ok exampleStore := by decide
  rw [h1] at hf
  cases hf

end bdm

namespace bdm

open ResourceManager

end bdm

namespace bdm

open ResourceManager

/-! ## Lemmas on the traversal -/

theorem mem_indexed {α : Type} (xs : List α) :
    ∀ (s j : Nat) (x : α), (j, x) ∈ indexed s xs ↔ s ≤ j ∧ xs[j - s]? = some x := by
  induction xs with
  | nil =>
    intro s j x
    simp [indexed]
  | cons y ys ih =>
    intro s j x
    rw [indexed, List.mem_cons, ih]
    constructor
    · rintro (h | ⟨h1, h2⟩)
      · cases h
        simp
      · refine ⟨by omega, ?_⟩
        have : j - s = (j - (s + 1)) + 1 := by omega
        rw [this, List.getElem?_cons_succ]
        exact h2
    · rintro ⟨h1, h2⟩
      by_cases hj : j = s
      · left
        rw [hj, Nat.sub_self, List.getElem?_cons_zero] at h2
        rw [hj, Option.some.inj h2]
      · right
        refine ⟨by omega, ?_⟩
        have : j - s = (j - (s + 1)) + 1 := by omega
        rw [this, List.getElem?_cons_succ] at h2
        exact h2

theorem indexed_map_snd {α : Type} (xs : List α) :
    ∀ s, (indexed s xs).map Prod.snd = xs := by
  induction xs with
  | nil => intro s; rfl
  | cons y ys ih =>
    intro s
    rw [indexed, List.map_cons, ih]

theorem indexed_pairwise {α : Type} (xs : List α) :
    ∀ s, (indexed s xs).Pairwise (fun a b => a.1 < b.1) := by
  induction xs with
  | nil => intro s; exact List.Pairwise.nil
  | cons y ys ih =>
    intro s
    rw [indexed, List.pairwise_cons]
    refine ⟨?_, ih (s + 1)⟩
    rintro ⟨j, x⟩ hjx
    have := ((mem_indexed ys (s + 1) j x).mp hjx).1
    show s < j
    omega

theorem forEachIdx_eq_foldl {α σ : Type} (body : σ → Nat → α → σ) (xs : List α) :
    ∀ (s : Nat) (st : σ),
      forEachIdx body s xs st = (indexed s xs).foldl (fun st e => body st e.1 e.2) st := by
  induction xs with
  | nil => intro s st; rfl
  | cons y ys ih =>
    intro s st
    rw [forEachIdx, indexed, List.foldl_cons, ih]

namespace ResourceManager

theorem ApplyOnAllElements_eq {σ : Type} (rm : ResourceManager)
    (f : σ → SimObject → σ) (st : σ) :
    rm.ApplyOnAllElements f st = rm.sim_objects_.flatten.foldl f st := by
  unfold ApplyOnAllElements
  rw [List.foldl_flatten]

theorem foldl_append_singleton {α : Type} (xs : List α) :
    ∀ acc : List α, xs.foldl (fun calls x => calls ++ [x]) acc = acc ++ xs := by
  induction xs with
  | nil => intro acc; simp
  | cons y ys ih =>
    intro acc
    rw [List.foldl_cons, ih]
    simp

theorem slotList_aux_foldl {σ : Type} (f : σ → SimObject → SoHandle → σ)
    (L : List (List SimObject)) :
    ∀ (s : Nat) (st : σ),
      forEachIdx (fun st n numa_sos =>
        forEachIdx (fun st i so => f st so (SoHandle.make n i)) 0 numa_sos st) s L st =
      ((indexed s L).flatMap
        (fun p => (indexed 0 p.2).map (fun e => (p.1, e.1, e.2)))).foldl
        (fun st e => f st e.2.2 (SoHandle.make e.1 e.2.1)) st := by
  induction L with
  | nil => intro s st; rfl
  | cons q rest ih =>
    intro s st
    rw [forEachIdx, indexed, List.flatMap_cons, List.foldl_append, ih,
      forEachIdx_eq_foldl, List.foldl_map]

theorem ApplyOnAllElements_SoHandle_eq {σ : Type} (rm : ResourceManager)
    (f : σ → SimObject → SoHandle → σ) (st : σ) :
    rm.ApplyOnAllElements_SoHandle f st =
      rm.slotList.foldl (fun st e => f st e.2.2 (SoHandle.make e.1 e.2.1)) st :=
  slotList_aux_foldl f rm.sim_objects_ 0 st

theorem mem_slotList (rm : ResourceManager) (n i : Nat) (so : SimObject) :
    (n, i, so) ∈ rm.slotList ↔ rm.slotAt n i = some so := by
  unfold slotList slotAt
  rw [List.mem_flatMap]
  constructor
  · rintro ⟨⟨n1, q⟩, hp, hmem⟩
    rw [List.mem_map] at hmem
    obtain ⟨⟨i1, so1⟩, he, heq⟩ := hmem
    simp only [Prod.mk.injEq] at heq
    obtain ⟨h1, h2, h3⟩ := heq
    subst h1 h2 h3
    have hq := ((mem_indexed _ 0 _ _).mp hp).2
    have hi := ((mem_indexed _ 0 _ _).mp he).2
    rw [Nat.sub_zero] at hq hi
    rw [hq]
    exact hi
  · intro h
    cases hq : rm.sim_objects_[n]? with
    | none => rw [hq] at h; cases h
    | some q =>
      rw [hq] at h
      refine ⟨(n, q), (mem_indexed _ 0 _ _).mpr ⟨Nat.zero_le _, by rw [Nat.sub_zero, hq]⟩, ?_⟩
      rw [List.mem_map]
      exact ⟨(i, so), (mem_indexed _ 0 _ _).mpr ⟨Nat.zero_le _, by rw [Nat.sub_zero]; exact h⟩,
        rfl⟩

theorem slotList_pairwise (rm : ResourceManager) : rm.slotList.Pairwise SlotBefore := by
  unfold slotList
  rw [List.pairwise_flatMap]
  constructor
  · rintro ⟨n, q⟩ _
    rw [List.pairwise_map]
    exact (indexed_pairwise q 0).imp (fun h => Or.inr ⟨rfl, h⟩)
  · refine (indexed_pairwise rm.sim_objects_ 0).imp ?_
    intro p1 p2 hlt x hx y hy
    rw [List.mem_map] at hx hy
    obtain ⟨e1, _, rfl⟩ := hx
    obtain ⟨e2, _, rfl⟩ := hy
    exact Or.inl hlt

theorem slotList_nodup (rm : ResourceManager) : rm.slotList.Nodup := by
  refine (slotList_pairwise rm).imp ?_
  intro a b hab heq
  rw [heq] at hab
  rcases hab with h | ⟨_, h⟩ <;> omega

theorem slotList_aux_agents (L : List (List SimObject)) :
    ∀ s, ((indexed s L).flatMap
      (fun p => (indexed 0 p.2).map (fun e => (p.1, e.1, e.2)))).map (fun e => e.2.2) =
      L.flatten := by
  induction L with
  | nil => intro s; rfl
  | cons q rest ih =>
    intro s
    rw [indexed, List.flatMap_cons, List.map_append, ih, List.flatten_cons, List.map_map]
    congr 1
    exact indexed_map_snd q 0

theorem slotList_agents (rm : ResourceManager) :
    rm.slotList.map (fun e => e.2.2) = rm.sim_objects_.flatten :=
  slotList_aux_agents rm.sim_objects_ 0

theorem slotList_length (rm : ResourceManager) : rm.slotList.length = rm.total := by
  have := congrArg List.length (slotList_agents rm)
  rw [List.length_map, List.length_flatten] at this
  exact this

theorem GetSimObjectWithSoHandle_of_slot {rm : ResourceManager} {soh : SoHandle}
    {so : SimObject} (h : rm.slotAt soh.GetNumaNode soh.GetElementIdx = some so) :
    rm.GetSimObjectWithSoHandle soh = .ok so := by
  obtain ⟨q, hq, hi⟩ := slotAt_some h
  unfold GetSimObjectWithSoHandle
  simp only [hq, hi]

end ResourceManager

theorem make_pointsTo_of_lt {n i : Nat} (hn : n < 65536) (hi : i < 4294967296) :
    (SoHandle.make n i).PointsTo n i := by
  constructor
  · show n % 65536 = n
    exact Nat.mod_eq_of_lt hn
  · show i % 4294967296 = i
    exact Nat.mod_eq_of_lt hi

end bdm

namespace bdm

/-! ## Lemmas on `Simulation::Restore` -/

theorem ResourceManager.moveAssign_eq (self other : ResourceManager)
    (hlen : self.sim_objects_.length = other.sim_objects_.length) :
    self.moveAssign other = .ok other := by
  unfold ResourceManager.moveAssign
  rw [if_neg (not_not.mpr hlen)]

theorem ResourceManager.moveAssign_ne (self other : ResourceManager)
    (hlen : self.sim_objects_.length ≠ other.sim_objects_.length) :
    self.moveAssign other = .error Fault.fatal := by
  unfold ResourceManager.moveAssign
  rw [if_pos hlen]
  rfl

end bdm

namespace bdm

/-! ## Lemmas on the comparison of handles -/

theorem SoHandle.operator_lt_iff (a b : SoHandle) :
    a.operator_lt b = true ↔
      a.GetNumaNode < b.GetNumaNode ∨
        (a.GetNumaNode = b.GetNumaNode ∧ a.GetElementIdx < b.GetElementIdx) := by
  unfold SoHandle.operator_lt SoHandle.GetNumaNode SoHandle.GetElementIdx
  by_cases h : a.numa_node_ = b.numa_node_
  · rw [if_pos h, decide_eq_true_eq, Fin.lt_def, h]
    constructor
    · intro h1
      exact Or.inr ⟨rfl, h1⟩
    · rintro (h1 | ⟨_, h1⟩)
      · exact absurd h1 (lt_irrefl _)
      · exact h1
  · rw [if_neg h, decide_eq_true_eq, Fin.lt_def]
    have h2 : a.numa_node_.val ≠ b.numa_node_.val := fun h3 => h (Fin.ext h3)
    constructor
    · intro h1
      exact Or.inl h1
    · rintro (h1 | ⟨h1, _⟩)
      · exact h1
      · exact absurd h1 h2

theorem SoHandle.operator_eq_iff (a b : SoHandle) :
    a.operator_eq b = true ↔
      a.GetNumaNode = b.GetNumaNode ∧ a.GetElementIdx = b.GetElementIdx := by
  unfold SoHandle.operator_eq SoHandle.GetNumaNode SoHandle.GetElementIdx
  rw [Bool.and_eq_true, decide_eq_true_eq, decide_eq_true_eq, Fin.ext_iff, Fin.ext_iff]

theorem SoHandle.operator_eq_iff_eq (a b : SoHandle) : a.operator_eq b = true ↔ a = b := by
  rw [SoHandle.operator_eq_iff]
  constructor
  · rintro ⟨h1, h2⟩
    cases a
    cases b
    congr 1
    · exact Fin.ext h1
    · exact Fin.ext h2
  · rintro rfl
    exact ⟨rfl, rfl⟩

theorem SoHandle.operator_lt_false_iff (a b : SoHandle) :
    a.operator_lt b = false ↔
      ¬ (a.GetNumaNode < b.GetNumaNode ∨
        (a.GetNumaNode = b.GetNumaNode ∧ a.GetElementIdx < b.GetElementIdx)) := by
  rw [← Bool.not_eq_true, SoHandle.operator_lt_iff]

theorem SoHandle.operator_eq_false_iff (a b : SoHandle) :
    a.operator_eq b = false ↔
      ¬ (a.GetNumaNode = b.GetNumaNode ∧ a.GetElementIdx = b.GetElementIdx) := by
  rw [← Bool.not_eq_true, SoHandle.operator_eq_iff]

end bdm

namespace bdm

open ResourceManager

/-! ## Lemmas for `push_back` of a uid that is stored -/

theorem UnorderedMap.length_erase_of_find {V : Type} {m : List (Nat × V)} {k : Nat} {v : V}
    (hn : (m.map Prod.fst).Nodup) (h : UnorderedMap.find m k = some v) :
    (UnorderedMap.erase m k).length + 1 = m.length := by
  induction m with
  | nil => cases h
  | cons e rest ih =>
    obtain ⟨k1, v1⟩ := e
    rw [List.map_cons, List.nodup_cons] at hn
    rw [UnorderedMap.find_cons] at h
    by_cases hk : k1 = k
    · have hnone : UnorderedMap.find rest k = none := by
        rw [UnorderedMap.find_eq_none_iff, ← hk]
        exact hn.1
      have herase : UnorderedMap.erase ((k1, v1) :: rest) k = UnorderedMap.erase rest k := by
        unfold UnorderedMap.erase
        rw [List.filter_cons_of_neg]
        simpa using hk
      rw [herase, UnorderedMap.erase_eq_self hnone, List.length_cons]
    · rw [if_neg hk] at h
      have herase : UnorderedMap.erase ((k1, v1) :: rest) k =
          (k1, v1) :: UnorderedMap.erase rest k := by
        unfold UnorderedMap.erase
        rw [List.filter_cons_of_pos]
        simpa using hk
      rw [herase, List.length_cons, ih hn.2 h, List.length_cons]

theorem UnorderedMap.size_assign_of_find {V : Type} {m : List (Nat × V)} {k : Nat} {v : V}
    (v1 : V) (hn : (m.map Prod.fst).Nodup) (h : UnorderedMap.find m k = some v) :
    UnorderedMap.size (UnorderedMap.assign m k v1) = UnorderedMap.size m := by
  unfold UnorderedMap.size UnorderedMap.assign
  rw [List.length_cons]
  exact UnorderedMap.length_erase_of_find hn h

theorem filled_within_capacity (n : Nat) (hn : n ≤ 4294967296) :
    ReachableWithinCapacity (filled n) := by
  induction n with
  | zero => exact ReachableWithinCapacity.construct (a := 0) (k := 1) rfl
  | succ n ih =>
    refine ReachableWithinCapacity.push_back (agent n) ⟨0, by decide⟩ (ih (by omega)) ?_ ?_
      (filled_push_back n)
    · rw [Contains_false_iff]
      show UnorderedMap.find (filled n).uid_soh_map_ n = none
      rw [filled_find, if_neg (by omega)]
    · show (filled n).partitionSize 0 < 4294967296
      rw [partitionSize_eq (filled_partition n), List.length_map, List.length_range]
      omega

theorem filled_invariant (n : Nat) (hn : n ≤ 4294967296) : StoreInvariant (filled n) :=
  ReachableWithinCapacity.invariant (filled_within_capacity n hn)

end bdm

namespace bdm

/-! ## Lemmas on `std::string` and on the decimal representation -/

theorem StdString.find_last_of_none_iff (s : List Char) (c : Char) :
    StdString.find_last_of s c = none ↔ c ∉ s := by
  induction s with
  | nil => simp [StdString.find_last_of]
  | cons x rest ih =>
    unfold StdString.find_last_of
    cases hr : StdString.find_last_of rest c with
    | some pos =>
      have hmem : c ∈ rest := by
        by_contra hno
        rw [ih.mpr hno] at hr
        cases hr
      simp [hmem]
    | none =>
      have hno : c ∉ rest := ih.mp hr
      by_cases hx : x = c
      · simp [hx]
      · have hx1 : ¬ c = x := fun h => hx h.symm
        simp [hx, hx1, hno]

theorem StdString.find_last_of_some {s : List Char} {c : Char} {pos : Nat}
    (h : StdString.find_last_of s c = some pos) :
    pos < s.length ∧ s = s.take pos ++ c :: s.drop (pos + 1) ∧ c ∉ s.drop (pos + 1) := by
  induction s generalizing pos with
  | nil => cases h
  | cons x rest ih =>
    unfold StdString.find_last_of at h
    cases hr : StdString.find_last_of rest c with
    | some pos1 =>
      rw [hr] at h
      cases h
      obtain ⟨h1, h2, h3⟩ := ih hr
      refine ⟨by rw [List.length_cons]; omega, ?_, ?_⟩
      · rw [List.take_succ_cons, List.drop_succ_cons, List.cons_append, ← h2]
      · rw [List.drop_succ_cons]
        exact h3
    | none =>
      rw [hr] at h
      by_cases hx : x = c
      · simp only [hx, if_true, Option.some.injEq] at h
        subst h
        refine ⟨by rw [List.length_cons]; omega, ?_, ?_⟩
        · rw [hx]
          rfl
        · rw [List.drop_succ_cons, List.drop_zero]
          exact (StdString.find_last_of_none_iff rest c).mp hr
      · simp only [hx, if_false] at h
        cases h

/-- The value of a character as a decimal digit. -/
theorem Nat.digitChar_toNat_sub (k : Nat) (hk : k < 10) :
    (Nat.digitChar k).toNat - 48 = k := by
  interval_cases k <;> rfl

theorem toDigitsCore_value (fuel n : Nat) (ds : List Char) (h : n < fuel) :
    (Nat.toDigitsCore 10 fuel n ds).foldl (fun acc c => 10 * acc + (c.toNat - 48)) 0 =
      ds.foldl (fun acc c => 10 * acc + (c.toNat - 48)) n := by
  induction fuel generalizing n ds with
  | zero => omega
  | succ fuel ih =>
    unfold Nat.toDigitsCore
    simp only
    by_cases h0 : n / 10 = 0
    · rw [if_pos h0, List.foldl_cons, Nat.digitChar_toNat_sub _ (Nat.mod_lt _ (by decide))]
      have : 10 * 0 + n % 10 = n := by omega
      rw [this]
    · rw [if_neg h0, ih (n / 10) _ (by omega), List.foldl_cons,
        Nat.digitChar_toNat_sub _ (Nat.mod_lt _ (by decide))]
      have : 10 * (n / 10) + n % 10 = n := by omega
      rw [this]

theorem repr_value (n : Nat) :
    (Nat.repr n).data.foldl (fun acc c => 10 * acc + (c.toNat - 48)) 0 = n := by
  show (Nat.toDigitsCore 10 (n + 1) n []).foldl _ 0 = n
  rw [toDigitsCore_value (n + 1) n [] (by omega)]
  rfl

theorem repr_injective {a b : Nat} (h : Nat.repr a = Nat.repr b) : a = b := by
  rw [← repr_value a, ← repr_value b, h]

theorem repr_ne_empty (n : Nat) : (Nat.repr n).data ≠ [] := by
  show Nat.toDigitsCore 10 (n + 1) n [] ≠ []
  unfold Nat.toDigitsCore
  simp only
  split
  · exact List.cons_ne_nil _ _
  · intro h
    have hlen := congrArg List.length h
    rw [Nat.toDigitsCore_lens_eq] at hlen
    simp at hlen

theorem String.append_left_cancel {s t u : String} (h : s ++ t = s ++ u) : t = u := by
  have h1 := congrArg String.data h
  rw [String.data_append, String.data_append] at h1
  exact String.ext (List.append_cancel_left h1)

theorem String.ne_append_of_ne_empty {s t : String} (ht : t.data ≠ []) : s ≠ s ++ t := by
  intro h
  have h1 := congrArg (fun x => x.data.length) h
  simp only [String.data_append, List.length_append] at h1
  have : t.data.length = 0 := by omega
  exact ht (List.length_eq_zero.mp this)

end bdm

namespace bdm

/-! ## Lemmas on `Simulation::Initialize` -/

theorem Simulation.ExtractSimulationName_total (path : String) :
    ∃ result, Simulation.ExtractSimulationName path = .ok result := by
  cases hf : StdString.find_last_of path.data '/' with
  | none =>
    unfold Simulation.ExtractSimulationName
    simp only [hf]
    exact ⟨_, rfl⟩
  | some pos =>
    obtain ⟨hpos, _, _⟩ := StdString.find_last_of_some hf
    have hsub : StdString.substr path.data (pos + 1) (path.data.length - 1) =
        .ok ((path.data.drop (pos + 1)).take (path.data.length - 1)) := by
      unfold StdString.substr
      rw [if_neg (by omega)]
    unfold Simulation.ExtractSimulationName
    simp only [hf, hsub]
    exact ⟨_, rfl⟩

theorem Simulation.InitializeRuntimeParams_unset (self : Simulation) {env : Environment}
    (argv : List String) (set_param : Param → Param)
    (henv : env.getenv "BDM_CMAKE_DIR" = none) :
    self.InitializeRuntimeParams env argv set_param =
      ([LogEntry.info "" ("Initialize new simulation using BioDynaMo " ++ env.Version_String)],
        .error Fault.fatal) := by
  unfold Simulation.InitializeRuntimeParams
  simp only [henv]
  rfl

theorem Simulation.InitializeRuntimeParams_set (self : Simulation) {env : Environment}
    (argv : List String) (set_param : Param → Param) {cmake : String}
    (henv : env.getenv "BDM_CMAKE_DIR" = some cmake) (config : Param)
    (hconfig : config =
      if env.FileExists "bdm.toml" then env.AssignFromConfig "bdm.toml" env.Param_t
      else if env.FileExists "../bdm.toml" then env.AssignFromConfig "../bdm.toml" env.Param_t
      else env.Param_t) :
    (self.InitializeRuntimeParams env argv set_param).2 =
      .ok { self with
        param_ := set_param (
          if (env.DefaultSimulationOptionParser argv).backup_file_ ≠ "" then
            ⟨(env.DefaultSimulationOptionParser argv).backup_file_,
              (env.DefaultSimulationOptionParser argv).restore_file_, config.output_dir_⟩
          else config) } := by
  unfold Simulation.InitializeRuntimeParams
  simp only [henv]
  subst hconfig
  cases h1 : env.FileExists "bdm.toml" <;> cases h2 : env.FileExists "../bdm.toml" <;>
    simp only [Bool.false_eq_true, ↓reduceIte]

end bdm

namespace bdm

open ResourceManager

/-- C11 (handle stability outside the swap). For every store that satisfies the
store invariant and every stored uid `u`, whose agent lies in partition `p`
of size `n`: `Remove(u)` returns, and for every other uid `v` with handle
`sv` before the call: if `sv` lies in a different partition, or in partition
`p` but not at its last slot, the handle of `v` is `sv` afterwards; if `sv` is
the last slot of partition `p`, then `u` was not last and the handle of `v`
is the old handle of `u` afterwards. At most one uid other than `u` has
another handle after the call than before, and none when `u` was last. -/
theorem C11_handle_stability (rm : ResourceManager) (hinv : StoreInvariant rm)
    (u : SoUid) (hu : rm.Contains u = true) :
    ∃ rm1 soh numa_sos, rm.Remove u = .ok rm1 ∧
      UnorderedMap.find rm.uid_soh_map_ u = some soh ∧
      rm.sim_objects_[soh.GetNumaNode]? = some numa_sos ∧
      (∀ v sv, v ≠ u → UnorderedMap.find rm.uid_soh_map_ v = some sv →
        (sv.GetNumaNode ≠ soh.GetNumaNode →
          UnorderedMap.find rm1.uid_soh_map_ v = some sv) ∧
        (sv.GetNumaNode = soh.GetNumaNode → sv.GetElementIdx ≠ numa_sos.length - 1 →
          UnorderedMap.find rm1.uid_soh_map_ v = some sv) ∧
        (sv.GetNumaNode = soh.GetNumaNode → sv.GetElementIdx = numa_sos.length - 1 →
          soh.GetElementIdx ≠ numa_sos.length - 1 ∧
          UnorderedMap.find rm1.uid_soh_map_ v = some soh)) ∧
      (∀ v w, v ≠ u → w ≠ u →
        UnorderedMap.find rm1.uid_soh_map_ v ≠ UnorderedMap.find rm.uid_soh_map_ v →
        UnorderedMap.find rm1.uid_soh_map_ w ≠ UnorderedMap.find rm.uid_soh_map_ w →
        v = w) ∧
      (soh.GetElementIdx = numa_sos.length - 1 → ∀ v, v ≠ u →
        UnorderedMap.find rm1.uid_soh_map_ v = UnorderedMap.find rm.uid_soh_map_ v) := by
  obtain ⟨soh, hf⟩ := (Contains_iff rm u).mp hu
  obtain ⟨q, so, last, rm1, hq, hso, huid, hlast, hi, hrem, _, _, hfind1, _, _⟩ :=
    Remove_spec hinv hf
  have hslot_last : rm.slotAt soh.GetNumaNode (q.length - 1) = some last := by
    rw [slotAt_eq hq, hlast]
  -- the uid of the last agent is the only one whose entry is rewritten
  have hkeep : ∀ v, v ≠ u → v ≠ last.uid →
      UnorderedMap.find rm1.uid_soh_map_ v = UnorderedMap.find rm.uid_soh_map_ v := by
    intro v hv hv2
    rw [hfind1, if_neg hv, if_neg hv2]
  -- the handle of the last agent's uid is the last slot
  have hwhere : ∀ v sv, UnorderedMap.find rm.uid_soh_map_ v = some sv →
      (v = last.uid ↔ (sv.GetNumaNode = soh.GetNumaNode ∧
        sv.GetElementIdx = q.length - 1)) := by
    intro v sv hv
    obtain ⟨a, ha, hau⟩ := hinv.entry_slot _ _ hv
    constructor
    · intro h
      exact StoreInvariant.slot_uid_inj hinv.slot_entry ha hslot_last (hau.trans h)
    · rintro ⟨h1, h2⟩
      rw [h1, h2, hslot_last] at ha
      rw [← hau, ← Option.some.inj ha]
  have hlastu : soh.GetElementIdx = q.length - 1 → last.uid = u := by
    intro h
    rw [← h, hso] at hlast
    rw [← Option.some.inj hlast]
    exact huid
  refine ⟨rm1, soh, q, hrem, hf, hq, ?_, ?_, ?_⟩
  · intro v sv hv hfv
    refine ⟨?_, ?_, ?_⟩
    · intro hn
      rw [hkeep v hv (fun h => hn ((hwhere v sv hfv).mp h).1), hfv]
    · intro _ hidx
      rw [hkeep v hv (fun h => hidx ((hwhere v sv hfv).mp h).2), hfv]
    · intro hn hidx
      have hvl : v = last.uid := (hwhere v sv hfv).mpr ⟨hn, hidx⟩
      refine ⟨fun h => hv (hvl.trans (hlastu h)), ?_⟩
      rw [hfind1, if_neg hv, if_pos hvl]
  · intro v w hv hw hcv hcw
    have h1 : v = last.uid := by
      by_contra h
      exact hcv (hkeep v hv h)
    have h2 : w = last.uid := by
      by_contra h
      exact hcw (hkeep w hw h)
    rw [h1, h2]
  · intro h v hv
    exact hkeep v hv (fun h2 => hv (h2.trans (hlastu h)))

/-- C11 at `exampleStore` and the stored uid 1. -/
theorem C11_handle_stability_witness :
    ∃ rm1 soh numa_sos, exampleStore.Remove 1 = .ok rm1 ∧
      UnorderedMap.find exampleStore.uid_soh_map_ 1 = some soh ∧
      exampleStore.sim_objects_[soh.GetNumaNode]? = some numa_sos ∧
      (∀ v sv, v ≠ 1 → UnorderedMap.find exampleStore.uid_soh_map_ v = some sv →
        (sv.GetNumaNode ≠ soh.GetNumaNode →
          UnorderedMap.find rm1.uid_soh_map_ v = some sv) ∧
        (sv.GetNumaNode = soh.GetNumaNode → sv.GetElementIdx ≠ numa_sos.length - 1 →
          UnorderedMap.find rm1.uid_soh_map_ v = some sv) ∧
        (sv.GetNumaNode = soh.GetNumaNode → sv.GetElementIdx = numa_sos.length - 1 →
          soh.GetElementIdx ≠ numa_sos.length - 1 ∧
          UnorderedMap.find rm1.uid_soh_map_ v = some soh)) ∧
      (∀ v w, v ≠ 1 → w ≠ 1 →
        UnorderedMap.find rm1.uid_soh_map_ v ≠
          UnorderedMap.find exampleStore.uid_soh_map_ v →
        UnorderedMap.find rm1.uid_soh_map_ w ≠
          UnorderedMap.find exampleStore.uid_soh_map_ w →
        v = w) ∧
      (soh.GetElementIdx = numa_sos.length - 1 → ∀ v, v ≠ 1 →
        UnorderedMap.find rm1.uid_soh_map_ v =
          UnorderedMap.find exampleStore.uid_soh_map_ v) :=
  C11_handle_stability exampleStore (invariant_of_check (by decide)) 1 (by decide)

end bdm

namespace bdm

open ResourceManager

/-- C12 (traversal, amended). For every store, of any size, and every
callback, `ApplyOnAllElements(f)` has the effect of calling `f` on the agents
of the concatenation of the partitions, in this order; the sequence of agents
passed is this concatenation. The two-argument form has the effect of calling
`f` once for every occupied slot, in ascending partition order and ascending
slot order within a partition, with the agent of the slot and the handle
`SoHandle(partition, slot)`. Only the last part has a condition: when the store
has at most `2^16` partitions of at most `2^32` agents each, this handle is
(partition, slot) and `GetSimObjectWithSoHandle` of it is the agent passed with
it. -/
theorem C12_apply_on_all_elements (rm : ResourceManager) :
    (∀ (σ : Type) (f : σ → SimObject → σ) (st : σ),
      rm.ApplyOnAllElements f st = rm.sim_objects_.flatten.foldl f st) ∧
    rm.ApplyOnAllElements (fun calls so => calls ++ [so]) [] = rm.sim_objects_.flatten ∧
    (∀ (σ : Type) (f : σ → SimObject → SoHandle → σ) (st : σ),
      rm.ApplyOnAllElements_SoHandle f st =
        rm.slotList.foldl (fun st e => f st e.2.2 (SoHandle.make e.1 e.2.1)) st) ∧
    (∀ n i so, (n, i, so) ∈ rm.slotList ↔ rm.slotAt n i = some so) ∧
    rm.slotList.Pairwise SlotBefore ∧
    rm.slotList.map (fun e => e.2.2) = rm.sim_objects_.flatten ∧
    rm.slotList.length = (rm.sim_objects_.map List.length).sum ∧
    (rm.sim_objects_.length ≤ 65536 →
      (∀ numa_sos ∈ rm.sim_objects_, numa_sos.length ≤ 4294967296) →
      ∀ e ∈ rm.slotList,
        (SoHandle.make e.1 e.2.1).PointsTo e.1 e.2.1 ∧
        rm.GetSimObjectWithSoHandle (SoHandle.make e.1 e.2.1) = .ok e.2.2) := by
  refine ⟨fun σ f st => ApplyOnAllElements_eq rm f st, ?_,
    fun σ f st => ApplyOnAllElements_SoHandle_eq rm f st, mem_slotList rm,
    slotList_pairwise rm, slotList_agents rm, slotList_length rm, ?_⟩
  · rw [ApplyOnAllElements_eq, foldl_append_singleton, List.nil_append]
  · rintro hn hcap ⟨n, i, so⟩ he
    have hs := (mem_slotList rm n i so).mp he
    obtain ⟨h1, _⟩ := slotAt_lt hs
    obtain ⟨q, hq, hi⟩ := slotAt_some hs
    have h2 : i < q.length := by
      by_contra hge
      rw [List.getElem?_eq_none_iff.mpr (by omega)] at hi
      cases hi
    have hpt : (SoHandle.make n i).PointsTo n i :=
      make_pointsTo_of_lt (by omega) (by have := hcap q (List.getElem?_mem hq); omega)
    refine ⟨hpt, GetSimObjectWithSoHandle_of_slot ?_⟩
    rw [hpt.1, hpt.2]
    exact hs

/-- C12 at `exampleStore`, where the handle passed with every agent resolves to
that agent, and at `filled 4294967297`, a store beyond the range of the handle,
where the one-argument traversal still passes the concatenation of the
partitions and the two-argument traversal still visits every occupied slot
once, in order. -/
theorem C12_apply_on_all_elements_witness :
    (exampleStore.ApplyOnAllElements (fun calls so => calls ++ [so]) [] =
      exampleStore.sim_objects_.flatten ∧
    (∀ e ∈ exampleStore.slotList,
      (SoHandle.make e.1 e.2.1).PointsTo e.1 e.2.1 ∧
      exampleStore.GetSimObjectWithSoHandle (SoHandle.make e.1 e.2.1) = .ok e.2.2)) ∧
    ((filled 4294967297).ApplyOnAllElements (fun calls so => calls ++ [so]) [] =
      (filled 4294967297).sim_objects_.flatten ∧
    (∀ n i so, (n, i, so) ∈ (filled 4294967297).slotList ↔
      (filled 4294967297).slotAt n i = some so) ∧
    (filled 4294967297).slotList.Pairwise SlotBefore ∧
    (filled 4294967297).slotList.length =
      ((filled 4294967297).sim_objects_.map List.length).sum) :=
  ⟨⟨(C12_apply_on_all_elements exampleStore).2.1,
      (C12_apply_on_all_elements exampleStore).2.2.2.2.2.2.2 (by decide) (by decide)⟩,
    ⟨(C12_apply_on_all_elements (filled 4294967297)).2.1,
      (C12_apply_on_all_elements (filled 4294967297)).2.2.2.1,
      (C12_apply_on_all_elements (filled 4294967297)).2.2.2.2.1,
      (C12_apply_on_all_elements (filled 4294967297)).2.2.2.2.2.2.1⟩⟩

/-- C12 fails as stated: `filled 4294967297` is reached by `2^32 + 1` calls of
`push_back` with fresh uids. The two-argument traversal visits the slot
(0, `2^32`), which holds `agent 4294967296`, and passes the handle
`SoHandle(0, 2^32)` with it; this handle is (0, 0), and
`GetSimObjectWithSoHandle` of it is `agent 0`. -/
theorem C12_counterexample :
    Reachable (filled 4294967297) ∧
    (0, 4294967296, agent 4294967296) ∈ (filled 4294967297).slotList ∧
    (SoHandle.make 0 4294967296).PointsTo 0 0 ∧
    ¬ (SoHandle.make 0 4294967296).PointsTo 0 4294967296 ∧
    (filled 4294967297).GetSimObjectWithSoHandle (SoHandle.make 0 4294967296) =
      .ok (agent 0) ∧
    agent 0 ≠ agent 4294967296 := by
  refine ⟨filled_reachable _, ?_, by decide, by decide, ?_, by decide⟩
  · rw [mem_slotList, filled_slotAt, if_pos (by omega)]
  · apply GetSimObjectWithSoHandle_of_slot
    show (filled 4294967297).slotAt 0 0 = some (agent 0)
    rw [filled_slotAt, if_pos (by omega)]

end bdm

namespace bdm

open ResourceManager

/-- In a store that satisfies the invariant, the IdentityMap has as many entries
as there are occupied slots. -/
theorem map_size_eq_total {rm : ResourceManager} (hinv : StoreInvariant rm) :
    UnorderedMap.size rm.uid_soh_map_ = rm.total := by
  have hnd : (rm.slotList.map (fun e => e.2.2.uid)).Nodup := by
    apply List.Nodup.map_on _ (slotList_nodup rm)
    rintro ⟨n, i, a⟩ hx ⟨n1, i1, b⟩ hy hab
    have ha := (mem_slotList rm n i a).mp hx
    have hb := (mem_slotList rm n1 i1 b).mp hy
    obtain ⟨h1, h2⟩ := StoreInvariant.slot_uid_inj hinv.slot_entry ha hb hab
    subst h1 h2
    rw [ha] at hb
    cases hb
    rfl
  have hperm : (rm.slotList.map (fun e => e.2.2.uid)).Perm (rm.uid_soh_map_.map Prod.fst) := by
    rw [List.perm_ext_iff_of_nodup hnd hinv.keys_nodup]
    intro uid
    constructor
    · intro h
      obtain ⟨⟨n, i, a⟩, he, hu⟩ := List.mem_map.mp h
      obtain ⟨soh, hf, _⟩ := hinv.slot_entry _ _ _ ((mem_slotList rm n i a).mp he)
      by_contra hnot
      have hnone := (UnorderedMap.find_eq_none_iff rm.uid_soh_map_ uid).mpr hnot
      rw [← hu] at hnone
      simp only at hnone
      rw [hf] at hnone
      cases hnone
    · intro h
      cases hf : UnorderedMap.find rm.uid_soh_map_ uid with
      | none => exact absurd h ((UnorderedMap.find_eq_none_iff _ _).mp hf)
      | some soh =>
        obtain ⟨a, ha, hau⟩ := hinv.entry_slot _ _ hf
        exact List.mem_map.mpr ⟨(_, _, a), (mem_slotList rm _ _ a).mpr ha, hau⟩
  have := hperm.length_eq
  rw [List.length_map, List.length_map, slotList_length] at this
  exact this.symm

theorem Contains_iff_mem_keys (rm : ResourceManager) (uid : SoUid) :
    rm.Contains uid = true ↔ uid ∈ rm.uid_soh_map_.map Prod.fst := by
  rw [← Decidable.not_iff_not, ← UnorderedMap.find_eq_none_iff, Bool.not_eq_true,
    Contains_false_iff]

/-- C14 (count). For every store, `GetNumSimObjects()` with no argument
(`numa_node = -1`) returns the sum of the sizes of all partitions, and
`GetNumSimObjects(p)` for a partition index `p` below the number of partitions
returns the size of partition `p`; in every store that satisfies the store
invariant the total equals the number of uids for which `Contains` is true,
which is the number of entries of the IdentityMap. -/
theorem C14_count (rm : ResourceManager) :
    rm.GetNumSimObjects (-1) = .ok (rm.sim_objects_.map List.length).sum ∧
    rm.GetNumSimObjects_default = rm.GetNumSimObjects (-1) ∧
    (∀ p : Nat, p < rm.sim_objects_.length →
      rm.GetNumSimObjects (p : Int) = .ok (rm.partitionSize p)) ∧
    (StoreInvariant rm →
      Set.ncard {uid | rm.Contains uid = true} = (rm.sim_objects_.map List.length).sum ∧
      UnorderedMap.size rm.uid_soh_map_ = (rm.sim_objects_.map List.length).sum) := by
  refine ⟨GetNumSimObjects_total rm, rfl, ?_, ?_⟩
  · intro p hp
    obtain ⟨q, hq⟩ : ∃ q, rm.sim_objects_[p]? = some q := ⟨_, List.getElem?_eq_getElem hp⟩
    have hne : ¬ ((p : Int) = -1) := by omega
    unfold GetNumSimObjects
    rw [if_neg hne, partitionSize_eq hq]
    show (match rm.sim_objects_[p]? with
      | none => Except.error Fault.undefinedBehaviour
      | some numa_sos => Except.ok numa_sos.length) = _
    rw [hq]
  · intro hinv
    have hsize := map_size_eq_total hinv
    refine ⟨?_, hsize⟩
    have hset : {uid | rm.Contains uid = true} =
        ((rm.uid_soh_map_.map Prod.fst).toFinset : Set SoUid) := by
      ext uid
      simp only [Set.mem_setOf_eq, List.coe_toFinset]
      exact Contains_iff_mem_keys rm uid
    rw [hset, Set.ncard_coe_Finset, List.toFinset_card_of_nodup hinv.keys_nodup,
      List.length_map]
    exact hsize

/-- C14 at `exampleStore`, which holds four agents in two partitions. -/
theorem C14_count_witness :
    exampleStore.GetNumSimObjects (-1) = .ok 4 ∧
    exampleStore.GetNumSimObjects 0 = .ok 3 ∧
    exampleStore.GetNumSimObjects 1 = .ok 1 ∧
    Set.ncard {uid | exampleStore.Contains uid = true} = 4 :=
  ⟨(C14_count exampleStore).1, (C14_count exampleStore).2.2.1 0 (by decide),
    (C14_count exampleStore).2.2.1 1 (by decide),
    ((C14_count exampleStore).2.2.2 (invariant_of_check (by decide))).1⟩

end bdm

namespace bdm

open ResourceManager

/-- C15 (partition count mismatch is fatal). The move assignment of
`ResourceManager` ends in the fatal error of `Log::Fatal` if and only if the
target and the restored store have a different number of partitions; it has no
other fault, and when the numbers agree it completes. -/
theorem C15_move_assign_fatal (self other : ResourceManager) :
    (self.moveAssign other = .error Fault.fatal ↔
      self.sim_objects_.length ≠ other.sim_objects_.length) ∧
    (∀ f, self.moveAssign other = .error f → f = Fault.fatal) ∧
    ((∃ rm1, self.moveAssign other = .ok rm1) ↔
      self.sim_objects_.length = other.sim_objects_.length) := by
  by_cases hlen : self.sim_objects_.length = other.sim_objects_.length
  · have h := moveAssign_eq self other hlen
    rw [h]
    refine ⟨⟨fun h1 => ?_, fun h1 => absurd hlen h1⟩, fun f h1 => ?_, ⟨fun _ => hlen, fun _ => ⟨_, rfl⟩⟩⟩
    · cases h1
    · cases h1
  · have h := moveAssign_ne self other hlen
    rw [h]
    refine ⟨⟨fun _ => hlen, fun _ => rfl⟩, fun f h1 => ?_, ⟨fun h1 => ?_, fun h1 => absurd h1 hlen⟩⟩
    · cases h1
      rfl
    · obtain ⟨rm1, h2⟩ := h1
      cases h2

/-- C15 at `exampleStore` (two partitions) and `smallStore` (one partition). -/
theorem C15_move_assign_fatal_witness :
    exampleStore.moveAssign smallStore = .error Fault.fatal :=
  (C15_move_assign_fatal exampleStore smallStore).1.mpr (by decide)

/-- C18 (restore is verbatim). When the partition counts agree, the move
assignment completes and the target then has the partition count, the agent
sequence of every partition, the IdentityMap and the diffusion grids that the
restored store had, so `GetNumSimObjects`, `Contains`, `GetSimObject` and
`GetSimObjectWithSoHandle` answer on the target as they did on the restored
store. -/
theorem C18_restore_verbatim (self other : ResourceManager)
    (hlen : self.sim_objects_.length = other.sim_objects_.length) :
    ∃ rm1, self.moveAssign other = .ok rm1 ∧
      rm1.sim_objects_.length = other.sim_objects_.length ∧
      (∀ n : Nat, rm1.sim_objects_[n]? = other.sim_objects_[n]?) ∧
      rm1.sim_objects_ = other.sim_objects_ ∧
      rm1.uid_soh_map_ = other.uid_soh_map_ ∧
      rm1.diffusion_grids_ = other.diffusion_grids_ ∧
      (∀ numa_node, rm1.GetNumSimObjects numa_node = other.GetNumSimObjects numa_node) ∧
      (∀ uid, rm1.Contains uid = other.Contains uid) ∧
      (∀ NDEBUG uid, rm1.GetSimObject NDEBUG uid = other.GetSimObject NDEBUG uid) ∧
      (∀ soh, rm1.GetSimObjectWithSoHandle soh = other.GetSimObjectWithSoHandle soh) :=
  ⟨other, moveAssign_eq self other hlen, rfl, fun _ => rfl, rfl, rfl, rfl, fun _ => rfl,
    fun _ => rfl, fun _ _ => rfl, fun _ => rfl⟩

/-- C18 at the target `exampleStore` and the store of `restoredSimulation`, both
with two partitions. -/
theorem C18_restore_verbatim_witness :
    exampleStore.sim_objects_.length = restoredSimulation.rm_.sim_objects_.length ∧
    ∃ rm1, exampleStore.moveAssign restoredSimulation.rm_ = .ok rm1 ∧
      rm1.sim_objects_ = [[], [⟨7, 70⟩]] ∧
      rm1.Contains 7 = true ∧ rm1.Contains 1 = false ∧
      rm1.GetNumSimObjects (-1) = .ok 1 := by
  obtain ⟨rm1, h, _, _, h1, h2, _, h3, h4, _, _⟩ :=
    C18_restore_verbatim exampleStore restoredSimulation.rm_ (by decide)
  refine ⟨by decide, rm1, h, h1, ?_, ?_, ?_⟩
  · rw [h4]
    decide
  · rw [h4]
    decide
  · rw [h3]
    decide

/-- C19 (a duplicate registration is rejected). `AddDiffusionGrid(g)` fails if
and only if a grid is registered under the substance id of `g`; the failure is
the fatal error of `Log::Fatal` and the store at that moment is the store of
before the call, so the earlier grid is still the one registered under that
id. Otherwise the call completes, `g` is the grid registered under its id,
every other id has the registration it had, and the agents and the IdentityMap
are unchanged. -/
theorem C19_duplicate_grid_rejected (rm : ResourceManager) (dgrid : DiffusionGrid) :
    ((∃ e, rm.AddDiffusionGrid dgrid = .error e) ↔
      ∃ old, UnorderedMap.find rm.diffusion_grids_ dgrid.substance_id = some old) ∧
    (∀ old, UnorderedMap.find rm.diffusion_grids_ dgrid.substance_id = some old →
      rm.AddDiffusionGrid dgrid = .error (Fault.fatal, rm)) ∧
    (UnorderedMap.find rm.diffusion_grids_ dgrid.substance_id = none →
      ∃ rm1, rm.AddDiffusionGrid dgrid = .ok rm1 ∧
        UnorderedMap.find rm1.diffusion_grids_ dgrid.substance_id = some dgrid ∧
        (∀ id, id ≠ dgrid.substance_id →
          UnorderedMap.find rm1.diffusion_grids_ id = UnorderedMap.find rm.diffusion_grids_ id) ∧
        rm1.sim_objects_ = rm.sim_objects_ ∧ rm1.uid_soh_map_ = rm.uid_soh_map_) := by
  have hsome : ∀ old, UnorderedMap.find rm.diffusion_grids_ dgrid.substance_id = some old →
      rm.AddDiffusionGrid dgrid = .error (Fault.fatal, rm) := by
    intro old h
    unfold AddDiffusionGrid
    simp only [h]
    rfl
  have hnone : UnorderedMap.find rm.diffusion_grids_ dgrid.substance_id = none →
      rm.AddDiffusionGrid dgrid = .ok { rm with
        diffusion_grids_ :=
          UnorderedMap.assign rm.diffusion_grids_ dgrid.substance_id dgrid } := by
    intro h
    unfold AddDiffusionGrid
    simp only [h]
  refine ⟨⟨?_, ?_⟩, hsome, fun h => ⟨_, hnone h, ?_, fun id hid => ?_, rfl, rfl⟩⟩
  · rintro ⟨e, he⟩
    cases hf : UnorderedMap.find rm.diffusion_grids_ dgrid.substance_id with
    | some old => exact ⟨old, rfl⟩
    | none =>
      rw [hnone hf] at he
      cases he
  · rintro ⟨old, h⟩
    exact ⟨_, hsome old h⟩
  · exact UnorderedMap.find_assign_self _ _ _
  · exact UnorderedMap.find_assign_ne _ _ hid

/-- C19 at `gridStore`, where a grid is registered under the id 0: a second grid
under the id 0 is rejected, a grid under the id 1 is registered. -/
theorem C19_duplicate_grid_rejected_witness :
    gridStore.AddDiffusionGrid ⟨0, "Calcium"⟩ = .error (Fault.fatal, gridStore) ∧
    ∃ rm1, gridStore.AddDiffusionGrid ⟨1, "Calcium"⟩ = .ok rm1 ∧
      UnorderedMap.find rm1.diffusion_grids_ 1 = some ⟨1, "Calcium"⟩ ∧
      UnorderedMap.find rm1.diffusion_grids_ 0 = some ⟨0, "Kalium"⟩ := by
  refine ⟨(C19_duplicate_grid_rejected gridStore ⟨0, "Calcium"⟩).2.1 ⟨0, "Kalium"⟩ rfl, ?_⟩
  obtain ⟨rm1, h, h1, h2, _⟩ :=
    (C19_duplicate_grid_rejected gridStore ⟨1, "Calcium"⟩).2.2 rfl
  exact ⟨rm1, h, h1, (h2 0 (by decide)).trans rfl⟩

/-- C20 as stated fails: in `gridStore` a grid is registered under the id 0, and
`AddDiffusionGrid` of a second grid with the id 0 ends in the fatal error of
`Log::Fatal`; the call does not return to its caller. -/
theorem C20_counterexample :
    UnorderedMap.find gridStore.diffusion_grids_ 0 = some ⟨0, "Kalium"⟩ ∧
    gridStore.AddDiffusionGrid ⟨0, "Calcium"⟩ = .error (Fault.fatal, gridStore) ∧
    ¬ ∃ rm1, gridStore.AddDiffusionGrid ⟨0, "Calcium"⟩ = .ok rm1 := by
  have h : gridStore.AddDiffusionGrid ⟨0, "Calcium"⟩ = .error (Fault.fatal, gridStore) := rfl
  refine ⟨rfl, h, ?_⟩
  rintro ⟨rm1, h1⟩
  rw [h] at h1
  cases h1

/-- C20 as amended. Registering a second diffusion grid under an identifier that
is in use is a fatal error: `AddDiffusionGrid` ends in `Log::Fatal`, it does not
return to its caller, and `AddDiffusionGrid` has no other way to fail. -/
theorem C20_duplicate_grid_fatal (rm : ResourceManager) (dgrid old : DiffusionGrid)
    (h : UnorderedMap.find rm.diffusion_grids_ dgrid.substance_id = some old) :
    (∃ rm0, rm.AddDiffusionGrid dgrid = .error (Fault.fatal, rm0)) ∧
    (¬ ∃ rm1, rm.AddDiffusionGrid dgrid = .ok rm1) ∧
    (∀ (other : DiffusionGrid) f rm0,
      rm.AddDiffusionGrid other = .error (f, rm0) → f = Fault.fatal) := by
  have h1 : rm.AddDiffusionGrid dgrid = .error (Fault.fatal, rm) := by
    unfold AddDiffusionGrid
    simp only [h]
    rfl
  refine ⟨⟨rm, h1⟩, ?_, fun other f rm0 h2 => ?_⟩
  · rintro ⟨rm1, h2⟩
    rw [h1] at h2
    cases h2
  · unfold AddDiffusionGrid at h2
    simp only at h2
    split at h2
    · cases h2
      rfl
    · cases h2

/-- C20 as amended, at `gridStore` and a second grid with the id 0. -/
theorem C20_duplicate_grid_fatal_witness :
    (∃ rm0, gridStore.AddDiffusionGrid ⟨0, "Calcium"⟩ = .error (Fault.fatal, rm0)) ∧
    ¬ ∃ rm1, gridStore.AddDiffusionGrid ⟨0, "Calcium"⟩ = .ok rm1 :=
  ⟨(C20_duplicate_grid_fatal gridStore ⟨0, "Calcium"⟩ ⟨0, "Kalium"⟩ rfl).1,
    (C20_duplicate_grid_fatal gridStore ⟨0, "Calcium"⟩ ⟨0, "Kalium"⟩ rfl).2.1⟩

end bdm

namespace bdm

open ResourceManager

/-- C21 (lookup of a diffusion grid by its id), evaluated on the code. In the
store reached from a fresh store by `AddDiffusionGrid` of one grid with the
substance id 1, the id 1 is registered and the registry has one entry, so the
assertion `substance_id < diffusion_grids_.size()` of `GetDiffusionGrid(1)`
fails; with the assertion compiled out the call returns the registered grid.
For the id 0, which is not registered, the assertion holds and `at` throws. In
every store and for every registered id, the call returns the registered grid
when the assertion is compiled out, and with the assertion it does so exactly
when the id is below the number of registered grids. -/
theorem C21_get_diffusion_grid :
    GridsReachable oneGridStore ∧
    UnorderedMap.find oneGridStore.diffusion_grids_ 1 = some ⟨1, "Calcium"⟩ ∧
    UnorderedMap.size oneGridStore.diffusion_grids_ = 1 ∧
    oneGridStore.GetDiffusionGrid false 1 = .error Fault.assertion ∧
    oneGridStore.GetDiffusionGrid true 1 = .ok ⟨1, "Calcium"⟩ ∧
    UnorderedMap.find oneGridStore.diffusion_grids_ 0 = none ∧
    oneGridStore.GetDiffusionGrid false 0 = .error Fault.out_of_range ∧
    (∀ (rm : ResourceManager) (substance_id : Nat) (dgrid : DiffusionGrid),
      UnorderedMap.find rm.diffusion_grids_ substance_id = some dgrid →
      rm.GetDiffusionGrid true substance_id = .ok dgrid ∧
      (rm.GetDiffusionGrid false substance_id = .ok dgrid ↔
        substance_id < UnorderedMap.size rm.diffusion_grids_) ∧
      (¬ substance_id < UnorderedMap.size rm.diffusion_grids_ →
        rm.GetDiffusionGrid false substance_id = .error Fault.assertion)) := by
  refine ⟨?_, rfl, rfl, rfl, rfl, rfl, rfl, ?_⟩
  · have h0 : ResourceManager.construct 0 1 = .ok ⟨[], [[]], []⟩ := rfl
    exact GridsReachable.AddDiffusionGrid ⟨1, "Calcium"⟩ (GridsReachable.construct h0) rfl
  · intro rm substance_id dgrid h
    refine ⟨?_, ?_, ?_⟩
    · unfold GetDiffusionGrid
      simp [h]
    · unfold GetDiffusionGrid
      by_cases hlt : substance_id < UnorderedMap.size rm.diffusion_grids_
      · simp [h, hlt]
      · simp [h, hlt]
    · intro hlt
      unfold GetDiffusionGrid
      simp [hlt]

/-- C22 (`Clear` removes all simulation objects). For every store, after
`Clear()` the total count is 0, every partition is empty, the count of every
partition is 0, `Contains(uid)` is false for every uid, and the number of
partitions and the registered diffusion grids are those of before the call. -/
theorem C22_clear (rm : ResourceManager) :
    rm.Clear.GetNumSimObjects (-1) = .ok 0 ∧
    (∀ numa_sos ∈ rm.Clear.sim_objects_, numa_sos = []) ∧
    (∀ n i, rm.Clear.slotAt n i = none) ∧
    (∀ p : Nat, p < rm.sim_objects_.length → rm.Clear.GetNumSimObjects (p : Int) = .ok 0) ∧
    (∀ uid, rm.Clear.Contains uid = false) ∧
    rm.Clear.uid_soh_map_ = [] ∧
    rm.Clear.sim_objects_.length = rm.sim_objects_.length ∧
    rm.Clear.diffusion_grids_ = rm.diffusion_grids_ := by
  have hall : ∀ numa_sos ∈ rm.Clear.sim_objects_, numa_sos = [] := by
    intro numa_sos h
    obtain ⟨_, _, h1⟩ := List.mem_map.mp h
    exact h1.symm
  have hlen : rm.Clear.sim_objects_.length = rm.sim_objects_.length := List.length_map _ _
  refine ⟨?_, hall, slotAt_Clear rm, ?_, fun uid => rfl, rfl, hlen, rfl⟩
  · rw [GetNumSimObjects_total]
    have h0 : rm.Clear.total = 0 := by
      unfold ResourceManager.total
      apply List.sum_eq_zero
      intro x hx
      obtain ⟨q, hq, rfl⟩ := List.mem_map.mp hx
      rw [hall q hq]
      rfl
    rw [h0]
  · intro p hp
    have hp1 : p < rm.Clear.sim_objects_.length := by rw [hlen]; exact hp
    obtain ⟨q, hq⟩ : ∃ q, rm.Clear.sim_objects_[p]? = some q :=
      ⟨_, List.getElem?_eq_getElem hp1⟩
    have hq0 : q = [] := hall q (List.getElem?_mem hq)
    have hne : ¬ ((p : Int) = -1) := by omega
    unfold GetNumSimObjects
    rw [if_neg hne]
    show (match rm.Clear.sim_objects_[p]? with
      | none => Except.error Fault.undefinedBehaviour
      | some numa_sos => Except.ok numa_sos.length) = _
    rw [hq, hq0]
    rfl

/-- C22 at `exampleStore`. -/
theorem C22_clear_witness :
    exampleStore.Clear.GetNumSimObjects (-1) = .ok 0 ∧
    exampleStore.Clear.sim_objects_ = [[], []] ∧
    exampleStore.Clear.Contains 1 = false :=
  ⟨(C22_clear exampleStore).1, rfl, (C22_clear exampleStore).2.2.2.2.1 1⟩

end bdm

namespace bdm

open ResourceManager

/-- C24 as stated fails: `orphanStore` is reached by two `push_back` calls of
agents with the uid 1 and `Remove(1)`; `Contains(1)` is false in it, and after
`GetSoHandle(1)` has inserted the default handle, slot 0 of partition 0 holds
an agent with the uid 1. -/
theorem C24_counterexample :
    (∃ rm0 rm1 rm2, ResourceManager.construct 0 1 = .ok rm0 ∧
      rm0.push_back_default ⟨1, 10⟩ = .ok rm1 ∧
      rm1.push_back_default ⟨1, 20⟩ = .ok rm2 ∧
      rm2.Remove 1 = .ok orphanStore) ∧
    orphanStore.Contains 1 = false ∧
    (orphanStore.GetSoHandle 1).1 = SoHandle.default ∧
    (orphanStore.GetSoHandle 1).2.Contains 1 = true ∧
    (orphanStore.GetSoHandle 1).2.slotAt 0 0 = some ⟨1, 10⟩ ∧
    ¬ ∀ n i so, (orphanStore.GetSoHandle 1).2.slotAt n i = some so → so.uid ≠ 1 := by
  refine ⟨⟨_, _, _, rfl, rfl, rfl, by decide⟩, by decide, by decide, by decide, by decide, ?_⟩
  intro h
  exact h 0 0 ⟨1, 10⟩ (by decide) rfl

/-- C24 as amended. For every store and every uid with `Contains(uid)` false,
`GetSoHandle(uid)` returns the default handle (numa node 65535, element index
4294967295) and inserts that entry into the IdentityMap, so that
`Contains(uid)` is true afterwards; the entries of the other uids, the
partitions and the count are unchanged. When no partition held an agent with
this uid before the call, as in every store that satisfies the store
invariant, no partition holds one afterwards. -/
theorem C24_get_so_handle (rm : ResourceManager) (uid : SoUid)
    (h : rm.Contains uid = false) :
    (rm.GetSoHandle uid).1 = SoHandle.default ∧
    (rm.GetSoHandle uid).1.GetNumaNode = 65535 ∧
    (rm.GetSoHandle uid).1.GetElementIdx = 4294967295 ∧
    UnorderedMap.find (rm.GetSoHandle uid).2.uid_soh_map_ uid = some SoHandle.default ∧
    (rm.GetSoHandle uid).2.Contains uid = true ∧
    (∀ v, v ≠ uid → UnorderedMap.find (rm.GetSoHandle uid).2.uid_soh_map_ v =
      UnorderedMap.find rm.uid_soh_map_ v) ∧
    (rm.GetSoHandle uid).2.sim_objects_ = rm.sim_objects_ ∧
    (rm.GetSoHandle uid).2.GetNumSimObjects (-1) = rm.GetNumSimObjects (-1) ∧
    ((∀ n i so, rm.slotAt n i = some so → so.uid ≠ uid) →
      ∀ n i so, (rm.GetSoHandle uid).2.slotAt n i = some so → so.uid ≠ uid) ∧
    (StoreInvariant rm →
      ∀ n i so, (rm.GetSoHandle uid).2.slotAt n i = some so → so.uid ≠ uid) := by
  have hnone := (Contains_false_iff rm uid).mp h
  have hget : rm.GetSoHandle uid =
      (SoHandle.default, { rm with uid_soh_map_ := (uid, SoHandle.default) :: rm.uid_soh_map_ }) := by
    unfold GetSoHandle UnorderedMap.index
    simp only [hnone]
  rw [hget]
  have hfind : UnorderedMap.find ((uid, SoHandle.default) :: rm.uid_soh_map_) uid =
      some SoHandle.default := by
    rw [UnorderedMap.find_cons, if_pos rfl]
  refine ⟨rfl, rfl, rfl, hfind, ?_, ?_, rfl, rfl, fun hno => hno, fun hinv n i so hs hu => ?_⟩
  · exact (Contains_iff _ uid).mpr ⟨_, hfind⟩
  · intro v hv
    show UnorderedMap.find ((uid, SoHandle.default) :: rm.uid_soh_map_) v = _
    rw [UnorderedMap.find_cons, if_neg (fun h1 => hv h1.symm)]
  · obtain ⟨soh, hf, _⟩ := hinv.slot_entry n i so hs
    rw [hu, hnone] at hf
    cases hf

/-- C24 as amended, at `exampleStore` and the uid 9, which is not stored. -/
theorem C24_get_so_handle_witness :
    (exampleStore.GetSoHandle 9).1 = SoHandle.default ∧
    (exampleStore.GetSoHandle 9).2.Contains 9 = true ∧
    (exampleStore.GetSoHandle 9).2.GetNumSimObjects (-1) = .ok 4 ∧
    ∀ n i so, (exampleStore.GetSoHandle 9).2.slotAt n i = some so → so.uid ≠ 9 :=
  ⟨(C24_get_so_handle exampleStore 9 (by decide)).1,
    (C24_get_so_handle exampleStore 9 (by decide)).2.2.2.2.1,
    (C24_get_so_handle exampleStore 9 (by decide)).2.2.2.2.2.2.2.1.trans (by decide),
    (C24_get_so_handle exampleStore 9 (by decide)).2.2.2.2.2.2.2.2.2
      (invariant_of_check (by decide))⟩

/-- C26 (index safety under the invariant). In every store that satisfies the
store invariant: the handle of every stored uid has a partition index below
the number of partitions and an element index below the size of that
partition, which is therefore not empty; `GetSimObject(uid)` of a stored uid
returns the agent with that uid, and `Remove(uid)` returns for every uid,
stored or not, so none of their accesses is out of range and `back()` and
`pop_back()` are applied to a non-empty partition. -/
theorem C26_index_safety (rm : ResourceManager) (hinv : StoreInvariant rm) :
    (∀ uid soh, UnorderedMap.find rm.uid_soh_map_ uid = some soh →
      ∃ numa_sos, rm.sim_objects_[soh.GetNumaNode]? = some numa_sos ∧
        soh.GetNumaNode < rm.sim_objects_.length ∧
        soh.GetElementIdx < numa_sos.length ∧
        numa_sos ≠ [] ∧ (∃ last, numa_sos.getLast? = some last)) ∧
    (∀ NDEBUG uid, rm.Contains uid = true →
      ∃ so, rm.GetSimObject NDEBUG uid = .ok (so, rm) ∧ so.uid = uid) ∧
    (∀ uid, ∃ rm1, rm.Remove uid = .ok rm1) ∧
    (∀ uid, rm.Remove uid ≠ .error Fault.undefinedBehaviour) := by
  have hremove : ∀ uid, ∃ rm1, rm.Remove uid = .ok rm1 := by
    intro uid
    cases hf : UnorderedMap.find rm.uid_soh_map_ uid with
    | none => exact ⟨rm, Remove_of_absent hf⟩
    | some soh =>
      obtain ⟨_, _, _, rm1, _, _, _, _, _, hrem, _⟩ := Remove_spec hinv hf
      exact ⟨rm1, hrem⟩
  refine ⟨fun uid soh hf => ?_, fun NDEBUG uid hc => ?_, hremove, fun uid herr => ?_⟩
  · obtain ⟨numa_sos, so, hq, hso, _, hlt, _⟩ := StoreInvariant.entry_points hinv hf
    have hn : soh.GetNumaNode < rm.sim_objects_.length := by
      by_contra hge
      rw [List.getElem?_eq_none_iff.mpr (by omega)] at hq
      cases hq
    have hne : numa_sos ≠ [] := by
      intro h0
      rw [h0] at hlt
      simp at hlt
    refine ⟨numa_sos, hq, hn, hlt, hne, ?_⟩
    cases hl : numa_sos.getLast? with
    | none => exact absurd (List.getLast?_eq_none_iff.mp hl) hne
    | some last => exact ⟨last, rfl⟩
  · obtain ⟨soh, hf⟩ := (Contains_iff rm uid).mp hc
    obtain ⟨numa_sos, so, hq, hso, hu, _, _⟩ := StoreInvariant.entry_points hinv hf
    have hs : rm.slotAt soh.GetNumaNode soh.GetElementIdx = some so := by
      rw [slotAt_eq hq]
      exact hso
    exact ⟨so, GetSimObject_of_find NDEBUG hf hs, hu⟩
  · obtain ⟨rm1, h1⟩ := hremove uid
    rw [h1] at herr
    cases herr

/-- C26 at `exampleStore`: lookup of the stored uid 2, removal of the stored uid
2 and of the uid 9, which is not stored. -/
theorem C26_index_safety_witness :
    (∃ so, exampleStore.GetSimObject false 2 = .ok (so, exampleStore) ∧ so.uid = 2) ∧
    (∃ rm1, exampleStore.Remove 2 = .ok rm1) ∧
    (∃ rm1, exampleStore.Remove 9 = .ok rm1) :=
  ⟨(C26_index_safety exampleStore (invariant_of_check (by decide))).2.1 false 2 (by decide),
    (C26_index_safety exampleStore (invariant_of_check (by decide))).2.2.1 2,
    (C26_index_safety exampleStore (invariant_of_check (by decide))).2.2.1 9⟩

/-- C27 (ordering of handles). `operator<` is the lexicographic order on (numa
node, element index), `operator==` holds exactly for equal handles, and for all
handles `a`, `b`, `c`: not `a < a`; `a < b` and `b < c` imply `a < c`; exactly
one of `a < b`, `a == b`, `b < a` holds; and `a != b` is the negation of
`a == b`. -/
theorem C27_handle_order (a b c : SoHandle) :
    (a.operator_lt b = true ↔
      a.GetNumaNode < b.GetNumaNode ∨
        (a.GetNumaNode = b.GetNumaNode ∧ a.GetElementIdx < b.GetElementIdx)) ∧
    (a.operator_eq b = true ↔ a = b) ∧
    (a.operator_eq b = true ↔
      a.GetNumaNode = b.GetNumaNode ∧ a.GetElementIdx = b.GetElementIdx) ∧
    a.operator_lt a = false ∧
    (a.operator_lt b = true → b.operator_lt c = true → a.operator_lt c = true) ∧
    ((a.operator_lt b = true ∧ a.operator_eq b = false ∧ b.operator_lt a = false) ∨
      (a.operator_lt b = false ∧ a.operator_eq b = true ∧ b.operator_lt a = false) ∨
      (a.operator_lt b = false ∧ a.operator_eq b = false ∧ b.operator_lt a = true)) ∧
    a.operator_ne b = !a.operator_eq b := by
  refine ⟨SoHandle.operator_lt_iff a b, SoHandle.operator_eq_iff_eq a b,
    SoHandle.operator_eq_iff a b, ?_, ?_, ?_, rfl⟩
  · rw [SoHandle.operator_lt_false_iff]
    generalize a.GetNumaNode = x
    generalize a.GetElementIdx = u
    omega
  · rw [SoHandle.operator_lt_iff, SoHandle.operator_lt_iff, SoHandle.operator_lt_iff]
    generalize a.GetNumaNode = x
    generalize a.GetElementIdx = u
    generalize b.GetNumaNode = y
    generalize b.GetElementIdx = v
    generalize c.GetNumaNode = z
    generalize c.GetElementIdx = w
    omega
  · rw [SoHandle.operator_lt_false_iff a b, SoHandle.operator_lt_false_iff b a,
      SoHandle.operator_eq_false_iff a b, SoHandle.operator_lt_iff a b,
      SoHandle.operator_lt_iff b a, SoHandle.operator_eq_iff a b]
    generalize a.GetNumaNode = x
    generalize a.GetElementIdx = u
    generalize b.GetNumaNode = y
    generalize b.GetElementIdx = v
    omega

/-- C27 at the handles (0, 5), (1, 0) and (1, 7). -/
theorem C27_handle_order_witness :
    (SoHandle.make 0 5).operator_lt (SoHandle.make 1 0) = true ∧
    (SoHandle.make 1 0).operator_lt (SoHandle.make 1 7) = true ∧
    (SoHandle.make 0 5).operator_lt (SoHandle.make 1 7) = true :=
  ⟨by decide, by decide,
    (C27_handle_order (SoHandle.make 0 5) (SoHandle.make 1 0) (SoHandle.make 1 7)).2.2.2.2.1
      (by decide) (by decide)⟩

end bdm

namespace bdm

open ResourceManager

/-- C25 as stated fails: `filled 4294967296` satisfies the store invariant and
stores the uid 0 at slot 0 of partition 0, which holds `2^32` agents. After
`push_back` of an agent with the uid 0 the appended slot is slot `2^32`, and the
entry of the uid 0 is the handle (0, 0): it points at the earlier slot, which is
reachable through the uid 0, and not at the appended slot. -/
theorem C25_counterexample :
    StoreInvariant (filled 4294967296) ∧
    (filled 4294967296).Contains (agent 0).uid = true ∧
    (filled 4294967296).slotAt 0 0 = some (agent 0) ∧
    ∃ rm1, (filled 4294967296).push_back (agent 0) ⟨0, by decide⟩ = .ok rm1 ∧
      rm1.slotAt 0 4294967296 = some (agent 0) ∧
      rm1.slotAt 0 0 = some (agent 0) ∧
      UnorderedMap.find rm1.uid_soh_map_ (agent 0).uid = some (SoHandle.make 0 0) ∧
      (SoHandle.make 0 0).PointsTo 0 0 ∧
      ¬ (SoHandle.make 0 0).PointsTo 0 4294967296 := by
  have hq := filled_partition 4294967296
  have hlen : ((List.range 4294967296).map agent).length = 4294967296 := by
    rw [List.length_map, List.length_range]
  have hfind : UnorderedMap.find (filled 4294967296).uid_soh_map_ 0 =
      some (SoHandle.make 0 (size_t_pred (0 + 1))) := by
    rw [filled_find, if_pos (by omega)]
  have hslot : (filled 4294967296).slotAt 0 0 = some (agent 0) := by
    rw [filled_slotAt, if_pos (by omega)]
  refine ⟨filled_invariant _ (le_refl _), ?_, hslot, _,
    push_back_of_partition (agent 0) (p := ⟨0, by decide⟩) hq, ?_, ?_, ?_,
    by decide, by decide⟩
  · exact (Contains_iff _ _).mpr ⟨_, hfind⟩
  · rw [slotAt_push_back (agent 0) (p := 0) hq, if_pos rfl, hlen, if_neg (by omega),
      if_pos rfl]
  · rw [slotAt_push_back (agent 0) (p := 0) hq, if_pos rfl, hlen, if_pos (by omega),
      ← slotAt_eq hq]
    exact hslot
  · show UnorderedMap.find (UnorderedMap.assign _ (agent 0).uid _) (agent 0).uid = _
    rw [UnorderedMap.find_assign_self, hlen]
    rfl

/-- C25 as amended. For every store that satisfies the store invariant, every
agent `so` whose uid is stored and every partition `p` that exists and holds
fewer than `2^32` agents, `push_back(so, p)` returns and leaves two slots that
hold this uid, the slot of before the call and the appended slot, and no
third; the IdentityMap keeps a single entry for the uid, which points at the
appended slot; the total count exceeds the number of IdentityMap entries by
one, and no entry of the IdentityMap points at the earlier slot. -/
theorem C25_duplicate_push_back (rm : ResourceManager) (hinv : StoreInvariant rm)
    (so : SimObject) (p : NumaNode_t) (hp : p.val < rm.sim_objects_.length)
    (hcap : rm.partitionSize p.val < 4294967296)
    (hdup : rm.Contains so.uid = true) :
    ∃ rm1 soh old soh1, rm.push_back so p = .ok rm1 ∧
      UnorderedMap.find rm.uid_soh_map_ so.uid = some soh ∧
      rm.slotAt soh.GetNumaNode soh.GetElementIdx = some old ∧ old.uid = so.uid ∧
      rm1.slotAt soh.GetNumaNode soh.GetElementIdx = some old ∧
      rm1.slotAt p.val (rm.partitionSize p.val) = some so ∧
      ¬ soh.PointsTo p.val (rm.partitionSize p.val) ∧
      (∀ n i a, rm1.slotAt n i = some a → a.uid = so.uid →
        (n = soh.GetNumaNode ∧ i = soh.GetElementIdx) ∨
          (n = p.val ∧ i = rm.partitionSize p.val)) ∧
      UnorderedMap.find rm1.uid_soh_map_ so.uid = some soh1 ∧
      soh1.PointsTo p.val (rm.partitionSize p.val) ∧
      (rm1.uid_soh_map_.map Prod.fst).Nodup ∧
      rm1.GetNumSimObjects (-1) = .ok (UnorderedMap.size rm1.uid_soh_map_ + 1) ∧
      (∀ v sv, UnorderedMap.find rm1.uid_soh_map_ v = some sv →
        ¬ sv.PointsTo soh.GetNumaNode soh.GetElementIdx) := by
  obtain ⟨q, hq⟩ : ∃ q, rm.sim_objects_[p.val]? = some q :=
    ⟨_, List.getElem?_eq_getElem hp⟩
  rw [partitionSize_eq hq] at hcap ⊢
  obtain ⟨soh, hf⟩ := (Contains_iff rm so.uid).mp hdup
  obtain ⟨old, hold, holdu⟩ := hinv.entry_slot _ _ hf
  have hpt := make_pointsTo p.isLt hcap
  have hpush := push_back_of_partition so hq
  have hslot1 := slotAt_push_back so hq
    (UnorderedMap.assign rm.uid_soh_map_ so.uid
      (SoHandle.make p.val (size_t_pred (q.length + 1))))
  have hfind1 : ∀ v, UnorderedMap.find (UnorderedMap.assign rm.uid_soh_map_ so.uid
      (SoHandle.make p.val (size_t_pred (q.length + 1)))) v =
      if v = so.uid then some (SoHandle.make p.val (size_t_pred (q.length + 1)))
      else UnorderedMap.find rm.uid_soh_map_ v := by
    intro v
    by_cases hv : v = so.uid
    · rw [if_pos hv, hv, UnorderedMap.find_assign_self]
    · rw [if_neg hv, UnorderedMap.find_assign_ne _ _ hv]
  have hnew_empty : rm.slotAt p.val q.length = none := by
    rw [slotAt_eq hq, List.getElem?_eq_none_iff]
  have hne : ¬ soh.PointsTo p.val q.length := by
    rintro ⟨h1, h2⟩
    rw [h1, h2, hnew_empty] at hold
    cases hold
  have hkeep : ∀ n i a, rm.slotAt n i = some a →
      slotAt { uid_soh_map_ := UnorderedMap.assign rm.uid_soh_map_ so.uid
                 (SoHandle.make p.val (size_t_pred (q.length + 1)))
               sim_objects_ := rm.sim_objects_.set p.val (q ++ [so])
               diffusion_grids_ := rm.diffusion_grids_ } n i = some a := by
    intro n i a ha
    rw [hslot1]
    by_cases hn : n = p.val
    · rw [if_pos hn]
      rw [hn, slotAt_eq hq] at ha
      have hi : i < q.length := by
        by_contra hge
        rw [List.getElem?_eq_none_iff.mpr (by omega)] at ha
        cases ha
      rw [if_pos hi]
      exact ha
    · rw [if_neg hn]
      exact ha
  refine ⟨_, soh, old, _, hpush, hf, hold, holdu, hkeep _ _ _ hold, ?_, hne, ?_,
    (hfind1 so.uid).trans (if_pos rfl), hpt,
    UnorderedMap.keys_assign_nodup _ _ hinv.keys_nodup, ?_, ?_⟩
  · rw [hslot1, if_pos rfl, if_neg (lt_irrefl _), if_pos rfl]
  · intro n i a ha hau
    rw [hslot1] at ha
    by_cases hn : n = p.val
    · rw [if_pos hn] at ha
      by_cases hi : i < q.length
      · rw [if_pos hi, ← slotAt_eq hq, ← hn] at ha
        exact Or.inl (StoreInvariant.slot_uid_inj hinv.slot_entry ha hold (hau.trans holdu.symm))
      · rw [if_neg hi] at ha
        by_cases hi2 : i = q.length
        · exact Or.inr ⟨hn, hi2⟩
        · rw [if_neg hi2] at ha
          cases ha
    · rw [if_neg hn] at ha
      exact Or.inl (StoreInvariant.slot_uid_inj hinv.slot_entry ha hold (hau.trans holdu.symm))
  · rw [GetNumSimObjects_total]
    congr 1
    rw [UnorderedMap.size_assign_of_find _ hinv.keys_nodup hf, map_size_eq_total hinv]
    have hsum := sum_length_set rm.sim_objects_ p.val q (q ++ [so]) hq
    rw [List.length_append, List.length_singleton] at hsum
    show ((rm.sim_objects_.set p.val (q ++ [so])).map List.length).sum =
      (rm.sim_objects_.map List.length).sum + 1
    omega
  · intro v sv hv hsv
    rw [hfind1] at hv
    by_cases hvu : v = so.uid
    · rw [if_pos hvu] at hv
      cases hv
      obtain ⟨h1, h2⟩ := hsv
      obtain ⟨h3, h4⟩ := hpt
      exact hne ⟨h1.symm.trans h3, h2.symm.trans h4⟩
    · rw [if_neg hvu] at hv
      obtain ⟨a, ha, hau⟩ := hinv.entry_slot _ _ hv
      obtain ⟨h1, h2⟩ := hsv
      rw [h1, h2, hold] at ha
      cases ha
      exact hvu (hau.symm.trans holdu)

/-- C25 as amended, at `exampleStore` and an agent with the stored uid 2, pushed
into partition 1. -/
theorem C25_duplicate_push_back_witness :
    ∃ rm1 soh old soh1, exampleStore.push_back ⟨2, 21⟩ ⟨1, by decide⟩ = .ok rm1 ∧
      UnorderedMap.find exampleStore.uid_soh_map_ 2 = some soh ∧
      exampleStore.slotAt soh.GetNumaNode soh.GetElementIdx = some old ∧ old.uid = 2 ∧
      rm1.slotAt soh.GetNumaNode soh.GetElementIdx = some old ∧
      rm1.slotAt 1 (exampleStore.partitionSize 1) = some ⟨2, 21⟩ ∧
      ¬ soh.PointsTo 1 (exampleStore.partitionSize 1) ∧
      (∀ n i a, rm1.slotAt n i = some a → a.uid = 2 →
        (n = soh.GetNumaNode ∧ i = soh.GetElementIdx) ∨
          (n = 1 ∧ i = exampleStore.partitionSize 1)) ∧
      UnorderedMap.find rm1.uid_soh_map_ 2 = some soh1 ∧
      soh1.PointsTo 1 (exampleStore.partitionSize 1) ∧
      (rm1.uid_soh_map_.map Prod.fst).Nodup ∧
      rm1.GetNumSimObjects (-1) = .ok (UnorderedMap.size rm1.uid_soh_map_ + 1) ∧
      (∀ v sv, UnorderedMap.find rm1.uid_soh_map_ v = some sv →
        ¬ sv.PointsTo soh.GetNumaNode soh.GetElementIdx) :=
  C25_duplicate_push_back exampleStore (invariant_of_check (by decide)) ⟨2, 21⟩
    ⟨1, by decide⟩ (by decide) (by decide) (by decide)

end bdm

namespace bdm

/-- C28 (`ExtractSimulationName` returns the part of the path after its last
`/`). For every string `path` the function returns a result. When `path` holds
no `/`, the result is `path`; when it holds a `/`, `path` is some prefix, then
`/`, then the result. In both cases the result holds no `/`, and the function
applied to its own result returns the same result. -/
theorem C28_extract_simulation_name (path : String) :
    ∃ result, Simulation.ExtractSimulationName path = .ok result ∧
      ('/' ∉ path.data → result = path) ∧
      ('/' ∈ path.data → ∃ pre : String, path = pre ++ "/" ++ result) ∧
      '/' ∉ result.data ∧
      Simulation.ExtractSimulationName result = .ok result := by
  have hidem : ∀ r : String, '/' ∉ r.data → Simulation.ExtractSimulationName r = .ok r := by
    intro r hr
    unfold Simulation.ExtractSimulationName
    simp only [(StdString.find_last_of_none_iff r.data '/').mpr hr]
  cases hf : StdString.find_last_of path.data '/' with
  | none =>
    have hno := (StdString.find_last_of_none_iff path.data '/').mp hf
    exact ⟨path, hidem path hno, fun _ => rfl, fun h => absurd h hno, hno, hidem path hno⟩
  | some pos =>
    obtain ⟨hpos, hsplit, hrest⟩ := StdString.find_last_of_some hf
    have hsub : StdString.substr path.data (pos + 1) (path.data.length - 1) =
        .ok (path.data.drop (pos + 1)) := by
      unfold StdString.substr
      rw [if_neg (by omega), List.take_of_length_le (by rw [List.length_drop]; omega)]
    have hres : Simulation.ExtractSimulationName path = .ok ⟨path.data.drop (pos + 1)⟩ := by
      unfold Simulation.ExtractSimulationName
      simp only [hf, hsub]
    refine ⟨⟨path.data.drop (pos + 1)⟩, hres, fun hno => ?_, fun _ => ?_, hrest,
      hidem _ hrest⟩
    · exact absurd hf (by rw [(StdString.find_last_of_none_iff _ _).mpr hno]; simp)
    · refine ⟨⟨path.data.take pos⟩, String.ext ?_⟩
      rw [String.data_append, String.data_append]
      show path.data = (path.data.take pos ++ ['/']) ++ path.data.drop (pos + 1)
      rw [List.append_assoc]
      exact hsplit

/-- C28 at the paths `./build/cell_division` and `cell_division`. -/
theorem C28_extract_simulation_name_witness :
    Simulation.ExtractSimulationName "./build/cell_division" = .ok "cell_division" ∧
    Simulation.ExtractSimulationName "cell_division" = .ok "cell_division" ∧
    ∃ result, Simulation.ExtractSimulationName "a/b/" = .ok result ∧
      ('/' ∈ "a/b/".data → ∃ pre : String, "a/b/" = pre ++ "/" ++ result) ∧
      '/' ∉ result.data := by
  refine ⟨by decide, by decide, ?_⟩
  obtain ⟨result, h, _, h2, h3, _⟩ := C28_extract_simulation_name "a/b/"
  exact ⟨result, h, h2, h3⟩

/-- C29 (unique simulation name). `InitializeUniqueName` sets `name_` to the
simulation name and `unique_name_` to the name when the id of the simulation is
0, and to the name followed by the decimal representation of the id when the id
is greater than 0; the decimal representation determines the id. Two
simulations with the same name and different ids have different unique
names. -/
theorem C29_unique_name (self other : Simulation) (simulation_name : String) :
    (self.InitializeUniqueName simulation_name).name_ = simulation_name ∧
    (self.id_ = 0 →
      (self.InitializeUniqueName simulation_name).unique_name_ = simulation_name) ∧
    (self.id_ > 0 →
      (self.InitializeUniqueName simulation_name).unique_name_ =
        simulation_name ++ Nat.repr self.id_) ∧
    (Nat.repr self.id_).data.foldl (fun acc c => 10 * acc + (c.toNat - 48)) 0 = self.id_ ∧
    (self.id_ ≠ other.id_ →
      (self.InitializeUniqueName simulation_name).unique_name_ ≠
        (other.InitializeUniqueName simulation_name).unique_name_) := by
  have h0 : ∀ s : Simulation, s.id_ = 0 →
      (s.InitializeUniqueName simulation_name).unique_name_ = simulation_name := by
    intro s hs
    unfold Simulation.InitializeUniqueName
    simp only [hs, gt_iff_lt, lt_self_iff_false, if_false]
  have h1 : ∀ s : Simulation, s.id_ > 0 →
      (s.InitializeUniqueName simulation_name).unique_name_ =
        simulation_name ++ Nat.repr s.id_ := by
    intro s hs
    unfold Simulation.InitializeUniqueName
    simp only [hs, if_true]
    rfl
  refine ⟨rfl, h0 self, h1 self, repr_value _, fun hne => ?_⟩
  by_cases ha : self.id_ = 0
  · have hb : other.id_ > 0 := by omega
    rw [h0 self ha, h1 other hb]
    exact String.ne_append_of_ne_empty (repr_ne_empty _)
  · have ha1 : self.id_ > 0 := by omega
    by_cases hb : other.id_ = 0
    · rw [h0 other hb, h1 self ha1]
      exact fun h => String.ne_append_of_ne_empty (repr_ne_empty _) h.symm
    · have hb1 : other.id_ > 0 := by omega
      rw [h1 self ha1, h1 other hb1]
      intro h
      exact hne (repr_injective (String.append_left_cancel h))

/-- C29 at two simulations with the ids 0 and 12 and the name `sim`. -/
theorem C29_unique_name_witness :
    (exampleSimulation.InitializeUniqueName "sim").unique_name_ = "sim" ∧
    ({ exampleSimulation with id_ := 12 }.InitializeUniqueName "sim").unique_name_ =
      "sim12" ∧
    (exampleSimulation.InitializeUniqueName "sim").unique_name_ ≠
      ({ exampleSimulation with id_ := 12 }.InitializeUniqueName "sim").unique_name_ :=
  ⟨by decide, by decide,
    (C29_unique_name exampleSimulation { exampleSimulation with id_ := 12 } "sim").2.2.2.2
      (by decide)⟩

end bdm

namespace bdm

/-- C23 (a missing configuration is fatal at start-up). When the environment
variable `BDM_CMAKE_DIR` is not set, `InitializeRuntimeParams` ends in the
fatal error of `Log::Fatal` after its one `Log::Info` line, and `Initialize`
ends in that fault: it does not return, and the object at the fault is the one
on which `InitializeRuntimeParams` was called, whose resource manager, grid,
scheduler, execution contexts and random generators are those of before
`Initialize`, since `InitializeMembers` has not run. -/
theorem C23_missing_configuration (self : Simulation) (env : Environment) (counter_ : Nat)
    (argv : List String) (set_param : Param → Param) (path : String)
    (hargv : argv[0]? = some path) (henv : env.getenv "BDM_CMAKE_DIR" = none) :
    ∃ simulation_name s1,
      Simulation.ExtractSimulationName path = .ok simulation_name ∧
      s1 = Simulation.InitializeUniqueName { self with id_ := counter_ } simulation_name ∧
      (s1.InitializeRuntimeParams env argv set_param).2 = .error Fault.fatal ∧
      (self.Initialize env counter_ argv set_param).2.2 = .error (Fault.fatal, s1) ∧
      (self.Initialize env counter_ argv set_param).2.1 =
        [LogEntry.info "" ("Initialize new simulation using BioDynaMo " ++ env.Version_String)] ∧
      (¬ ∃ sim1, (self.Initialize env counter_ argv set_param).2.2 = .ok sim1) ∧
      s1.rm_ = self.rm_ ∧ s1.grid_ = self.grid_ ∧ s1.scheduler_ = self.scheduler_ ∧
      s1.exec_ctxt_ = self.exec_ctxt_ ∧ s1.random_ = self.random_ := by
  obtain ⟨simulation_name, hname⟩ := Simulation.ExtractSimulationName_total path
  have hrt := Simulation.InitializeRuntimeParams_unset
    (Simulation.InitializeUniqueName { self with id_ := counter_ } simulation_name)
    argv set_param henv
  have hinit : self.Initialize env counter_ argv set_param =
      ((counter_ + 1) % 18446744073709551616,
        [LogEntry.info "" ("Initialize new simulation using BioDynaMo " ++ env.Version_String)],
        .error (Fault.fatal,
          Simulation.InitializeUniqueName { self with id_ := counter_ } simulation_name)) := by
    unfold Simulation.Initialize
    simp only [hargv, hname, hrt]
  refine ⟨simulation_name, _, hname, rfl, ?_, ?_, ?_, ?_, rfl, rfl, rfl, rfl, rfl⟩
  · rw [hrt]
  · rw [hinit]
  · rw [hinit]
  · rintro ⟨sim1, h⟩
    rw [hinit] at h
    cases h

/-- C23 at `bareEnvironment`, in which `BDM_CMAKE_DIR` is not set. -/
theorem C23_missing_configuration_witness :
    bareEnvironment.getenv "BDM_CMAKE_DIR" = none ∧
    ∃ s1, (exampleSimulation.Initialize bareEnvironment 0 ["./sim"] id).2.2 =
        .error (Fault.fatal, s1) ∧
      s1.rm_ = exampleSimulation.rm_ ∧ s1.grid_ = none ∧ s1.scheduler_ = none := by
  obtain ⟨_, s1, _, _, _, h, _, _, h1, h2, h3, _⟩ :=
    C23_missing_configuration exampleSimulation bareEnvironment 0 ["./sim"] id "./sim" rfl rfl
  exact ⟨rfl, s1, h, h1, h2, h3⟩

/-- C30 (backup and restore options of the command line). When
`BDM_CMAKE_DIR` is set, `InitializeRuntimeParams` returns, and the parameters
that it hands to `set_param` are: when the backup file option is not empty,
the parameters from the defaults and the config file with `backup_file_` and
`restore_file_` replaced by the two options; when the backup file option is
empty, the parameters from the defaults and the config file unchanged, so a
restore file option is not copied and `restore_file_` keeps its value. -/
theorem C30_backup_restore_options (self : Simulation) (env : Environment)
    (argv : List String) (set_param : Param → Param) (cmake : String)
    (henv : env.getenv "BDM_CMAKE_DIR" = some cmake) :
    ∃ config param1 : Param,
      config =
        (if env.FileExists "bdm.toml" then env.AssignFromConfig "bdm.toml" env.Param_t
          else if env.FileExists "../bdm.toml" then
            env.AssignFromConfig "../bdm.toml" env.Param_t
          else env.Param_t) ∧
      (self.InitializeRuntimeParams env argv set_param).2 =
        .ok { self with param_ := set_param param1 } ∧
      ((env.DefaultSimulationOptionParser argv).backup_file_ ≠ "" →
        param1.backup_file_ = (env.DefaultSimulationOptionParser argv).backup_file_ ∧
        param1.restore_file_ = (env.DefaultSimulationOptionParser argv).restore_file_ ∧
        param1.output_dir_ = config.output_dir_) ∧
      ((env.DefaultSimulationOptionParser argv).backup_file_ = "" →
        param1 = config ∧ param1.restore_file_ = config.restore_file_ ∧
        param1.backup_file_ = config.backup_file_) := by
  refine ⟨_, _, rfl, Simulation.InitializeRuntimeParams_set self argv set_param henv _ rfl,
    fun h => ?_, fun h => ?_⟩
  · rw [if_pos h]
    exact ⟨rfl, rfl, rfl⟩
  · rw [if_neg (not_not.mpr h)]
    exact ⟨rfl, rfl, rfl⟩

/-- C30 at `sourcedEnvironment`, whose command line gives the restore file
`restore.root` and no backup file: `restore_file_` keeps its default; and at
`backupEnvironment`, whose command line gives both: both are copied. -/
theorem C30_backup_restore_options_witness :
    (∃ sim1, (exampleSimulation.InitializeRuntimeParams sourcedEnvironment [] id).2 = .ok sim1 ∧
      sim1.param_.restore_file_ = "" ∧ sim1.param_.backup_file_ = "") ∧
    (∃ sim1, (exampleSimulation.InitializeRuntimeParams backupEnvironment [] id).2 = .ok sim1 ∧
      sim1.param_.restore_file_ = "restore.root" ∧
      sim1.param_.backup_file_ = "backup.root") := by
  constructor
  · obtain ⟨config, param1, hc, h, _, h2⟩ :=
      C30_backup_restore_options exampleSimulation sourcedEnvironment [] id
        "/opt/biodynamo/cmake" rfl
    obtain ⟨h3, _, _⟩ := h2 rfl
    refine ⟨_, h, ?_, ?_⟩
    · show param1.restore_file_ = ""
      rw [h3, hc]
      rfl
    · show param1.backup_file_ = ""
      rw [h3, hc]
      rfl
  · obtain ⟨config, param1, hc, h, h1, _⟩ :=
      C30_backup_restore_options exampleSimulation backupEnvironment [] id
        "/opt/biodynamo/cmake" rfl
    obtain ⟨h3, h4, _⟩ := h1 (by decide)
    exact ⟨_, h, h4, h3⟩

end bdm
